import Mathlib

/-!
# GraphQL-Network-App: resolvers, error taxonomy and pagination

A shallow embedding of `src/server/errors.js`, `src/server/models.js`,
`src/server/i18n.js`, `src/server/resolvers.js` and
`src/server/v2/resolvers2.js`.

Conventions of the embedding.

* A JavaScript exception is a value of `JsError`; an `async` resolver that
  reads the store is a function into `Except JsError _`, a resolver that
  writes the store returns the outcome together with the store it leaves.
* The document store (mongoose / MongoDB) is the structure `Store`: three
  ordered collections and `fault`, which tells for each kind of round trip
  whether the store rejects it (store unreachable, read-only, ...) and with
  which error.  The primitives (`countDocuments`,
  `find().sort().skip().limit()`, `findById`, `findOne`, `save`, ...) are
  modelled in the namespace `Mongo` after the documented behaviour of the
  library: a query document is cast to the schema and compiled to a
  predicate, a cursor is ordered, skipped and limited.
* What depends on the outside world (the regular-expression engine of the
  store, date parsing and formatting, token signing) is a field of `Env`.
  Values produced by the clock or the id generator (`Date.now()`,
  `new ObjectId()`) are explicit arguments of the resolvers that use them.
* GraphQL `Int` arguments are `Int`; counts are `Nat`.  `Math.ceil(n / limit)`
  is exact on these ranges (see `mathCeilDiv`).
* An absent (`undefined`) argument or input field is `none`.
-/

namespace NetworkApp

/-! ## JavaScript values -/

/-- Truthiness of an optional string: `undefined` and `""` are falsy. -/
def truthy : Option String → Bool
  | none => false
  | some s => s != ""

/-- A JavaScript number as produced by `Math.ceil(n / limit)`. -/
inductive JsNum where
  | fin (n : Int)
  | posInf
  | nan
  deriving DecidableEq, Repr

/-- `Math.ceil(n / limit)` for a count `n` and an integer `limit`.
For `limit = 0` the quotient is `NaN` (`0/0`) or `Infinity`; otherwise the
quotient of two integers below `2^53` rounds to the same ceiling as the exact
rational, which is `-⌊-n / limit⌋`. -/
def mathCeilDiv (n : Nat) (limit : Int) : JsNum :=
  if limit = 0 then (if n = 0 then .nan else .posInf)
  else .fin (-(Int.fdiv (-(n : Int)) limit))

/-! ## errors.js -/

/-- The five subclasses of `GraphQLError`. -/
inductive ErrorClass where
  | ParamsNotValidError
  | BodyNotValidError
  | ResourceNotFoundError
  | PathNotFoundError
  | ServerError
  deriving DecidableEq, Repr

/-- The `code` each subclass passes to `super(message, code, details)`. -/
def ErrorClass.code : ErrorClass → String
  | .ParamsNotValidError => "PARAMS_NOT_VALID"
  | .BodyNotValidError => "BODY_NOT_VALID"
  | .ResourceNotFoundError => "RESOURCE_NOT_FOUND"
  | .PathNotFoundError => "PATH_NOT_FOUND"
  | .ServerError => "SERVER_ERROR"

/-- The default `message` of each subclass constructor. -/
def ErrorClass.defaultMessage : ErrorClass → String
  | .ParamsNotValidError => "Invalid parameters"
  | .BodyNotValidError => "Invalid input data"
  | .ResourceNotFoundError => "Resource not found"
  | .PathNotFoundError => "Invalid operation or path"
  | .ServerError => "Internal server error"

/-- A JSON value stored in a `details` map. -/
inductive Json where
  | null
  | bool (b : Bool)
  | num (n : Int)
  | str (s : String)
  deriving DecidableEq, Repr

/-- A JavaScript object with string keys, in insertion order, keys distinct. -/
abbrev JsObject := List (String × Json)

/-- Property read `o[k]`. -/
def JsObject.get (o : JsObject) (k : String) : Option Json :=
  (o.find? (fun p => p.1 == k)).map (fun p => p.2)

/-- Property write `o[k] = v`: an existing key keeps its position. -/
def JsObject.set : JsObject → String → Json → JsObject
  | [], k, v => [(k, v)]
  | (k', v') :: rest, k, v =>
    if k' == k then (k, v) :: rest else (k', v') :: JsObject.set rest k v

/-- Object spread `{ ...base, ...extra }`: the properties of `extra` are
written onto `base` in order. -/
def JsObject.spread (base extra : JsObject) : JsObject :=
  extra.foldl (fun acc p => acc.set p.1 p.2) base

/-- An instance of one of the five `GraphQLError` subclasses: its class, which
fixes `this.code`, and the `message` and `details` it was constructed with. -/
structure GraphQLError where
  cls : ErrorClass
  message : String
  details : JsObject
  deriving DecidableEq, Repr

/-- Property `this.code`, set by the constructor of the subclass. -/
def GraphQLError.code (e : GraphQLError) : String :=
  e.cls.code

/-- Constructor `new C(message, details)` of subclass `C`, with the defaults
`message = <default of C>` and `details = {}` for absent arguments. -/
def GraphQLError.new (cls : ErrorClass) (message : Option String) (details : Option JsObject) :
    GraphQLError :=
  { cls := cls
    message := message.getD cls.defaultMessage
    details := details.getD [] }

/-- The wire shape returned by `toGraphQLError`. -/
structure WireError where
  message : String
  extensions : JsObject
  deriving DecidableEq, Repr

/-- Method `toGraphQLError()`:
`{ message: this.message, extensions: { code: this.code, ...this.details } }`. -/
def GraphQLError.toGraphQLError (e : GraphQLError) : WireError :=
  { message := e.message
    extensions := JsObject.spread [("code", .str e.code)] e.details }

/-- A thrown JavaScript value: an instance of a taxonomy class, or any other
`Error` with its `name`, `message` and optional numeric `code`
(`11000` for a duplicate-key rejection of the store). -/
inductive JsError where
  | typed (e : GraphQLError)
  | other (name : String) (message : String) (code : Option Int)
  deriving DecidableEq, Repr

/-- Equality of the outcomes of a computation that may throw is decidable. -/
instance instDecidableEqExcept {ε α : Type} [DecidableEq ε] [DecidableEq α] :
    DecidableEq (Except ε α)
  | .ok a, .ok b =>
    if h : a = b then isTrue (by rw [h]) else isFalse (fun h' => h (Except.ok.inj h'))
  | .error a, .error b =>
    if h : a = b then isTrue (by rw [h]) else isFalse (fun h' => h (Except.error.inj h'))
  | .ok _, .error _ => isFalse (fun h => Except.noConfusion h)
  | .error _, .ok _ => isFalse (fun h => Except.noConfusion h)

/-- Property `error.message`. -/
def JsError.message : JsError → String
  | .typed e => e.message
  | .other _ m _ => m

/-- Test `error instanceof C`. -/
def JsError.instanceOf (e : JsError) (c : ErrorClass) : Bool :=
  match e with
  | .typed g => g.cls == c
  | .other _ _ _ => false

/-- Property `error.name`: the taxonomy classes do not set it, so it is
inherited from `Error`. -/
def JsError.name : JsError → String
  | .typed _ => "Error"
  | .other n _ _ => n

/-- Test `error.code === 11000`: the code of a taxonomy error is a string. -/
def JsError.codeIs11000 : JsError → Bool
  | .typed _ => false
  | .other _ _ c => c == some 11000

/-- The taxonomy code carried by a thrown value, if it carries one. -/
def JsError.taxonomyCode : JsError → Option String
  | .typed e => some e.code
  | .other _ _ _ => none

/-- Expression `new C(message)` thrown from a resolver. -/
def mkError (cls : ErrorClass) (message : String) : JsError :=
  .typed (GraphQLError.new cls (some message) none)

/-! ## i18n.js -/

/-- The `en` translation table of `resources`. -/
def resourcesEn : List (String × String) :=
  [ ("firstName", "First Name"), ("lastName", "Last Name"), ("email", "Email"),
    ("phone", "Phone"), ("gender", "Gender"), ("dateOfBirth", "Date of Birth"),
    ("text", "Text"), ("likes", "Likes"), ("tags", "Tags"),
    ("publishDate", "Publish Date"), ("message", "Message"),
    ("userNotFound", "User not found"), ("postNotFound", "Post not found"),
    ("commentNotFound", "Comment not found"),
    ("invalidUserID", "Invalid user ID format"),
    ("invalidPostID", "Invalid post ID format"),
    ("invalidCommentID", "Invalid comment ID format"),
    ("missingRequiredFields", "Missing required fields: \x7b\x7bfields\x7d\x7d"),
    ("failedToFetchUsers", "Failed to fetch users"),
    ("failedToFetchPosts", "Failed to fetch posts"),
    ("failedToFetchComments", "Failed to fetch comments"),
    ("emailExists", "Email already exists"),
    ("failedToCreateUser", "failed To Create User") ]

/-- The `fr` translation table of `resources`. -/
def resourcesFr : List (String × String) :=
  [ ("firstName", "Prénom"), ("lastName", "Nom"), ("email", "Courriel"),
    ("phone", "Téléphone"), ("gender", "Genre"), ("dateOfBirth", "Date de naissance"),
    ("male", "homme"), ("female", "femme"),
    ("text", "Texte"), ("likes", "J\x27aimes"), ("tags", "Mots-clés"),
    ("publishDate", "Date de publication"), ("message", "Message"),
    ("userNotFound", "Utilisateur non trouvé"), ("postNotFound", "Publication non trouvée"),
    ("commentNotFound", "Commentaire non trouvé"),
    ("invalidUserID", "Format d\x27ID utilisateur invalide"),
    ("invalidPostID", "Format d\x27ID de publication invalide"),
    ("invalidCommentID", "Format d\x27ID de commentaire invalide"),
    ("missingRequiredFields", "Champs obligatoires manquants: \x7b\x7bfields\x7d\x7d"),
    ("failedToFetchUsers", "Échec de la récupération des utilisateurs"),
    ("failedToFetchPosts", "Échec de la récupération des publications"),
    ("failedToFetchComments", "Échec de la récupération des commentaires"),
    ("emailExists", "Ce courriel existe déjà"),
    ("failedToCreateUser", "Échec de la création de l\x27utilisateur"),
    ("currentPage", "Page actuelle"), ("totalRecords", "nombreTotal"),
    ("totalPages", "Nombre total de pages"), ("hasNextPage", "Prochaine page?"),
    ("hasPreviousPage", "Page précédente?") ]

/-- The table `resources[lng].translation`, for the two configured languages. -/
def resources (lng : String) : List (String × String) :=
  if lng == "fr" then resourcesFr else if lng == "en" then resourcesEn else []

/-- Look a key up in a translation table. -/
def lookupKey (table : List (String × String)) (key : String) : Option String :=
  (table.find? (fun p => p.1 == key)).map (fun p => p.2)

/-- Replace each placeholder `\x7b\x7bname\x7d\x7d` by the value passed for `name`. -/
def interpolate (template : String) (vars : List (String × String)) : String :=
  vars.foldl (fun acc v => acc.replace ("\x7b\x7b" ++ v.1 ++ "\x7d\x7d") v.2) template

/-- Call `i18next.t(key, { lng, ...vars })` under the configuration of
`i18next.init`: the table of `lng`, then the table of `fallbackLng: 'en'`,
then the key itself. -/
def i18nextT (key : String) (lng : String) (vars : List (String × String)) : String :=
  match lookupKey (resources lng) key with
  | some v => interpolate v vars
  | none =>
    match lookupKey resourcesEn key with
    | some v => interpolate v vars
    | none => key

/-- Call `i18next.t(value, { lng })` on a possibly absent value: an
`undefined` key translates to the empty string. -/
def i18nextTOpt (key : Option String) (lng : String) : String :=
  match key with
  | none => ""
  | some k => i18nextT k lng []

/-- The table `dateFormats`, with the fallback `dateFormats[locale] || dateFormats.en`. -/
def dateFormats (locale : String) : String :=
  if locale == "fr" then "DD/MM/YYYY" else "MM/DD/YYYY"

/-- What the resolvers take from outside the repository. -/
structure Env where
  /-- Compile a pattern for a case-insensitive search (`$regex` with
  `$options: "i"`, `new RegExp(p, "i")`); `none` for a pattern the engine
  rejects. -/
  regex : String → Option (String → Bool)
  /-- Expression `new Date(text)`: `none` is `Invalid Date`, otherwise the instant in
  milliseconds. -/
  parseDate : String → Option Int
  /-- Call `moment(date).format(pattern)`. -/
  momentFormat : String → Int → String
  /-- Call `jwt.sign(\x7b userId, email \x7d, process.env.JWT_SECRET, \x7b expiresIn: '1d' \x7d)`. -/
  jwtSign : String → String → Except JsError String

/-- Function `formatDate(date, locale)`. -/
def formatDate (env : Env) (date : Option Int) (locale : String) : Option String :=
  match date with
  | none => none
  | some d => some (env.momentFormat (dateFormats locale) d)

/-! ## models.js -/

/-- Property `length` of a JavaScript string: the number of UTF-16 code units. -/
def jsLength (s : String) : Nat :=
  s.toList.foldl (fun n c => n + (if c.toNat < 65536 then 1 else 2)) 0

/-- Method `mongoose.Types.ObjectId.isValid(id)` on a string: 24 hexadecimal
digits.  (Old versions of the library also accept every string of 12
characters; the results below use `isValid` only through `"not-an-id"` being
rejected and through accepted identifiers being castable.) -/
def ObjectId.isValid (id : String) : Bool :=
  id.length == 24 &&
    id.toList.all (fun c => c.isDigit || ('a' ≤ c && c ≤ 'f') || ('A' ≤ c && c ≤ 'F'))

/-- Cast of a string to an `ObjectId`, in its canonical lower-case form. -/
def ObjectId.cast (id : String) : Option String :=
  if ObjectId.isValid id then some id.toLower else none

/-- The nested path `location` of `UserSchema`. -/
structure Location where
  street : Option String
  city : Option String
  state : Option String
  country : Option String
  timezone : Option String
  deriving DecidableEq, Repr

/-- A stored document of `UserSchema`. -/
structure User where
  _id : String
  idempotencyKey : Option String
  title : String
  firstName : String
  lastName : String
  gender : Option String
  email : String
  dateOfBirth : Option Int
  registerDate : Int
  phone : Option String
  picture : Option String
  location : Option Location
  deriving DecidableEq, Repr

/-- A stored document of `PostSchema`. -/
structure Post where
  _id : String
  idempotencyKey : Option String
  text : String
  image : Option String
  likes : Int
  tags : List String
  owner : String
  publishDate : Int
  deriving DecidableEq, Repr

/-- A stored document of `CommentSchema`. -/
structure Comment where
  _id : String
  message : String
  owner : String
  post : String
  publishDate : Int
  deriving DecidableEq, Repr

/-- Validators `minlength` / `maxlength` on an optional string path. -/
def lengthBetween (lo hi : Nat) : Option String → Bool
  | none => true
  | some s => lo ≤ jsLength s && jsLength s ≤ hi

/-- Validator `enum` on an optional string path. -/
def inEnum (allowed : List String) : Option String → Bool
  | none => true
  | some s => allowed.contains s

/-- Validators of the `location` paths. -/
def Location.validate (l : Location) : Bool :=
  lengthBetween 5 100 l.street && lengthBetween 2 30 l.city &&
    lengthBetween 2 30 l.state && lengthBetween 2 30 l.country

/-- Validators of `UserSchema`, run by `save()`. -/
def User.validate (u : User) : Bool :=
  inEnum ["mr", "miss", "dr", ""] (some u.title) &&
    u.firstName != "" && lengthBetween 2 50 (some u.firstName) &&
    u.lastName != "" && lengthBetween 2 50 (some u.lastName) &&
    inEnum ["male", "female"] u.gender &&
    u.email != "" &&
    (match u.location with
      | none => true
      | some l => l.validate)

/-- Validators of `PostSchema`, run by `save()`. -/
def Post.validate (p : Post) : Bool :=
  p.text != "" && lengthBetween 6 1000 (some p.text)

/-- Validators of `CommentSchema`, run by `save()`. -/
def Comment.validate (c : Comment) : Bool :=
  c.message != "" && lengthBetween 2 500 (some c.message)

/-! ## The document store -/

/-- The kinds of round trip to the store. -/
inductive StoreOp where
  | count
  | find
  | findOne
  | findById
  | save
  | update
  | delete
  | populate
  deriving DecidableEq, Repr

/-- The state of the document store. -/
structure Store where
  users : List User
  posts : List Post
  comments : List Comment
  /-- The failures of the store: `fault op = some e` when a round trip of
  kind `op` is rejected with `e` (store unreachable, read-only, ...). -/
  fault : StoreOp → Option JsError

namespace Mongo

/-- A round trip of kind `op` reaches the store or is rejected. -/
def reach (s : Store) (op : StoreOp) : Except JsError Unit :=
  match s.fault op with
  | some e => .error e
  | none => .ok ()

/-- The error mongoose raises for a value it cannot cast to the type of its path. -/
def castError (path : String) : JsError :=
  .other "CastError" ("Cast failed for path " ++ path) none

/-- The error `save()` raises when a validator or a cast of the document fails. -/
def validationError (model : String) : JsError :=
  .other "ValidationError" (model ++ " validation failed") none

/-- The error of the store for a violated unique index (`E11000`). -/
def duplicateKeyError (index : String) : JsError :=
  .other "MongoServerError" ("E11000 duplicate key error index: " ++ index) (some 11000)

/-- The error of the store for a regular expression it cannot compile. -/
def regexError (pattern : String) : JsError :=
  .other "MongoServerError" ("Regular expression is invalid: " ++ pattern) none

/-- The error of the store for a negative `skip`. -/
def skipError : JsError :=
  .other "MongoServerError" "skip value must be non-negative" none

/-- The value a document holds at a path. -/
inductive FieldVal where
  | missing
  | str (s : String)
  | strs (l : List String)
  | oid (id : String)
  | date (ms : Int)
  | num (n : Int)
  deriving DecidableEq, Repr

/-- The schema type of a path. -/
inductive PathType where
  | string
  | stringArray
  | objectId
  | date
  | number
  deriving DecidableEq, Repr

/-- A condition on one path of a query document. -/
inductive Cond where
  /-- A case-insensitive pattern: `{ $regex: p, $options: "i" }` or a `RegExp` object. -/
  | regex (pattern : String)
  /-- A plain value: equality, or membership for an array path. -/
  | eq (value : String)
  /-- The operator `{ $in: values }`. -/
  | isIn (values : List String)
  /-- The operator `{ $gte: date }`; `none` is `Invalid Date`. -/
  | gte (date : Option Int)
  deriving DecidableEq, Repr

/-- One top-level entry of a query document. -/
inductive Clause where
  | path (name : String) (c : Cond)
  | or (alternatives : List (String × Cond))
  deriving Repr

/-- A query document: the conjunction of its entries. -/
abbrev Query := List Clause

/-- A field a cursor can be ordered by. -/
inductive SortField where
  | createdAt
  | registerDate
  | likes
  | publishDate
  deriving DecidableEq, Repr

/-- A sort document with one key, such as `{ registerDate: -1 }`:
`ascending` is `1`, descending is `-1`. -/
structure SortSpec where
  field : SortField
  ascending : Bool
  deriving DecidableEq, Repr

/-- An argument of the cursor method `sort`, as the resolvers pass it. -/
inductive SortArg where
  /-- A sort document with one key. -/
  | doc (spec : SortSpec)
  /-- An object without own keys (`Object.prototype`): nothing to sort by. -/
  | noKeys
  /-- A function (a method inherited from `Object.prototype`): no string,
  object or array, `sort` throws. -/
  | method
  deriving DecidableEq, Repr

/-- A mongoose model: its collection in the store, the types of its schema
paths, and how to read a document. -/
structure Model (α : Type) where
  docs : Store → List α
  schema : String → Option PathType
  field : α → String → FieldVal
  sortKey : SortField → α → Option Int

/-- Cast a condition to the type of its path and compile it to a test on the
value of that path.  A value that cannot be cast and a pattern the engine
rejects are errors, as is a combination no resolver builds. -/
def compileCond (env : Env) (path : String) (t : PathType) (c : Cond) :
    Except JsError (FieldVal → Bool) :=
  match t, c with
  | .string, .regex p =>
    match env.regex p with
    | none => .error (regexError p)
    | some test => .ok (fun v => match v with
        | .str s => test s
        | _ => false)
  | .string, .eq x => .ok (fun v => v == .str x)
  | .stringArray, .regex p =>
    match env.regex p with
    | none => .error (regexError p)
    | some test => .ok (fun v => match v with
        | .strs l => l.any test
        | _ => false)
  | .stringArray, .eq x => .ok (fun v => match v with
      | .strs l => l.contains x
      | _ => false)
  | .stringArray, .isIn xs => .ok (fun v => match v with
      | .strs l => l.any (fun t => xs.contains t)
      | _ => false)
  | .objectId, .eq x =>
    match ObjectId.cast x with
    | none => .error (castError path)
    | some id => .ok (fun v => v == .oid id)
  | .date, .gte d =>
    match d with
    | none => .error (castError path)
    | some t => .ok (fun v => match v with
        | .date x => decide (t ≤ x)
        | _ => false)
  | _, _ => .error (castError path)

/-- Compile a condition on a named path of model `m`.  A path outside the
schema is held by no document. -/
def compilePath {α : Type} (env : Env) (m : Model α) (name : String) (c : Cond) :
    Except JsError (α → Bool) :=
  match m.schema name with
  | none =>
    match c with
    | .regex p =>
      match env.regex p with
      | none => .error (regexError p)
      | some _ => .ok (fun _ => false)
    | _ => .ok (fun _ => false)
  | some t => do
    let test ← compileCond env name t c
    pure (fun d => test (m.field d name))

/-- Compile the alternatives of an `$or`. -/
def compileOr {α : Type} (env : Env) (m : Model α) :
    List (String × Cond) → Except JsError (α → Bool)
  | [] => .ok (fun _ => false)
  | (name, c) :: rest => do
    let p ← compilePath env m name c
    let q ← compileOr env m rest
    pure (fun d => p d || q d)

/-- Compile one entry of a query document. -/
def compileClause {α : Type} (env : Env) (m : Model α) : Clause → Except JsError (α → Bool)
  | .path name c => compilePath env m name c
  | .or alternatives => compileOr env m alternatives

/-- Compile a query document to the predicate it selects documents with. -/
def compile {α : Type} (env : Env) (m : Model α) : Query → Except JsError (α → Bool)
  | [] => .ok (fun _ => true)
  | cl :: rest => do
    let p ← compileClause env m cl
    let q ← compile env m rest
    pure (fun d => p d && q d)

/-- Order of sort keys: a missing field (`none`) sorts before every value. -/
def keyLe : Option Int → Option Int → Bool
  | none, _ => true
  | some _, none => false
  | some a, some b => decide (a ≤ b)

/-- Cursor method `sort(spec)`: the documents ordered by the key `spec.field`,
ascending or descending; documents with equal keys keep the order of the
collection. -/
def sort {α : Type} (key : SortField → α → Option Int) (spec : SortSpec) (docs : List α) :
    List α :=
  if spec.ascending then
    docs.insertionSort (fun a b => keyLe (key spec.field a) (key spec.field b) = true)
  else
    docs.insertionSort (fun a b => keyLe (key spec.field b) (key spec.field a) = true)

/-- Cursor methods `skip(skip).limit(limit)`: a negative `skip` is rejected,
`limit(0)` sets no limit and a negative limit bounds the result by its
absolute value. -/
def window {α : Type} (skip limit : Int) (docs : List α) : Except JsError (List α) :=
  if skip < 0 then .error skipError
  else if limit = 0 then .ok (docs.drop skip.toNat)
  else .ok ((docs.drop skip.toNat).take limit.natAbs)

/-- Primitive `Model.countDocuments(query)`. -/
def countDocuments {α : Type} (env : Env) (m : Model α) (s : Store) (query : Query) :
    Except JsError Nat := do
  let p ← compile env m query
  reach s .count
  pure ((m.docs s).filter p).length

/-- Primitive `Model.find(query).sort(spec).skip(skip).limit(limit)`; without a
call of `sort` the cursor is in collection order. -/
def find {α : Type} (env : Env) (m : Model α) (s : Store) (query : Query)
    (spec : Option SortSpec) (skip limit : Int) : Except JsError (List α) := do
  let p ← compile env m query
  reach s .find
  let matching := (m.docs s).filter p
  let ordered := match spec with
    | some sp => sort m.sortKey sp matching
    | none => matching
  window skip limit ordered

/-- The error `sort` throws for an argument that is no string, object or
array. -/
def sortTypeError : JsError :=
  .other "TypeError" "Invalid sort() argument. Must be a string, object, or array." none

/-- Chain `Model.find(query).sort(arg).skip(skip).limit(limit)` with the
argument the resolver computed: `sort` throws for a function while the chain
is built, and sorts by nothing for an object without keys. -/
def findSorted {α : Type} (env : Env) (m : Model α) (s : Store) (query : Query)
    (arg : SortArg) (skip limit : Int) : Except JsError (List α) :=
  match arg with
  | .doc spec => find env m s query (some spec) skip limit
  | .noKeys => find env m s query none skip limit
  | .method => .error sortTypeError

/-- Primitive `Model.find(query)` with no cursor method. -/
def findAll {α : Type} (env : Env) (m : Model α) (s : Store) (query : Query) :
    Except JsError (List α) := do
  let p ← compile env m query
  reach s .find
  pure ((m.docs s).filter p)

/-- Primitive `Model.findOne(query)`: the first matching document or `null`. -/
def findOne {α : Type} (env : Env) (m : Model α) (s : Store) (query : Query) :
    Except JsError (Option α) := do
  let p ← compile env m query
  reach s .findOne
  pure ((m.docs s).find? p)

/-- Primitive `Model.findById(id)`. -/
def findById {α : Type} (m : Model α) (s : Store) (id : String) :
    Except JsError (Option α) :=
  match ObjectId.cast id with
  | none => .error (castError "_id")
  | some oid => do
    reach s .findById
    pure ((m.docs s).find? (fun d => m.field d "_id" == .oid oid))

end Mongo

/-- Lift an optional value to a field value. -/
def optStr : Option String → Mongo.FieldVal
  | none => .missing
  | some s => .str s

/-- The model `User` of `models.js`. -/
def UserModel : Mongo.Model User where
  docs := fun s => s.users
  schema := fun name =>
    if name == "_id" then some .objectId
    else if name == "dateOfBirth" || name == "registerDate" then some .date
    else if ["idempotencyKey", "title", "firstName", "lastName", "gender", "email",
        "phone", "picture"].contains name then some .string
    else none
  field := fun u name =>
    if name == "_id" then .oid u._id
    else if name == "idempotencyKey" then optStr u.idempotencyKey
    else if name == "title" then .str u.title
    else if name == "firstName" then .str u.firstName
    else if name == "lastName" then .str u.lastName
    else if name == "gender" then optStr u.gender
    else if name == "email" then .str u.email
    else if name == "dateOfBirth" then (match u.dateOfBirth with
      | none => .missing
      | some d => .date d)
    else if name == "registerDate" then .date u.registerDate
    else if name == "phone" then optStr u.phone
    else if name == "picture" then optStr u.picture
    else .missing
  sortKey := fun f u => match f with
    | .registerDate => some u.registerDate
    | _ => none

/-- The model `Post` of `models.js`. -/
def PostModel : Mongo.Model Post where
  docs := fun s => s.posts
  schema := fun name =>
    if name == "_id" || name == "owner" then some .objectId
    else if name == "publishDate" then some .date
    else if name == "likes" then some .number
    else if name == "tags" then some .stringArray
    else if ["idempotencyKey", "text", "image"].contains name then some .string
    else none
  field := fun p name =>
    if name == "_id" then .oid p._id
    else if name == "idempotencyKey" then optStr p.idempotencyKey
    else if name == "text" then .str p.text
    else if name == "image" then optStr p.image
    else if name == "likes" then .num p.likes
    else if name == "tags" then .strs p.tags
    else if name == "owner" then .oid p.owner
    else if name == "publishDate" then .date p.publishDate
    else .missing
  sortKey := fun f p => match f with
    | .likes => some p.likes
    | .publishDate => some p.publishDate
    | _ => none

/-- The model `Comment` of `models.js`. -/
def CommentModel : Mongo.Model Comment where
  docs := fun s => s.comments
  schema := fun name =>
    if name == "_id" || name == "owner" || name == "post" then some .objectId
    else if name == "publishDate" then some .date
    else if name == "message" then some .string
    else none
  field := fun c name =>
    if name == "_id" then .oid c._id
    else if name == "message" then .str c.message
    else if name == "owner" then .oid c.owner
    else if name == "post" then .oid c.post
    else if name == "publishDate" then .date c.publishDate
    else .missing
  sortKey := fun f c => match f with
    | .publishDate => some c.publishDate
    | _ => none

/-! ## Arguments and results of the resolvers -/

/-- The GraphQL context the resolvers read. -/
structure Context where
  language : String
  apiVersion : String
  deriving DecidableEq, Repr

/-- Input type `UserFilterInput`. -/
structure UserFilterInput where
  firstName : Option String
  lastName : Option String
  gender : Option String
  email : Option String
  deriving DecidableEq, Repr

/-- Input type `PostFilterInput`. -/
structure PostFilterInput where
  text : Option String
  owner : Option String
  tags : Option (List String)
  publishDate : Option String
  deriving DecidableEq, Repr

/-- Input type `CommentFilterInput`. -/
structure CommentFilterInput where
  message : Option String
  publishDate : Option String
  deriving DecidableEq, Repr

/-- The arguments `{ page, limit, sort, filter }` of a list resolver. -/
structure ListArgs (F : Type) where
  page : Option Int
  limit : Option Int
  sort : Option String
  filter : Option F

/-- The `pagination` block of a list response. -/
structure Pagination where
  totalRecords : Nat
  totalPages : JsNum
  currentPage : Int
  hasNextPage : Bool
  hasPreviousPage : Bool
  deriving DecidableEq, Repr

/-- A list response `{ data, pagination }`. -/
structure PageResult (α : Type) where
  data : List α
  pagination : Pagination
  deriving DecidableEq

/-- The object literal every list resolver returns under `pagination`. -/
def paginationBlock (total : Nat) (page limit : Int) : Pagination :=
  { totalRecords := total
    totalPages := mathCeilDiv total limit
    currentPage := page
    hasNextPage := decide (page * limit < (total : Int))
    hasPreviousPage := decide (page > 1) }

/-- A post or comment with its `owner` path populated (`null` when the owner
is not in the store). -/
structure Populated (α : Type) where
  doc : α
  owner : Option User
  deriving DecidableEq

/-- The object `{ id, ...user.toObject(), gender, registerDate, email }` built by
the `users` resolver: `doc` holds the spread fields, the other fields are the
ones written after the spread. -/
structure UserView where
  id : String
  doc : User
  gender : String
  registerDate : Option String
  email : Option String
  deriving DecidableEq, Repr

/-- The object `{ ...user.toObject(), gender, registerDate }` built by the
`user` resolver. -/
structure UserDetail where
  doc : User
  gender : String
  registerDate : Option String
  deriving DecidableEq, Repr

/-- The object `{ id, ...post.toObject(), publishDate }` built by the post
resolvers. -/
structure PostView where
  id : String
  doc : Populated Post
  publishDate : Option String
  deriving DecidableEq

/-- The object returned by `apiInfo`. -/
structure ApiInfo where
  version : String
  releaseDate : Option String
  deprecated : Bool
  deriving DecidableEq, Repr

/-- A reference held by the parent object of a nested resolver. -/
inductive Ref (α : Type) where
  /-- The parent carries a value whose `id` is truthy. -/
  | embedded (value : α)
  /-- The parent carries a bare identifier. -/
  | bare (id : String)

/-- A `try { body } catch (error) { throw handler(error) }` block. -/
def tryCatch {α : Type} (body : Except JsError α) (handler : JsError → JsError) :
    Except JsError α :=
  match body with
  | .ok r => .ok r
  | .error error => .error (handler error)

/-- Chain step `.populate('owner')` of a query on posts. -/
def populatePost (s : Store) (p : Post) : Populated Post :=
  { doc := p, owner := s.users.find? (fun u => u._id == p.owner) }

/-- Chain step `.populate('owner')` of a query on comments. -/
def populateComment (s : Store) (c : Comment) : Populated Comment :=
  { doc := c, owner := s.users.find? (fun u => u._id == c.owner) }

/-- The property names every object literal inherits from `Object.prototype`:
for these `table[sort]` is the inherited value when the table has no such
key. -/
def objectPrototypeNames : List String :=
  ["constructor", "hasOwnProperty", "isPrototypeOf", "propertyIsEnumerable", "toLocaleString",
   "toString", "valueOf", "__proto__", "__defineGetter__", "__defineSetter__",
   "__lookupGetter__", "__lookupSetter__"]

/-- Constant `sortOptions` at the top of both resolver files. -/
def sortOptions : List (String × Mongo.SortSpec) :=
  [ ("createdAt_asc", ⟨.createdAt, true⟩),
    ("createdAt_desc", ⟨.createdAt, false⟩),
    ("registerDate_asc", ⟨.registerDate, true⟩),
    ("registerDate_desc", ⟨.registerDate, false⟩),
    ("likes_asc", ⟨.likes, true⟩),
    ("likes_desc", ⟨.likes, false⟩) ]

/-- Constant `sortOptions` local to `postsByTag`. -/
def postsByTagSortOptions : List (String × Mongo.SortSpec) :=
  [ ("createdAt_asc", ⟨.createdAt, true⟩),
    ("created_desc", ⟨.createdAt, false⟩),
    ("likes_asc", ⟨.likes, true⟩),
    ("likes_desc", ⟨.likes, false⟩) ]

/-- Expression `table[sort] || fallback`.  A key of the table gives its entry.
Any other name is looked up on `Object.prototype`: `__proto__` gives that
object, which has no key to sort by, the other inherited names give a
method; a name that is not inherited gives `fallback`. -/
def sortOr (table : List (String × Mongo.SortSpec)) (sort : String)
    (fallback : Mongo.SortSpec) : Mongo.SortArg :=
  match table.find? (fun p => p.1 == sort) with
  | some p => .doc p.2
  | none =>
    if sort == "__proto__" then .noKeys
    else if objectPrototypeNames.contains sort then .method
    else .doc fallback

/-- The `query` object the `users` resolvers build from `filter`. -/
def usersQuery (filter : Option UserFilterInput) : Mongo.Query :=
  match filter with
  | none => []
  | some f =>
    (if truthy f.firstName then [.path "firstName" (.regex (f.firstName.getD ""))] else []) ++
    (if truthy f.lastName then [.path "lastName" (.regex (f.lastName.getD ""))] else []) ++
    (if truthy f.gender then [.path "gender" (.eq (f.gender.getD ""))] else [])

/-- The `query` object the `posts` resolvers build from `filter`. -/
def postsQuery (env : Env) (filter : Option PostFilterInput) : Mongo.Query :=
  match filter with
  | none => []
  | some f =>
    (if truthy f.text then [.path "text" (.regex (f.text.getD ""))] else []) ++
    (if truthy f.owner then [.path "owner" (.eq (f.owner.getD ""))] else []) ++
    (match f.tags with
      | some tags => [.path "tags" (.isIn tags)]
      | none => []) ++
    (if truthy f.publishDate then
      [.path "publishDate" (.gte (env.parseDate (f.publishDate.getD "")))] else [])

/-- The entries the comment resolvers add to `query` from `filter`. -/
def commentsFilter (env : Env) (filter : Option CommentFilterInput) : Mongo.Query :=
  match filter with
  | none => []
  | some f =>
    (if truthy f.message then [.path "message" (.regex (f.message.getD ""))] else []) ++
    (if truthy f.publishDate then
      [.path "publishDate" (.gte (env.parseDate (f.publishDate.getD "")))] else [])

/-- The `$or` query of `searchUsers`. -/
def searchUsersQuery (query : String) : Mongo.Query :=
  [ .or [ ("firstName", .regex query), ("lastName", .regex query),
          ("email", .regex query), ("phone", .regex query) ] ]

/-- The `$or` query of `searchPosts`. -/
def searchPostsQuery (query : String) : Mongo.Query :=
  [ .or [ ("text", .regex query), ("tags", .regex query), ("link", .regex query) ] ]

/-- Expression `new RegExp(query, "i")`: a `SyntaxError` for a pattern the engine rejects. -/
def newRegExp (env : Env) (query : String) : Except JsError Unit :=
  match env.regex query with
  | none => .error (.other "SyntaxError" ("Invalid regular expression: " ++ query) none)
  | some _ => .ok ()

/-- Expression `[...new Set(allTags)]`: the distinct elements in order of first occurrence. -/
def uniqueOf (allTags : List String) : List String :=
  allTags.foldl (fun acc t => if acc.contains t then acc else acc ++ [t]) []

/-! ## resolvers.js: queries -/

namespace Resolvers

namespace Query

/-- Resolver `apiInfo`; `now` is `new Date()`. -/
def apiInfo (env : Env) (now : Int) (ctx : Context) : ApiInfo :=
  { version := "1.0", releaseDate := formatDate env (some now) ctx.language, deprecated := false }

/-- Resolver `users`. -/
def users (env : Env) (s : Store) (args : ListArgs UserFilterInput) (ctx : Context) :
    Except JsError (PageResult UserView) :=
  let page := args.page.getD 1
  let limit := args.limit.getD 10
  let sort := args.sort.getD "registerDate_desc"
  tryCatch (do
      let skip := (page - 1) * limit
      let query := usersQuery args.filter
      let totalUsers ← Mongo.countDocuments env UserModel s query
      let users ← Mongo.findSorted env UserModel s query
        (sortOr sortOptions sort ⟨.registerDate, false⟩) skip limit
      let users : List UserView :=
        if ctx.apiVersion == "2.0" then
          users.map (fun user =>
            { id := user._id
              doc := user
              gender := i18nextTOpt user.gender ctx.language
              registerDate := formatDate env (some user.registerDate) ctx.language
              email := none })
        else
          users.map (fun user =>
            { id := user._id
              doc := user
              gender := i18nextTOpt user.gender ctx.language
              registerDate := formatDate env (some user.registerDate) ctx.language
              email := some user.email })
      pure { data := users, pagination := paginationBlock totalUsers page limit })
    (fun _ => mkError .ServerError (i18nextT "failedToFetchUsers" ctx.language []))

/-- Resolver `user`. -/
def user (env : Env) (s : Store) (id : String) (ctx : Context) : Except JsError UserDetail :=
  tryCatch (do
      if !ObjectId.isValid id then
        throw (mkError .ParamsNotValidError (i18nextT "invalidUserID" ctx.language []))
      let user ← Mongo.findById UserModel s id
      match user with
      | none => throw (mkError .ResourceNotFoundError (i18nextT "userNotFound" ctx.language []))
      | some user =>
        pure { doc := user
               gender := i18nextTOpt user.gender ctx.language
               registerDate := formatDate env (some user.registerDate) ctx.language })
    (fun error =>
      if error.instanceOf .ParamsNotValidError || error.instanceOf .ResourceNotFoundError
      then error
      else mkError .ServerError (i18nextT "failedToFetchUser" ctx.language []))

/-- Resolver `posts`. -/
def posts (env : Env) (s : Store) (args : ListArgs PostFilterInput) (ctx : Context) :
    Except JsError (PageResult PostView) :=
  let page := args.page.getD 1
  let limit := args.limit.getD 10
  let sort := args.sort.getD "createdAt_desc"
  tryCatch (do
      let query := postsQuery env args.filter
      let skip := (page - 1) * limit
      let totalPosts ← Mongo.countDocuments env PostModel s query
      let posts ← Mongo.findSorted env PostModel s query
        (sortOr sortOptions sort ⟨.publishDate, false⟩) skip limit
      let posts := posts.map (populatePost s)
      let localizedPosts : List PostView := posts.map (fun post =>
        { id := post.doc._id
          doc := post
          publishDate := formatDate env (some post.doc.publishDate) ctx.language })
      pure { data := localizedPosts, pagination := paginationBlock totalPosts page limit })
    (fun _ => mkError .ServerError (i18nextT "failedToFetchPosts" ctx.language []))

/-- Resolver `searchUsers`. -/
def searchUsers (env : Env) (s : Store) (query : String) (page limit : Option Int) :
    Except JsError (PageResult User) :=
  let page := page.getD 1
  let limit := limit.getD 10
  tryCatch (do
      let skip := (page - 1) * limit
      newRegExp env query
      let totalUsers ← Mongo.countDocuments env UserModel s (searchUsersQuery query)
      let users ← Mongo.find env UserModel s (searchUsersQuery query) none skip limit
      pure { data := users, pagination := paginationBlock totalUsers page limit })
    (fun _ => mkError .ServerError "Failed to search users")

/-- Resolver `post`. -/
def post (env : Env) (s : Store) (id : String) (ctx : Context) : Except JsError PostView :=
  tryCatch (do
      if !ObjectId.isValid id then
        throw (mkError .ParamsNotValidError (i18nextT "invalidPostID" ctx.language []))
      let post ← Mongo.findById PostModel s id
      match post with
      | none => throw (mkError .ResourceNotFoundError (i18nextT "postNotFound" ctx.language []))
      | some post =>
        pure { doc := populatePost s post
               id := post._id
               publishDate := formatDate env (some post.publishDate) ctx.language })
    (fun error =>
      if error.instanceOf .ParamsNotValidError || error.instanceOf .ResourceNotFoundError
      then error
      else mkError .ServerError (i18nextT "failedToFetchPost" ctx.language []))

/-- Resolver `searchPosts`. -/
def searchPosts (env : Env) (s : Store) (query : String) (page limit : Option Int) :
    Except JsError (PageResult (Populated Post)) :=
  let page := page.getD 1
  let limit := limit.getD 10
  tryCatch (do
      let skip := (page - 1) * limit
      newRegExp env query
      let totalPosts ← Mongo.countDocuments env PostModel s (searchPostsQuery query)
      let posts ← Mongo.find env PostModel s (searchPostsQuery query) none skip limit
      pure { data := posts.map (populatePost s)
             pagination := paginationBlock totalPosts page limit })
    (fun _ => mkError .ServerError "Failed to search posts")

/-- Resolver `commentsByPost`. -/
def commentsByPost (env : Env) (s : Store) (postId : String)
    (args : ListArgs CommentFilterInput) : Except JsError (PageResult (Populated Comment)) :=
  let page := args.page.getD 1
  let limit := args.limit.getD 10
  let sort := args.sort.getD "createdAt_desc"
  tryCatch (do
      if !ObjectId.isValid postId then
        throw (mkError .ParamsNotValidError "Invalid post ID format")
      let query := Mongo.Clause.path "post" (.eq postId) :: commentsFilter env args.filter
      let skip := (page - 1) * limit
      let totalComments ← Mongo.countDocuments env CommentModel s query
      let comments ← Mongo.findSorted env CommentModel s query
        (sortOr sortOptions sort ⟨.publishDate, false⟩) skip limit
      pure { data := comments.map (populateComment s)
             pagination := paginationBlock totalComments page limit })
    (fun _ => mkError .ServerError "Failed to fetch comments")

/-- Resolver `commentsByUser`. -/
def commentsByUser (env : Env) (s : Store) (userId : String)
    (args : ListArgs CommentFilterInput) : Except JsError (PageResult (Populated Comment)) :=
  let page := args.page.getD 1
  let limit := args.limit.getD 10
  let sort := args.sort.getD "createdAt_desc"
  tryCatch (do
      if !ObjectId.isValid userId then
        throw (mkError .ParamsNotValidError "Invalid user ID format")
      let query := Mongo.Clause.path "owner" (.eq userId) :: commentsFilter env args.filter
      let skip := (page - 1) * limit
      let totalComments ← Mongo.countDocuments env CommentModel s query
      let comments ← Mongo.findSorted env CommentModel s query
        (sortOr sortOptions sort ⟨.publishDate, false⟩) skip limit
      pure { data := comments.map (populateComment s)
             pagination := paginationBlock totalComments page limit })
    (fun _ => mkError .ServerError "Failed to fetch comments")

/-- Resolver `postsByUser`. -/
def postsByUser (env : Env) (s : Store) (userId : String) (page limit : Option Int)
    (sort : Option String) : Except JsError (PageResult (Populated Post)) :=
  let page := page.getD 1
  let limit := limit.getD 10
  let sort := sort.getD "createdAt_desc"
  tryCatch (do
      if !ObjectId.isValid userId then
        throw (mkError .ParamsNotValidError "Invalid user ID format")
      let skip := (page - 1) * limit
      let totalPosts ← Mongo.countDocuments env PostModel s [.path "owner" (.eq userId)]
      let posts ← Mongo.findSorted env PostModel s [.path "owner" (.eq userId)]
        (sortOr sortOptions sort ⟨.publishDate, false⟩) skip limit
      pure { data := posts.map (populatePost s)
             pagination := paginationBlock totalPosts page limit })
    (fun _ => mkError .ServerError "Failed to fetch posts")

/-- Resolver `postsByTag`. -/
def postsByTag (env : Env) (s : Store) (tag : String) (page limit : Option Int)
    (sort : Option String) : Except JsError (PageResult (Populated Post)) :=
  let page := page.getD 1
  let limit := limit.getD 10
  let sort := sort.getD "createdAt_desc"
  tryCatch (do
      let skip := (page - 1) * limit
      let totalPosts ← Mongo.countDocuments env PostModel s [.path "tags" (.eq tag)]
      let posts ← Mongo.findSorted env PostModel s [.path "tags" (.eq tag)]
        (sortOr postsByTagSortOptions sort ⟨.createdAt, false⟩) skip limit
      pure { data := posts.map (populatePost s)
             pagination := paginationBlock totalPosts page limit })
    (fun _ => mkError .ServerError "Failed to fetch posts by tag")

/-- Resolver `tags`. -/
def tags (env : Env) (s : Store) : Except JsError (List String) :=
  tryCatch (do
      let posts ← Mongo.findAll env PostModel s []
      let allTags := posts.foldl
        (fun allTags post => if post.tags.length > 0 then allTags ++ post.tags else allTags) []
      let uniqueTags := uniqueOf allTags
      pure uniqueTags)
    (fun _ => mkError .ServerError "Failed to fetch tags")

end Query

end Resolvers

/-! ## Mutation inputs and the writes of the store -/

/-- Input types `UserInput` and `UpdateUserInput` (the same fields). -/
structure UserInput where
  idempotencyKey : Option String
  title : Option String
  firstName : Option String
  lastName : Option String
  gender : Option String
  email : Option String
  dateOfBirth : Option String
  phone : Option String
  picture : Option String
  location : Option Location
  deriving DecidableEq, Repr

/-- Input types `PostInput` and `UpdatePostInput` (the same fields). -/
structure PostInput where
  idempotencyKey : Option String
  text : Option String
  image : Option String
  likes : Option Int
  link : Option String
  tags : Option (List String)
  owner : Option String
  deriving DecidableEq, Repr

/-- Input type `CommentInput`. -/
structure CommentInput where
  message : Option String
  owner : Option String
  post : Option String
  publishDate : Option String
  deriving DecidableEq, Repr

namespace Mongo

/-- Cast of an optional input string to a `Date` path: absent and empty
values are no date, an unreadable one fails (`none`). -/
def castDate (env : Env) : Option String → Option (Option Int)
  | none => some none
  | some t => if t == "" then some none else (env.parseDate t).map some

/-- Expression `new User({ ...userData, idempotencyKey })`, with the defaults of the
schema; `oid` is the generated `_id` and `now` is `Date.now()`.  The result
is `none` when a value cannot be cast, which `save()` reports. -/
def newUser (env : Env) (oid : String) (now : Int) (userData : UserInput)
    (idempotencyKey : Option String) : Option User :=
  match castDate env userData.dateOfBirth with
  | none => none
  | some dateOfBirth =>
    some { _id := oid
           idempotencyKey := idempotencyKey
           title := userData.title.getD ""
           firstName := userData.firstName.getD ""
           lastName := userData.lastName.getD ""
           gender := userData.gender
           email := userData.email.getD ""
           dateOfBirth := dateOfBirth
           registerDate := now
           phone := userData.phone
           picture := userData.picture
           location := userData.location }

/-- Expression `new Post({ ...postData, idempotencyKey })`. -/
def newPost (oid : String) (now : Int) (postData : PostInput)
    (idempotencyKey : Option String) : Option Post :=
  match ObjectId.cast (postData.owner.getD "") with
  | none => none
  | some owner =>
    some { _id := oid
           idempotencyKey := idempotencyKey
           text := postData.text.getD ""
           image := postData.image
           likes := postData.likes.getD 0
           tags := postData.tags.getD []
           owner := owner
           publishDate := now }

/-- Expression `new Comment({ message, owner, post, publishDate })`. -/
def newComment (oid : String) (message owner post : String) (publishDate : Option Int) :
    Option Comment :=
  match ObjectId.cast owner, ObjectId.cast post, publishDate with
  | some owner, some post, some publishDate =>
    some { _id := oid, message := message, owner := owner, post := post,
           publishDate := publishDate }
  | _, _, _ => none

/-- A user document collides with a stored one on a unique index: `_id`,
`email`, or the sparse index on `idempotencyKey`. -/
def userConflict (stored : List User) (u : User) : Bool :=
  stored.any (fun o => o._id == u._id || o.email == u.email ||
    (u.idempotencyKey.isSome && o.idempotencyKey == u.idempotencyKey))

/-- A post document collides with a stored one on a unique index. -/
def postConflict (stored : List Post) (p : Post) : Bool :=
  stored.any (fun o => o._id == p._id ||
    (p.idempotencyKey.isSome && o.idempotencyKey == p.idempotencyKey))

/-- Method `save()` of a new user document: validation, then the insert. -/
def saveUser (s : Store) (doc : Option User) : Except JsError (User × Store) :=
  match doc with
  | none => .error (validationError "User")
  | some u =>
    if !u.validate then .error (validationError "User")
    else do
      reach s .save
      if userConflict s.users u then throw (duplicateKeyError "users")
      pure (u, { s with users := s.users ++ [u] })

/-- Method `save()` of a new post document. -/
def savePost (s : Store) (doc : Option Post) : Except JsError (Post × Store) :=
  match doc with
  | none => .error (validationError "Post")
  | some p =>
    if !p.validate then .error (validationError "Post")
    else do
      reach s .save
      if postConflict s.posts p then throw (duplicateKeyError "posts")
      pure (p, { s with posts := s.posts ++ [p] })

/-- Method `save()` of a new comment document. -/
def saveComment (s : Store) (doc : Option Comment) : Except JsError (Comment × Store) :=
  match doc with
  | none => .error (validationError "Comment")
  | some c =>
    if !c.validate then .error (validationError "Comment")
    else do
      reach s .save
      if s.comments.any (fun o => o._id == c._id) then throw (duplicateKeyError "comments")
      pure (c, { s with comments := s.comments ++ [c] })

/-- The update document of `findByIdAndUpdate` applied to a user: only the
provided fields change. -/
def mergeUser (u : User) (input : UserInput) (dateOfBirth : Option Int) : User :=
  { u with
    idempotencyKey := input.idempotencyKey.orElse (fun _ => u.idempotencyKey)
    title := input.title.getD u.title
    firstName := input.firstName.getD u.firstName
    lastName := input.lastName.getD u.lastName
    gender := input.gender.orElse (fun _ => u.gender)
    email := input.email.getD u.email
    dateOfBirth := dateOfBirth.orElse (fun _ => u.dateOfBirth)
    phone := input.phone.orElse (fun _ => u.phone)
    picture := input.picture.orElse (fun _ => u.picture)
    location := input.location.orElse (fun _ => u.location) }

/-- Primitive `User.findByIdAndUpdate(id, input, \x7b new: true \x7d)`: the updated
document, or `null` when no document has this id. -/
def findUserByIdAndUpdate (env : Env) (s : Store) (id : String) (input : UserInput) :
    Except JsError (Option User × Store) :=
  match ObjectId.cast id, castDate env input.dateOfBirth with
  | some oid, some dateOfBirth => do
    reach s .update
    match s.users.find? (fun u => u._id == oid) with
    | none => pure (none, s)
    | some u =>
      let updated := mergeUser u input dateOfBirth
      if userConflict (s.users.filter (fun o => o._id != oid)) updated then
        throw (duplicateKeyError "users")
      pure (some updated,
        { s with users := s.users.map (fun o => if o._id == oid then updated else o) })
  | _, _ => .error (castError "update")

/-- The update document of `findByIdAndUpdate` applied to a post; `link` is
not a path of the schema and is dropped. -/
def mergePost (p : Post) (input : PostInput) (owner : Option String) : Post :=
  { p with
    idempotencyKey := input.idempotencyKey.orElse (fun _ => p.idempotencyKey)
    text := input.text.getD p.text
    image := input.image.orElse (fun _ => p.image)
    likes := input.likes.getD p.likes
    tags := input.tags.getD p.tags
    owner := owner.getD p.owner }

/-- Primitive `Post.findByIdAndUpdate(id, \x7b ...input \x7d, \x7b new: true \x7d)`. -/
def findPostByIdAndUpdate (s : Store) (id : String) (input : PostInput) :
    Except JsError (Option Post × Store) :=
  let owner : Option (Option String) := match input.owner with
    | none => some none
    | some o => (ObjectId.cast o).map some
  match ObjectId.cast id, owner with
  | some oid, some owner => do
    reach s .update
    match s.posts.find? (fun p => p._id == oid) with
    | none => pure (none, s)
    | some p =>
      let updated := mergePost p input owner
      if postConflict (s.posts.filter (fun o => o._id != oid)) updated then
        throw (duplicateKeyError "posts")
      pure (some updated,
        { s with posts := s.posts.map (fun o => if o._id == oid then updated else o) })
  | _, _ => .error (castError "update")

/-- Primitive `User.findByIdAndDelete(id)`: the deleted document, or `null`. -/
def findUserByIdAndDelete (s : Store) (id : String) : Except JsError (Option User × Store) :=
  match ObjectId.cast id with
  | none => .error (castError "_id")
  | some oid => do
    reach s .delete
    match s.users.find? (fun u => u._id == oid) with
    | none => pure (none, s)
    | some u => pure (some u, { s with users := s.users.filter (fun o => o._id != oid) })

/-- Primitive `Comment.findByIdAndDelete(id)`. -/
def findCommentByIdAndDelete (s : Store) (id : String) :
    Except JsError (Option Comment × Store) :=
  match ObjectId.cast id with
  | none => .error (castError "_id")
  | some oid => do
    reach s .delete
    match s.comments.find? (fun c => c._id == oid) with
    | none => pure (none, s)
    | some c => pure (some c, { s with comments := s.comments.filter (fun o => o._id != oid) })

/-- Method `doc.populate('owner')` of a post document: a round trip of its own. -/
def populatePostDoc (s : Store) (p : Post) : Except JsError (Populated Post) := do
  reach s .populate
  pure (populatePost s p)

/-- Method `doc.populate('owner')` of a comment document. -/
def populateCommentDoc (s : Store) (c : Comment) : Except JsError (Populated Comment) := do
  reach s .populate
  pure (populateComment s c)

end Mongo

/-! ## resolvers.js: `isValidEmail` -/

/-- The class `\s` of a JavaScript regular expression. -/
def isJsWhitespace (c : Char) : Bool :=
  let n := c.toNat
  n == 9 || n == 10 || n == 11 || n == 12 || n == 13 || n == 32 || n == 160 ||
    n == 5760 || (8192 ≤ n && n ≤ 8202) || n == 8232 || n == 8233 || n == 8239 ||
    n == 8287 || n == 12288 || n == 65279

/-- An item of an anchored regular expression: `[class]+` or a literal character. -/
inductive RegexItem where
  | plus (cls : Char → Bool)
  | lit (c : Char)

/-- Does the whole input match the sequence of items (the semantics of
`/^...$/.test`)? -/
def regexMatch : List RegexItem → List Char → Bool
  | [], [] => true
  | [], _ :: _ => false
  | _ :: _, [] => false
  | .lit c :: rest, x :: input => x == c && regexMatch rest input
  | .plus cls :: rest, x :: input =>
    cls x && (regexMatch rest input || regexMatch (.plus cls :: rest) input)

/-- The class `[^\s@]`. -/
def notSpaceOrAt (c : Char) : Bool :=
  !isJsWhitespace c && c != '@'

/-- Function `isValidEmail`: `/^[^\s@]+@[^\s@]+\.[^\s@]+$/.test(email)`. -/
def isValidEmail (email : String) : Bool :=
  regexMatch [.plus notSpaceOrAt, .lit '@', .plus notSpaceOrAt, .lit '.', .plus notSpaceOrAt]
    email.toList

/-! ## resolvers.js: mutations -/

/-- A `try { body } catch (error) { throw handler(error) }` block whose body
ends with its only write to the store: an exception leaves the store as it
was. -/
def tryCatchWrite {α : Type} (s : Store) (body : Except JsError (α × Store))
    (handler : JsError → JsError) : Except JsError α × Store :=
  match body with
  | .ok (r, s') => (.ok r, s')
  | .error error => (.error (handler error), s)

/-- What `createPost` and `createComment` resolve to: the stored document
found under the idempotency key, or the new document with its owner populated. -/
inductive Created (α : Type) where
  | existing (doc : α)
  | fresh (doc : Populated α)
  deriving DecidableEq

/-- The object returned by `login`. -/
structure AuthPayload where
  token : String
  id : String
  firstName : String
  lastName : String
  email : String
  deriving DecidableEq, Repr

namespace Resolvers

namespace Mutation

/-- Resolver `createUser`; `oid` is the `_id` generated by `new User` and `now`
is `Date.now()`. -/
def createUser (env : Env) (s : Store) (input : UserInput) (ctx : Context)
    (oid : String) (now : Int) : Except JsError User × Store :=
  tryCatchWrite s (do
      let idempotencyKey := input.idempotencyKey
      let userData := input
      if !truthy userData.firstName || !truthy userData.lastName || !truthy userData.email then
        throw (mkError .BodyNotValidError
          (i18nextT "missingRequiredFields" ctx.language
            [("fields", "firstName, lastName, email")]))
      if !isValidEmail (userData.email.getD "") then
        throw (mkError .BodyNotValidError (i18nextT "invalidEmailFormat" ctx.language []))
      let existingUser ←
        if truthy idempotencyKey then
          Mongo.findOne env UserModel s [.path "idempotencyKey" (.eq (idempotencyKey.getD ""))]
        else pure none
      match existingUser with
      | some existingUser => pure (existingUser, s)
      | none => Mongo.saveUser s (Mongo.newUser env oid now userData idempotencyKey))
    (fun error =>
      if error.instanceOf .BodyNotValidError then error
      else if error.name == "ValidationError" then
        mkError .BodyNotValidError
          (i18nextT "validationError" ctx.language [("error", error.message)])
      else if error.codeIs11000 then
        mkError .BodyNotValidError (i18nextT "emailExists" ctx.language [])
      else mkError .ServerError (i18nextT "failedToCreateUser" ctx.language []))

/-- Resolver `updateUser`. -/
def updateUser (env : Env) (s : Store) (id : String) (input : UserInput) :
    Except JsError User × Store :=
  tryCatchWrite s (do
      if !ObjectId.isValid id then
        throw (mkError .ParamsNotValidError "Invalid user ID format")
      let (user, s') ← Mongo.findUserByIdAndUpdate env s id input
      match user with
      | none => throw (mkError .ResourceNotFoundError "User not found")
      | some user => pure (user, s'))
    (fun error =>
      if error.instanceOf .ParamsNotValidError || error.instanceOf .ResourceNotFoundError
      then error
      else mkError .ServerError "Failed to update user")

/-- Resolver `deleteUser`. -/
def deleteUser (s : Store) (id : String) : Except JsError String × Store :=
  tryCatchWrite s (do
      if !ObjectId.isValid id then
        throw (mkError .ParamsNotValidError "Invalid user ID format")
      let (user, s') ← Mongo.findUserByIdAndDelete s id
      match user with
      | none => throw (mkError .ResourceNotFoundError "User not found")
      | some _ => pure (id, s'))
    (fun error =>
      if error.instanceOf .ParamsNotValidError || error.instanceOf .ResourceNotFoundError
      then error
      else mkError .ServerError "Failed to delete user")

/-- The `try` block of `createPost` up to its `return`: the stored post found
under the idempotency key, or the saved post and the store after the save. -/
def createPostTry (env : Env) (s : Store) (input : PostInput) (oid : String) (now : Int) :
    Except JsError (Post ⊕ (Post × Store)) := do
  let idempotencyKey := input.idempotencyKey
  let postData := input
  if !truthy postData.text || !truthy postData.owner then
    throw (mkError .BodyNotValidError "Missing required fields: text, owner")
  if !ObjectId.isValid (postData.owner.getD "") then
    throw (mkError .ParamsNotValidError "Invalid owner ID format")
  let existingPost ←
    if truthy idempotencyKey then
      Mongo.findOne env PostModel s [.path "idempotencyKey" (.eq (idempotencyKey.getD ""))]
    else pure none
  match existingPost with
  | some existingPost => pure (.inl existingPost)
  | none =>
    let saved ← Mongo.savePost s (Mongo.newPost oid now postData idempotencyKey)
    pure (.inr saved)

/-- Resolver `createPost`; `oid` is the `_id` generated by `new Post` and `now`
is `Date.now()`.  The promise of `newPost.populate('owner')` is returned
without `await`, so its rejection is not seen by the `catch`. -/
def createPost (env : Env) (s : Store) (input : PostInput) (oid : String) (now : Int) :
    Except JsError (Created Post) × Store :=
  match createPostTry env s input oid now with
  | .error _ => (.error (mkError .ServerError "Failed to create post"), s)
  | .ok (.inl existingPost) => (.ok (.existing existingPost), s)
  | .ok (.inr (newPost, s')) => ((Mongo.populatePostDoc s' newPost).map .fresh, s')

/-- Resolver `updatePost`. -/
def updatePost (env : Env) (s : Store) (id : String) (input : PostInput) (ctx : Context) :
    Except JsError PostView × Store :=
  tryCatchWrite s (do
      if !ObjectId.isValid id then
        throw (mkError .ParamsNotValidError (i18nextT "invalidPostID" ctx.language []))
      let (updatedPost, s') ← Mongo.findPostByIdAndUpdate s id input
      match updatedPost with
      | none => throw (mkError .ResourceNotFoundError (i18nextT "postNotFound" ctx.language []))
      | some updatedPost =>
        pure ({ doc := populatePost s' updatedPost
                id := updatedPost._id
                publishDate := formatDate env (some updatedPost.publishDate) ctx.language }, s'))
    (fun error =>
      if error.instanceOf .ParamsNotValidError || error.instanceOf .ResourceNotFoundError
      then error
      else mkError .ServerError (i18nextT "failedToUpdatePost" ctx.language []))

/-- The `try` block of `createComment` up to its `return`: the saved comment
and the store after the save. -/
def createCommentTry (env : Env) (s : Store) (input : CommentInput) (oid : String)
    (now : Int) : Except JsError (Comment × Store) := do
  let message := input.message
  let owner := input.owner
  let post := input.post
  if !truthy message || !truthy owner || !truthy post then
    throw (mkError .BodyNotValidError "Missing required fields: message, owner, post")
  if !ObjectId.isValid (owner.getD "") then
    throw (mkError .ParamsNotValidError "Invalid owner ID format")
  if !ObjectId.isValid (post.getD "") then
    throw (mkError .ParamsNotValidError "Invalid post ID format")
  let postExists ← Mongo.findById PostModel s (post.getD "")
  if postExists.isNone then
    throw (mkError .ResourceNotFoundError "Post not found")
  let ownerExists ← Mongo.findById UserModel s (owner.getD "")
  if ownerExists.isNone then
    throw (mkError .ResourceNotFoundError "User not found")
  let publishDate :=
    if truthy input.publishDate then env.parseDate (input.publishDate.getD "") else some now
  Mongo.saveComment s
    (Mongo.newComment oid (message.getD "") (owner.getD "") (post.getD "") publishDate)

/-- Resolver `createComment`; `oid` is the `_id` generated by `new Comment` and
`now` is `new Date()`.  As in `createPost` the promise of `populate` is
returned without `await`. -/
def createComment (env : Env) (s : Store) (input : CommentInput) (oid : String) (now : Int) :
    Except JsError (Populated Comment) × Store :=
  match createCommentTry env s input oid now with
  | .error error =>
    (.error (if error.instanceOf .BodyNotValidError ||
        error.instanceOf .ParamsNotValidError ||
        error.instanceOf .ResourceNotFoundError
      then error
      else mkError .ServerError "Failed to create comment"), s)
  | .ok (newComment, s') => (Mongo.populateCommentDoc s' newComment, s')

/-- Resolver `deleteComment`. -/
def deleteComment (s : Store) (id : String) : Except JsError String × Store :=
  tryCatchWrite s (do
      if !ObjectId.isValid id then
        throw (mkError .ParamsNotValidError "Invalid comment ID format")
      let (comment, s') ← Mongo.findCommentByIdAndDelete s id
      match comment with
      | none => throw (mkError .ResourceNotFoundError "Comment not found")
      | some _ => pure (id, s'))
    (fun error =>
      if error.instanceOf .ParamsNotValidError || error.instanceOf .ResourceNotFoundError
      then error
      else mkError .ServerError "Failed to delete comment")

/-- Resolver `login`. -/
def login (env : Env) (s : Store) (email : String) : Except JsError AuthPayload :=
  tryCatch (do
      let user ← Mongo.findOne env UserModel s [.path "email" (.eq email)]
      match user with
      | none => throw (.other "Error" "No user found with this email" none)
      | some user =>
        let token ← env.jwtSign user._id user.email
        pure { token := token, id := user._id, firstName := user.firstName,
               lastName := user.lastName, email := user.email })
    (fun error => .other "Error" ("Login failed: " ++ error.message) none)

end Mutation

namespace Post

/-- Nested resolver `Post.owner`. -/
def owner (s : Store) (owner : Ref User) (ctx : Context) : Except JsError (Option User) :=
  tryCatch (match owner with
      | .embedded value => pure (some value)
      | .bare id => Mongo.findById UserModel s id)
    (fun _ => mkError .ServerError (i18nextT "failedToFetchPostOwner" ctx.language []))

end Post

namespace Comment

/-- Nested resolver `Comment.owner`. -/
def owner (s : Store) (owner : Ref User) (ctx : Context) : Except JsError (Option User) :=
  tryCatch (match owner with
      | .embedded value => pure (some value)
      | .bare id => Mongo.findById UserModel s id)
    (fun _ => mkError .ServerError (i18nextT "failedToFetchCommentOwner" ctx.language []))

/-- Nested resolver `Comment.post`. -/
def post (s : Store) (post : Ref NetworkApp.Post) (ctx : Context) :
    Except JsError (Option NetworkApp.Post) :=
  tryCatch (match post with
      | .embedded value => pure (some value)
      | .bare id => Mongo.findById PostModel s id)
    (fun _ => mkError .ServerError (i18nextT "failedToFetchCommentPost" ctx.language []))

end Comment

end Resolvers

/-! ## v2/resolvers2.js

Where the text of a resolver in `resolvers2.js` is the text of the resolver of
the same name in `resolvers.js`, its definition below is that resolver. -/

/-- A user document read with `.select("-email")`: every path but `email`. -/
structure UserSansEmail where
  _id : String
  idempotencyKey : Option String
  title : String
  firstName : String
  lastName : String
  gender : Option String
  dateOfBirth : Option Int
  registerDate : Int
  phone : Option String
  picture : Option String
  location : Option Location
  deriving DecidableEq, Repr

/-- Cursor method `select("-email")` on one document. -/
def selectSansEmail (u : User) : UserSansEmail :=
  { _id := u._id, idempotencyKey := u.idempotencyKey, title := u.title,
    firstName := u.firstName, lastName := u.lastName, gender := u.gender,
    dateOfBirth := u.dateOfBirth, registerDate := u.registerDate, phone := u.phone,
    picture := u.picture, location := u.location }

namespace Resolvers2

namespace Query

/-- Resolver `apiInfo` (v2). -/
def apiInfo (env : Env) (now : Int) (ctx : Context) : ApiInfo :=
  { version := "2.0", releaseDate := formatDate env (some now) ctx.language, deprecated := false }

/-- Resolver `users` (v2). -/
def users (env : Env) (s : Store) (args : ListArgs UserFilterInput) :
    Except JsError (PageResult UserSansEmail) :=
  let page := args.page.getD 1
  let limit := args.limit.getD 10
  let sort := args.sort.getD "registerDate_desc"
  tryCatch (do
      let skip := (page - 1) * limit
      let query := usersQuery args.filter
      let totalUsers ← Mongo.countDocuments env UserModel s query
      let users ← Mongo.findSorted env UserModel s query
        (sortOr sortOptions sort ⟨.registerDate, false⟩) skip limit
      let users := users.map selectSansEmail
      pure { data := users, pagination := paginationBlock totalUsers page limit })
    (fun _ => mkError .ServerError "Failed to fetch users")

/-- Resolver `user` (v2). -/
def user (s : Store) (id : String) : Except JsError User :=
  tryCatch (do
      if !ObjectId.isValid id then
        throw (mkError .ParamsNotValidError "Invalid user ID format")
      let user ← Mongo.findById UserModel s id
      match user with
      | none => throw (mkError .ResourceNotFoundError "User not found")
      | some user => pure user)
    (fun error =>
      if error.instanceOf .ParamsNotValidError || error.instanceOf .ResourceNotFoundError
      then error
      else mkError .ServerError "Failed to fetch user")

/-- Resolver `searchUsers` (v2). -/
def searchUsers := Resolvers.Query.searchUsers

/-- Resolver `posts` (v2). -/
def posts (env : Env) (s : Store) (args : ListArgs PostFilterInput) :
    Except JsError (PageResult (Populated Post)) :=
  let page := args.page.getD 1
  let limit := args.limit.getD 10
  let sort := args.sort.getD "createdAt_desc"
  tryCatch (do
      let query := postsQuery env args.filter
      let skip := (page - 1) * limit
      let totalPosts ← Mongo.countDocuments env PostModel s query
      let posts ← Mongo.findSorted env PostModel s query
        (sortOr sortOptions sort ⟨.publishDate, false⟩) skip limit
      pure { data := posts.map (populatePost s)
             pagination := paginationBlock totalPosts page limit })
    (fun _ => mkError .ServerError "Failed to fetch posts")

/-- Resolver `post` (v2). -/
def post (s : Store) (id : String) : Except JsError (Populated Post) :=
  tryCatch (do
      if !ObjectId.isValid id then
        throw (mkError .ParamsNotValidError "Invalid post ID format")
      let post ← Mongo.findById PostModel s id
      match post with
      | none => throw (mkError .ResourceNotFoundError "Post not found")
      | some post => pure (populatePost s post))
    (fun error =>
      if error.instanceOf .ParamsNotValidError || error.instanceOf .ResourceNotFoundError
      then error
      else mkError .ServerError "Failed to fetch post")

/-- Resolver `searchPosts` (v2). -/
def searchPosts := Resolvers.Query.searchPosts

/-- Resolver `commentsByPost` (v2). -/
def commentsByPost := Resolvers.Query.commentsByPost

/-- Resolver `commentsByUser` (v2). -/
def commentsByUser := Resolvers.Query.commentsByUser

/-- Resolver `postsByUser` (v2). -/
def postsByUser := Resolvers.Query.postsByUser

/-- Resolver `postsByTag` (v2). -/
def postsByTag := Resolvers.Query.postsByTag

/-- Resolver `tags` (v2). -/
def tags := Resolvers.Query.tags

end Query

namespace Mutation

/-- Resolver `createUser` (v2). -/
def createUser (env : Env) (s : Store) (input : UserInput) (oid : String) (now : Int) :
    Except JsError User × Store :=
  tryCatchWrite s (do
      let idempotencyKey := input.idempotencyKey
      let userData := input
      if !truthy userData.firstName || !truthy userData.lastName || !truthy userData.email then
        throw (mkError .BodyNotValidError "Missing required fields: firstName, lastName, email")
      let existingUser ←
        if truthy idempotencyKey then
          Mongo.findOne env UserModel s [.path "idempotencyKey" (.eq (idempotencyKey.getD ""))]
        else pure none
      match existingUser with
      | some existingUser => pure (existingUser, s)
      | none => Mongo.saveUser s (Mongo.newUser env oid now userData idempotencyKey))
    (fun error =>
      if error.name == "ValidationError" then
        mkError .BodyNotValidError ("Validation error: " ++ error.message)
      else if error.codeIs11000 then mkError .BodyNotValidError "Email already exists"
      else mkError .ServerError "Failed to create user")

/-- Resolver `updateUser` (v2). -/
def updateUser := Resolvers.Mutation.updateUser

/-- Resolver `deleteUser` (v2). -/
def deleteUser := Resolvers.Mutation.deleteUser

/-- Resolver `createPost` (v2). -/
def createPost := Resolvers.Mutation.createPost

/-- Resolver `createComment` (v2). -/
def createComment := Resolvers.Mutation.createComment

/-- Resolver `deleteComment` (v2). -/
def deleteComment := Resolvers.Mutation.deleteComment

/-- Resolver `login` (v2). -/
def login := Resolvers.Mutation.login

end Mutation

namespace Post

/-- Nested resolver `Post.owner` (v2). -/
def owner (s : Store) (owner : Ref User) : Except JsError (Option User) :=
  tryCatch (match owner with
      | .embedded value => pure (some value)
      | .bare id => Mongo.findById UserModel s id)
    (fun _ => mkError .ServerError "Failed to fetch post owner")

end Post

namespace Comment

/-- Nested resolver `Comment.owner` (v2). -/
def owner (s : Store) (owner : Ref User) : Except JsError (Option User) :=
  tryCatch (match owner with
      | .embedded value => pure (some value)
      | .bare id => Mongo.findById UserModel s id)
    (fun _ => mkError .ServerError "Failed to fetch comment owner")

/-- Nested resolver `Comment.post` (v2). -/
def post (s : Store) (post : Ref NetworkApp.Post) : Except JsError (Option NetworkApp.Post) :=
  tryCatch (match post with
      | .embedded value => pure (some value)
      | .bare id => Mongo.findById PostModel s id)
    (fun _ => mkError .ServerError "Failed to fetch comment post")

end Comment

end Resolvers2

/-! ## index.js: JavaScript strings and JSON -/

/-- The UTF-16 code units of a character: one for the basic plane, a
surrogate pair above it. -/
def utf16OfChar (c : Char) : List Nat :=
  if c.toNat < 65536 then [c.toNat]
  else [55296 + (c.toNat - 65536) / 1024, 56320 + (c.toNat - 65536) % 1024]

/-- The UTF-16 code units of a string: `str.charCodeAt(i)` for
`0 ≤ i < str.length`. -/
def utf16 (s : String) : List Nat :=
  s.toList.flatMap utf16OfChar

/-- The digits of `n` in `base`, most significant first, written before
`acc`; `fuel` bounds the number of digits. -/
def digitsAux (base : Nat) : Nat → Nat → List Char → List Char
  | 0, _, acc => acc
  | fuel + 1, n, acc =>
    if n / base = 0 then Nat.digitChar (n % base) :: acc
    else digitsAux base fuel (n / base) (Nat.digitChar (n % base) :: acc)

/-- The digits of a natural number in `base` (lower-case letters above 9). -/
def natDigits (base n : Nat) : List Char :=
  digitsAux base (n + 1) n []

/-- Method `n.toString(radix)` of an integer: a minus sign for a negative
number, then the digits of its absolute value. -/
def intToString (radix : Nat) (n : Int) : String :=
  String.mk (if n < 0 then '-' :: natDigits radix n.natAbs else natDigits radix n.natAbs)

/-- Method `split(sep)` with a one-character separator, on the characters of
a string. -/
def jsSplitChars (sep : Char) : List Char → List (List Char)
  | [] => [[]]
  | c :: rest =>
    if c = sep then [] :: jsSplitChars sep rest
    else
      match jsSplitChars sep rest with
      | [] => [[c]]
      | piece :: pieces => (c :: piece) :: pieces

/-- Method `s.split(sep)` with a one-character separator. -/
def jsSplit (sep : Char) (s : String) : List String :=
  (jsSplitChars sep s.toList).map String.mk

/-- Method `s.trim()`: white space and line terminators are removed at both
ends. -/
def jsTrim (s : String) : String :=
  String.mk ((s.toList.dropWhile isJsWhitespace).reverse.dropWhile isJsWhitespace).reverse

/-- The characters of `substring(0, n)`, counted in UTF-16 code units.  A
surrogate pair that the cut would split is left out (its first half alone is
not a character). -/
def takeUnits : Nat → List Char → List Char
  | _, [] => []
  | n, c :: rest =>
    if (utf16OfChar c).length ≤ n then c :: takeUnits (n - (utf16OfChar c).length) rest
    else []

/-- Method `s.substring(0, n)`. -/
def jsSubstring0 (n : Nat) (s : String) : String :=
  String.mk (takeUnits n s.toList)

/-- Method `s.toLowerCase()` on the letters `A`-`Z`; other characters are
kept.  Of those only U+0130 and U+212A have a letter `a`-`z` in their lower
case (`i` followed by U+0307, and `k`), which changes no comparison the
server makes with the result. -/
def jsToLowerCase (s : String) : String :=
  String.mk (s.toList.map Char.toLower)

/-- Expression `a || b` on two optional strings. -/
def orTruthy (a b : Option String) : Option String :=
  if truthy a then a else b

mutual
/-- A JSON value: what a response body is made of. -/
inductive JsValue where
  | null
  | bool (b : Bool)
  | num (n : Int)
  | str (s : String)
  | arr (items : JsItems)
  | obj (fields : JsFields)
/-- The elements of an array. -/
inductive JsItems where
  | nil
  | cons (head : JsValue) (tail : JsItems)
/-- The properties of an object, in insertion order. -/
inductive JsFields where
  | nil
  | cons (key : String) (value : JsValue) (tail : JsFields)
end

/-- Truthiness of a value: `null`, `false`, `0` and `""` are falsy. -/
def JsValue.truthy : JsValue → Bool
  | .null => false
  | .bool b => b
  | .num n => n != 0
  | .str s => s != ""
  | .arr _ => true
  | .obj _ => true

/-- The escape of one character inside a JSON string. -/
def jsonEscape (c : Char) : List Char :=
  if c = '"' then ['\\', '"']
  else if c = '\\' then ['\\', '\\']
  else if c.toNat = 8 then ['\\', 'b']
  else if c.toNat = 9 then ['\\', 't']
  else if c.toNat = 10 then ['\\', 'n']
  else if c.toNat = 12 then ['\\', 'f']
  else if c.toNat = 13 then ['\\', 'r']
  else if c.toNat < 32 then
    ['\\', 'u', '0', '0', Nat.digitChar (c.toNat / 16), Nat.digitChar (c.toNat % 16)]
  else [c]

/-- A string as `JSON.stringify` writes it: quoted and escaped. -/
def jsonQuote (s : String) : List Char :=
  '"' :: s.toList.flatMap jsonEscape ++ ['"']

mutual
/-- The characters of `JSON.stringify(value)`; numbers are integers and are
written in decimal. -/
def jsonChars : JsValue → List Char
  | .null => ['n', 'u', 'l', 'l']
  | .bool true => ['t', 'r', 'u', 'e']
  | .bool false => ['f', 'a', 'l', 's', 'e']
  | .num n => (intToString 10 n).toList
  | .str s => jsonQuote s
  | .arr items => '[' :: jsonItems items ++ [']']
  | .obj fields => '{' :: jsonFields fields ++ ['}']
/-- The elements of an array, separated by commas. -/
def jsonItems : JsItems → List Char
  | .nil => []
  | .cons v .nil => jsonChars v
  | .cons v rest => jsonChars v ++ ',' :: jsonItems rest
/-- The properties of an object, separated by commas. -/
def jsonFields : JsFields → List Char
  | .nil => []
  | .cons k v .nil => jsonQuote k ++ ':' :: jsonChars v
  | .cons k v rest => jsonQuote k ++ ':' :: jsonChars v ++ ',' :: jsonFields rest
end

/-- Function `JSON.stringify(value)`. -/
def jsonStringify (value : JsValue) : String :=
  String.mk (jsonChars value)

/-! ## index.js: `generateETag` -/

/-- Conversion `x | 0` of an integer to a signed 32-bit integer: `x` modulo
`2^32`, in `[-2^31, 2^31)`. -/
def toInt32 (x : Int) : Int :=
  (x + 2147483648) % 4294967296 - 2147483648

/-- One turn of the loop of `generateETag`:
`hash = ((hash << 5) - hash) + char; hash |= 0`. -/
def hashStep (hash : Int) (char : Nat) : Int :=
  toInt32 (toInt32 (hash * 32) - hash + (char : Int))

/-- The loop of `generateETag` over the code units of `str`, from `hash = 0`. -/
def hashOf (str : String) : Int :=
  (utf16 str).foldl hashStep 0

/-- Function `generateETag(body)`. -/
def generateETag (body : JsValue) : String :=
  if !body.truthy then ""
  else "\"" ++ intToString 16 (hashOf (jsonStringify body)) ++ "\""

/-! ## index.js: the caching plugin -/

/-- The headers of a response: a `Map` from names to values, in insertion
order. -/
abbrev HeaderMap := List (String × String)

/-- Method `headers.get(name)`. -/
def HeaderMap.get (headers : HeaderMap) (name : String) : Option String :=
  (headers.find? (fun p => p.1 == name)).map (fun p => p.2)

/-- Method `headers.set(name, value)`. -/
def HeaderMap.set : HeaderMap → String → String → HeaderMap
  | [], name, value => [(name, value)]
  | (n, v) :: rest, name, value =>
    if n == name then (name, value) :: rest else (n, v) :: HeaderMap.set rest name value

/-- The property `key` of a JSON value: `undefined` when the value is no
object or has no such property. -/
def JsFields.prop : JsFields → String → Option JsValue
  | .nil, _ => none
  | .cons k v rest, key => if k == key then some v else JsFields.prop rest key

/-- The property `key` of a JSON value. -/
def JsValue.prop (value : JsValue) (key : String) : Option JsValue :=
  match value with
  | .obj fields => fields.prop key
  | _ => none

/-- The response object `@apollo/server` (the import of `index.js`) hands to
the hooks of a plugin: `\x7b http, body \x7d`.  The result of the operation is
inside `body`, under `singleResult`, and its errors under
`body.singleResult.errors`. -/
structure Response where
  http : Option HeaderMap
  body : JsValue

/-- The property `response.errors` the hook reads: the response object has no
such property, the value is `undefined`. -/
def Response.errors (_response : Response) : Option (List String) :=
  none

/-- The errors of the operation, where the server puts them:
`response.body.singleResult.errors`. -/
def Response.resultErrors (response : Response) : Option JsValue :=
  (response.body.prop "singleResult").bind (fun result => result.prop "errors")

/-- Hook `didResolveOperation`: the new value of `operationType`,
`context.operation?.operation`. -/
def didResolveOperation (operation : Option String) : Option String :=
  operation

/-- Statement `if (!response.http) response.http = \x7b headers: new Map() \x7d`,
giving the headers to write to. -/
def ensureHttp (response : Response) : HeaderMap :=
  match response.http with
  | some headers => headers
  | none => []

/-- Hook `willSendResponse` for the value `operationType` has when the
response is sent (`null` is `none`). -/
def willSendResponse (operationType : Option String) (response : Response) : Response :=
  if operationType = some "query" then
    let headers := ensureHttp response
    if response.errors.isNone || (response.errors.getD []).length == 0 then
      let headers := headers.set "Cache-Control" "public, max-age=300"
      let headers := headers.set "Vary" "Accept, Origin, Accept-Encoding, Accept-Language"
      let headers := headers.set "ETag" (generateETag response.body)
      { response with http := some headers }
    else
      { response with http := some (headers.set "Cache-Control" "no-store") }
  else if operationType = some "mutation" then
    let headers := ensureHttp response
    { response with http := some (headers.set "Cache-Control" "no-store") }
  else response

/-! ## index.js: version, language and context -/

/-- The headers of a request that the server reads. -/
structure RequestHeaders where
  xApiVersion : Option String
  acceptLanguage : Option String
  xLanguage : Option String
  authorization : Option String
  deriving DecidableEq, Repr

/-- The code `languageHeader.split(',')[0].trim().substring(0, 2).toLowerCase()`. -/
def languageCode (languageHeader : String) : String :=
  jsToLowerCase (jsSubstring0 2 (jsTrim ((jsSplit ',' languageHeader).headD "")))

/-- The middleware that sets `req.apiVersion` and `req.language` from the
headers of the request. -/
def versionLanguageMiddleware (headers : RequestHeaders) : Context :=
  let apiVersion :=
    if truthy headers.xApiVersion then headers.xApiVersion.getD "" else "1.0"
  let languageHeader := orTruthy headers.acceptLanguage headers.xLanguage
  let language :=
    if truthy languageHeader then
      let lang := languageCode (languageHeader.getD "")
      if ["en", "fr"].contains lang then lang else "en"
    else "en"
  { language := language, apiVersion := apiVersion }

/-- The claims of a verified token that the server reads. -/
structure Decoded where
  userId : Option String
  deriving DecidableEq, Repr

/-- The context object of a request: `apiVersion`, `language` and, when a
token was verified, `userId`.  (Its closures `t` and `formatDate` depend on
`language` only and no resolver calls them.) -/
structure ApolloContext extends Context where
  userId : Option String
  deriving DecidableEq, Repr

/-- Expression `req.headers.authorization?.split(' ')[1]`. -/
def bearerToken (authorization : Option String) : Option String :=
  match authorization with
  | none => none
  | some value => (jsSplit ' ' value)[1]?

/-- The `context` function of `expressMiddleware`, for a request the
middleware has set `req.apiVersion` and `req.language` on; `jwtVerify` is
`jwt.verify(token, JWT_SECRET)`, which returns the claims or throws. -/
def context (jwtVerify : String → Except JsError Decoded) (headers : RequestHeaders)
    (req : Context) : Except JsError ApolloContext := do
  let token := bearerToken headers.authorization
  let context : ApolloContext :=
    { apiVersion := req.apiVersion, language := req.language, userId := none }
  let context :=
    if truthy token then
      match jwtVerify (token.getD "") with
      | .ok decoded => { context with userId := decoded.userId }
      | .error _ => context
    else context
  pure context

/-! ## index.js: `parseAcceptEncoding` -/

/-- A JavaScript number as `parseFloat` returns it; a finite value is held
exactly, as a rational. -/
inductive JsFloat where
  | nan
  | negInf
  | fin (q : ℚ)
  | posInf
  deriving DecidableEq

/-- Function `isNaN(x)`. -/
def JsFloat.isNaN : JsFloat → Bool
  | .nan => true
  | _ => false

/-- Operation `a - b`: `NaN` for the difference of two equal infinities.  The
difference of two finite numbers is held exactly: the rounded difference of
two doubles has the same sign, which is all a sort reads of it. -/
def JsFloat.sub : JsFloat → JsFloat → JsFloat
  | .nan, _ => .nan
  | _, .nan => .nan
  | .posInf, .posInf => .nan
  | .negInf, .negInf => .nan
  | .posInf, _ => .posInf
  | .negInf, _ => .negInf
  | .fin _, .posInf => .negInf
  | .fin _, .negInf => .posInf
  | .fin a, .fin b => .fin (a - b)

/-- Test `x > 0`, false for `NaN`. -/
def JsFloat.isPositive : JsFloat → Bool
  | .posInf => true
  | .fin q => decide (0 < q)
  | _ => false

/-- Method `array.sort(compareFn)`: a stable sort, in which `a` stays before
`b` unless `compareFn(a, b) > 0`; a result `NaN` counts as `0`. -/
def arraySort {α : Type} (compareFn : α → α → JsFloat) (array : List α) : List α :=
  array.insertionSort (fun a b => (compareFn a b).isPositive = false)

/-- Method `s.startsWith(p)`. -/
def jsStartsWith (p s : String) : Bool :=
  p.toList.isPrefixOf s.toList

/-- Method `s.substring(n)`, called where the first `n` characters of `s` are
known to be in the basic plane. -/
def jsSubstringFrom (n : Nat) (s : String) : String :=
  String.mk (s.toList.drop n)

/-- An object `{ encoding, quality }`. -/
structure EncodingEntry where
  encoding : String
  quality : JsFloat
  deriving DecidableEq

/-- The callback of `map` in `parseAcceptEncoding`; `parseFloat` is the
function of that name. -/
def parseEncodingItem (parseFloat : String → JsFloat) (item : String) : EncodingEntry :=
  let parts := (jsSplit ';' (jsTrim item)).map jsTrim
  let encoding := parts.headD ""
  let qValue := parts.get? 1
  let quality :=
    if truthy qValue && jsStartsWith "q=" (qValue.getD "") then
      let quality := parseFloat (jsSubstringFrom 2 (qValue.getD ""))
      if quality.isNaN then .fin 1 else quality
    else .fin 1
  { encoding := encoding, quality := quality }

/-- Function `parseAcceptEncoding(acceptEncoding)`. -/
def parseAcceptEncoding (parseFloat : String → JsFloat) (acceptEncoding : Option String) :
    List EncodingEntry :=
  if !truthy acceptEncoding then []
  else
    arraySort (fun a b => b.quality.sub a.quality)
      ((jsSplit ',' (acceptEncoding.getD "")).map (parseEncodingItem parseFloat))

/-! ## index.js: the compression filter -/

/-- The body of a request as the filter reads it. -/
structure RequestBody where
  query : Option String
  operationName : Option String
  deriving DecidableEq, Repr

/-- Method `s.includes(p)` on the characters of `s`. -/
def jsIncludesChars (p : List Char) : List Char → Bool
  | [] => p.isEmpty
  | c :: rest => p.isPrefixOf (c :: rest) || jsIncludesChars p rest

/-- Method `s.includes(p)`. -/
def jsIncludes (p s : String) : Bool :=
  jsIncludesChars p.toList s.toList

/-- The constant `isQuery` of the filter. -/
def isQuery (body : RequestBody) : Bool :=
  let query := (orTruthy body.query (some "")).getD ""
  let operationName := (orTruthy body.operationName (some "")).getD ""
  jsStartsWith "query" (jsTrim query) ||
    (!jsStartsWith "mutation" (jsTrim query) &&
      !jsIncludes "mutation" (jsToLowerCase operationName))

/-- The option `filter` of the compression middleware, for a request with
method `method` and body `body` (`none` when `req.body` is not set) and the
response object `res`; `defaultFilter res` is `compression.filter(req, res)`. -/
def compressionFilter {Res : Type} (defaultFilter : Res → Bool) (method : String)
    (body : Option RequestBody) (res : Res) : Bool :=
  if method == "OPTIONS" then false
  else
    match body with
    | some body => isQuery body
    | none => defaultFilter res

/-! ## Concrete inputs used by the examples -/

namespace Example

/-- An environment: patterns are plain substrings compared without case and
`(` is a pattern the engine rejects, dates are written as integers. -/
def env : Env where
  regex := fun p =>
    if p == "(" then none
    else some (fun t => jsIncludes (jsToLowerCase p) (jsToLowerCase t))
  parseDate := fun t => t.toInt?
  momentFormat := fun pattern d => pattern ++ " " ++ toString d
  jwtSign := fun userId email => .ok ("token:" ++ userId ++ ":" ++ email)

/-- A stored user. -/
def ann : User :=
  { _id := "0123456789abcdef01234567", idempotencyKey := none, title := "miss",
    firstName := "Ann", lastName := "Lee", gender := some "female", email := "ann@example.org",
    dateOfBirth := none, registerDate := 1000, phone := none, picture := none,
    location := none }

/-- Another stored user. -/
def bob : User :=
  { _id := "0123456789abcdef01234568", idempotencyKey := none, title := "mr",
    firstName := "Bob", lastName := "Ray", gender := some "male", email := "bob@example.org",
    dateOfBirth := none, registerDate := 2000, phone := none, picture := none,
    location := none }

/-- A stored post of `ann`. -/
def hello : Post :=
  { _id := "0123456789abcdef0123456a", idempotencyKey := none, text := "Hello world",
    image := none, likes := 3, tags := ["intro"], owner := "0123456789abcdef01234567",
    publishDate := 1500 }

/-- A reachable store without documents. -/
def emptyStore : Store :=
  { users := [], posts := [], comments := [], fault := fun _ => none }

/-- A reachable store with two users and one post. -/
def store : Store :=
  { users := [ann, bob], posts := [hello], comments := [], fault := fun _ => none }

/-- A request context. -/
def ctx : Context :=
  { language := "en", apiVersion := "1.0" }

/-- List arguments with only `page` and `limit` given. -/
def pageArgs (F : Type) (page limit : Int) : ListArgs F :=
  { page := some page, limit := some limit, sort := none, filter := none }

/-- A user payload with all required fields and an idempotency key. -/
def carol (idempotencyKey : Option String) : UserInput :=
  { idempotencyKey := idempotencyKey, title := none, firstName := some "Carol",
    lastName := some "Poe", gender := none, email := some "carol@example.org",
    dateOfBirth := none, phone := none, picture := none, location := none }

/-- A later post of `bob`. -/
def later : Post :=
  { _id := "0123456789abcdef0123456b", idempotencyKey := none, text := "Later post",
    image := none, likes := 1, tags := ["news", "intro"], owner := "0123456789abcdef01234568",
    publishDate := 2500 }

/-- A reachable store whose collection of posts holds the older post first. -/
def twoPosts : Store :=
  { users := [ann, bob], posts := [hello, later], comments := [], fault := fun _ => none }

/-- The body of the response to an operation that failed: the result holds
one error and no data. -/
def failedBody : JsValue :=
  .obj (.cons "kind" (.str "single") (.cons "singleResult"
    (.obj (.cons "errors"
        (.arr (.cons (.obj (.cons "message" (.str "User not found") .nil)) .nil))
      (.cons "data" .null .nil))) .nil))

/-- The function `parseFloat` on the numerals used by the examples; `NaN`
for any other text. -/
def parseFloat (text : String) : JsFloat :=
  if text == "1" then .fin 1
  else if text == "0.5" then .fin (1 / 2)
  else if text == "0.8" then .fin (4 / 5)
  else if text == "0" then .fin 0
  else .nan

end Example

/-! ## Predicates of the specification -/

/-- A valid page request against a reachable store: `page` and `limit` are at
least 1, the store accepts the query and `p` is the predicate it selects
documents with. -/
structure ValidPage {α : Type} (env : Env) (m : Mongo.Model α) (s : Store)
    (query : Mongo.Query) (p : α → Bool) (page limit : Int) : Prop where
  page_pos : 1 ≤ page
  limit_pos : 1 ≤ limit
  compiles : Mongo.compile env m query = .ok p
  count_ok : s.fault .count = none
  find_ok : s.fault .find = none

/-- The pagination block prescribed for `total` matching records:
`totalRecords = total`, `totalPages = ceil(total / limit)`,
`currentPage = page`, `hasNextPage = (page * limit < total)` and
`hasPreviousPage = (page > 1)`. -/
def Pagination.Meets (pg : Pagination) (total : Nat) (page limit : Int) : Prop :=
  pg.totalRecords = total ∧
  pg.totalPages = .fin ⌈(total : ℚ) / (limit : ℚ)⌉ ∧
  pg.currentPage = page ∧
  (pg.hasNextPage = true ↔ page * limit < (total : Int)) ∧
  (pg.hasPreviousPage = true ↔ 1 < page)

/-- The page prescribed for a record sequence: skip `(page - 1) * limit`
records, then take at most `limit`. -/
def pageOf {α : Type} (records : List α) (page limit : Int) : List α :=
  (records.drop ((page - 1) * limit).toNat).take limit.toNat

/-- The `records` are the prescribed page of the filtered, sorted sequence
`sorted`: at most `limit` of them, `min(limit, max(0, N - (page-1)*limit))`
where `N` is the number of matching records. -/
def IsPageOf {α : Type} (records sorted : List α) (page limit : Int) : Prop :=
  records = pageOf sorted page limit ∧
  (records.length : Int) ≤ limit ∧
  (records.length : Int) = min limit (max 0 ((sorted.length : Int) - (page - 1) * limit))

/-- The response prescribed for a page beyond the last one: no data,
`hasNextPage = false`, and `totalRecords` and `totalPages` still those of
the `total` matching records. -/
def PageResult.IsBeyondLast {α : Type} (r : PageResult α) (total : Nat) (limit : Int) : Prop :=
  r.data = [] ∧ r.pagination.hasNextPage = false ∧ r.pagination.totalRecords = total ∧
  r.pagination.totalPages = .fin ⌈(total : ℚ) / (limit : ℚ)⌉

/-- A payload of `createUser` the store accepts: the required fields are
present and the document built from it passes the casts and the validators
of `UserSchema`. -/
def UserInput.Storable (env : Env) (input : UserInput) : Prop :=
  truthy input.firstName = true ∧ truthy input.lastName = true ∧
  truthy input.email = true ∧
  ∀ oid now, ∃ u, Mongo.newUser env oid now input input.idempotencyKey = some u ∧
    u.validate = true

/-- Two calls of a `createUser` resolver `create` in sequence with the same
payload, from a store `s`: both return the same entity, whose id is the one
generated by the first call, the second call leaves the store unchanged, and
afterwards exactly one stored record has idempotency key `k`.  The arguments
of `create` are the store, the generated id and the clock. -/
def IdempotentTwice (create : Store → String → Int → Except JsError User × Store)
    (s : Store) (k : String) (oid₁ : String) (now₁ : Int) (oid₂ : String) (now₂ : Int) : Prop :=
  ∃ u, (create s oid₁ now₁).1 = .ok u ∧ u._id = oid₁ ∧
    create (create s oid₁ now₁).2 oid₂ now₂ = (.ok u, (create s oid₁ now₁).2) ∧
    (((create s oid₁ now₁).2.users.filter
      (fun x => x.idempotencyKey == some k)).length = 1)

/-- The order a sort document puts on documents. -/
def Mongo.ordered {α : Type} (key : Mongo.SortField → α → Option Int) (spec : Mongo.SortSpec)
    (a b : α) : Prop :=
  if spec.ascending then Mongo.keyLe (key spec.field a) (key spec.field b) = true
  else Mongo.keyLe (key spec.field b) (key spec.field a) = true

/-- The taxonomy code of the failure of a resolver call: `none` when the call
returns, or fails with an error that carries no taxonomy code. -/
def failureCode {α : Type} (r : Except JsError α) : Option String :=
  match r with
  | .ok _ => none
  | .error e => e.taxonomyCode

/-- A thrown value carries one of the four codes the resolvers raise. -/
def JsError.IsTyped (e : JsError) : Prop :=
  e.taxonomyCode = some "PARAMS_NOT_VALID" ∨ e.taxonomyCode = some "BODY_NOT_VALID" ∨
    e.taxonomyCode = some "RESOURCE_NOT_FOUND" ∨ e.taxonomyCode = some "SERVER_ERROR"

/-- The failure of a resolver, if it fails, carries one of the codes the
resolvers raise. -/
def FailsTyped {α : Type} (r : Except JsError α) : Prop :=
  ∀ e, r = .error e → e.IsTyped

/-- The locale as the specification words it: the first two characters,
lower-cased, of the text of the header before its first comma when that code
is `en` or `fr`, and `en` otherwise. -/
def localeOfFirstTwo (h : String) : String :=
  let code := jsToLowerCase (jsSubstring0 2 ((jsSplit ',' h).headD ""))
  if ["en", "fr"].contains code then code else "en"

/-- A hexadecimal digit as the specification lists them: `0`-`9`, `a`-`f`. -/
def isHexDigit (c : Char) : Bool :=
  ('0' ≤ c && c ≤ '9') || ('a' ≤ c && c ≤ 'f')

/-- A quoted hex string as the specification words it: a double quote, one
or more hexadecimal digits, a closing double quote. -/
def isQuotedHex (s : String) : Bool :=
  match s.toList with
  | '"' :: rest =>
    match rest.reverse with
    | '"' :: digits => !digits.isEmpty && digits.all isHexDigit
    | _ => false
  | _ => false

/-- The response carries at least one error of the operation: the array
`body.singleResult.errors` is there and is not empty. -/
def Response.hasErrors (response : Response) : Bool :=
  match response.resultErrors with
  | some (.arr (.cons _ _)) => true
  | _ => false

/-- The data of the pages `1, 2, ..., totalPages` of a list resolver, one
after the other; `fetch page` is the call of the resolver for one page. -/
def concatPages {α : Type} (fetch : Int → Except JsError (PageResult α)) (totalPages : Nat) :
    Except JsError (List α) :=
  (List.range totalPages).foldr
    (fun (k : Nat) rest => do
      let r ← fetch ((k : Int) + 1)
      let tail ← rest
      pure (r.data ++ tail))
    (pure [])

/-- The sort document a request selects, as the specification words it: the
entry of the sort table under the key, and the fallback of the resolver for
a key the table does not have. -/
def selectedSort (table : List (String × Mongo.SortSpec)) (sort : String)
    (fallback : Mongo.SortSpec) : Mongo.SortSpec :=
  match table.find? (fun p => p.1 == sort) with
  | some p => p.2
  | none => fallback

/-- The sort key of a request, when given, is no property name inherited from
`Object.prototype`. -/
def ownSortKey (sort : Option String) : Bool :=
  match sort with
  | none => true
  | some key => !objectPrototypeNames.contains key

/-- A text matches a pattern of a filter: the engine accepts the pattern and
finds it in the text, without regard to case. -/
def textMatches (env : Env) (pattern text : String) : Bool :=
  match env.regex pattern with
  | some test => test text
  | none => false

/-- The users a filter selects, as the specification words it: every field of
the filter that is given must hold, a pattern match for the text fields
`firstName`, `lastName` and `email`, equality for `gender`. -/
def UserFilterInput.selects (env : Env) (filter : Option UserFilterInput) (user : User) :
    Bool :=
  match filter with
  | none => true
  | some f =>
    (!truthy f.firstName || textMatches env (f.firstName.getD "") user.firstName) &&
    (!truthy f.lastName || textMatches env (f.lastName.getD "") user.lastName) &&
    (!truthy f.gender || user.gender == f.gender) &&
    (!truthy f.email || textMatches env (f.email.getD "") user.email)

/-- The posts a filter selects, as the specification words it: every field of
the filter that is given must hold, a pattern match for `text`, equality for
`owner`, a tag in the set for `tags`, on or after the date for
`publishDate`. -/
def PostFilterInput.selects (env : Env) (filter : Option PostFilterInput) (post : Post) :
    Bool :=
  match filter with
  | none => true
  | some f =>
    (!truthy f.text || textMatches env (f.text.getD "") post.text) &&
    (!truthy f.owner || ObjectId.cast (f.owner.getD "") == some post.owner) &&
    (match f.tags with
      | none => true
      | some tags => post.tags.any (fun t => tags.contains t)) &&
    (!truthy f.publishDate ||
      match env.parseDate (f.publishDate.getD "") with
      | some date => decide (date ≤ post.publishDate)
      | none => false)

/-- The call `r` of a list resolver returns, and the stored documents of its
data (read with `doc`) are the prescribed page of `sorted`. -/
def ServesSorted {α β : Type} (r : Except JsError (PageResult β)) (doc : β → α)
    (sorted : List α) (page limit : Int) : Prop :=
  ∃ res, r = .ok res ∧ res.data.map doc = pageOf sorted page limit

/-- The polynomial hash of a sequence of code units `c_0 .. c_{n-1}`: the sum
of `c_i * 31^(n-1-i)`. -/
def polyHash : List Nat → Int
  | [] => 0
  | c :: rest => (c : Int) * 31 ^ rest.length + polyHash rest

/-- An email address as the specification words it: no white space, exactly
one `@` with at least one character before it, and after the `@` a `.` with
at least one character before it and at least one after it. -/
def EmailWellFormed (s : String) : Prop :=
  (∀ c ∈ s.toList, isJsWhitespace c = false) ∧
  s.toList.count '@' = 1 ∧
  ∃ before after : List Char, s.toList = before ++ '@' :: after ∧ before ≠ [] ∧
    ∃ name rest : List Char, after = name ++ '.' :: rest ∧ name ≠ [] ∧ rest ≠ []

/-- The classification as the specification words it: a mutation when the
trimmed query text starts with the keyword `mutation` or the operation name,
without regard to case, contains `mutation`. -/
def isMutationAsSpecified (body : RequestBody) : Bool :=
  jsStartsWith "mutation" (jsTrim ((orTruthy body.query (some "")).getD "")) ||
    jsIncludes "mutation" (jsToLowerCase ((orTruthy body.operationName (some "")).getD ""))

/-- The weight parameter of an item of the header, as the specification
words it: the first of the parameters of the item (its `;`-separated parts
after the coding, trimmed) that starts with `q=`. -/
def weightParameter (item : String) : Option String :=
  (((jsSplit ';' (jsTrim item)).map jsTrim).drop 1).find? (fun part => jsStartsWith "q=" part)

/-- The quality of an item as the specification words it: 1 when the item has
no weight parameter, 1 when the text after `q=` does not parse as a number,
and the parsed number otherwise. -/
def qualityAsSpecified (parseFloat : String → JsFloat) (item : String) : JsFloat :=
  match weightParameter item with
  | none => .fin 1
  | some weight =>
    if (parseFloat (jsSubstringFrom 2 weight)).isNaN then .fin 1
    else parseFloat (jsSubstringFrom 2 weight)

/-- The order of JavaScript numbers: `-Infinity` below every finite number,
`Infinity` above; `NaN` is not compared. -/
def JsFloat.le : JsFloat → JsFloat → Bool
  | .nan, _ => false
  | _, .nan => false
  | .negInf, _ => true
  | _, .posInf => true
  | .fin a, .fin b => decide (a ≤ b)
  | _, _ => false

/-! ## Lemmas on the embedding -/

theorem JsObject.get_nil (k : String) : JsObject.get [] k = none := rfl

theorem JsObject.get_cons (a : String) (b : Json) (rest : JsObject) (k : String) :
    JsObject.get ((a, b) :: rest) k = if a = k then some b else JsObject.get rest k := by
  by_cases h : a = k
  · simp [JsObject.get, List.find?_cons, h]
  · have hb : (a == k) = false := by simpa using h
    simp [JsObject.get, List.find?_cons, h, hb]

theorem JsObject.get_set (o : JsObject) (k k' : String) (v : Json) :
    (JsObject.set o k v).get k' = if k = k' then some v else o.get k' := by
  induction o with
  | nil => simp [JsObject.set, JsObject.get_cons, JsObject.get_nil]
  | cons p rest ih =>
    obtain ⟨a, b⟩ := p
    by_cases hak : a = k
    · subst hak
      by_cases h : a = k' <;> simp [JsObject.set, JsObject.get_cons, h]
    · have hb : (a == k) = false := by simpa using hak
      simp only [JsObject.set, hb, Bool.false_eq_true, if_false, JsObject.get_cons, ih]
      by_cases hk : k = k'
      · subst hk
        simp [hak]
      · simp [hk]

theorem JsObject.get_spread_of_absent (extra base : JsObject) (k : String)
    (h : ∀ p ∈ extra, p.1 ≠ k) : (JsObject.spread base extra).get k = base.get k := by
  induction extra generalizing base with
  | nil => rfl
  | cons p rest ih =>
    have hp : p.1 ≠ k := h p (List.mem_cons_self _ _)
    have hrest : ∀ q ∈ rest, q.1 ≠ k := fun q hq => h q (List.mem_cons_of_mem _ hq)
    simp only [JsObject.spread, List.foldl_cons] at ih ⊢
    rw [ih _ hrest, JsObject.get_set, if_neg hp]

theorem JsObject.get_spread_of_mem (extra base : JsObject) (k : String) (v : Json)
    (hnodup : (extra.map Prod.fst).Nodup) (h : (k, v) ∈ extra) :
    (JsObject.spread base extra).get k = some v := by
  induction extra generalizing base with
  | nil => cases h
  | cons p rest ih =>
    simp only [List.map_cons, List.nodup_cons] at hnodup
    simp only [JsObject.spread, List.foldl_cons] at ih ⊢
    rcases List.mem_cons.mp h with hp | hmem
    · subst hp
      have habs : ∀ q ∈ rest, q.1 ≠ k := by
        intro q hq hqk
        exact hnodup.1 (hqk ▸ List.mem_map_of_mem Prod.fst hq : k ∈ rest.map Prod.fst)
      have := JsObject.get_spread_of_absent rest (JsObject.set base k v) k habs
      simp only [JsObject.spread] at this
      rw [this, JsObject.get_set, if_pos rfl]
    · exact ih _ hnodup.2 hmem

theorem JsObject.mem_of_get (o : JsObject) (k : String) (v : Json) (h : o.get k = some v) :
    (k, v) ∈ o := by
  simp only [JsObject.get, Option.map_eq_some'] at h
  obtain ⟨p, hp, hv⟩ := h
  have hmem := List.mem_of_find?_eq_some hp
  have hk := List.find?_some hp
  simp only [beq_iff_eq] at hk
  obtain ⟨a, b⟩ := p
  simp only at hk hv
  subst hk; subst hv
  exact hmem

theorem JsObject.absent_of_get_none (o : JsObject) (k : String) (h : o.get k = none) :
    ∀ p ∈ o, p.1 ≠ k := by
  intro p hp hk
  simp only [JsObject.get, Option.map_eq_none', List.find?_eq_none] at h
  exact h p hp (by simp [hk])

/-! ## C9: `toGraphQLError` -/

/-- C9, as stated, fails: a `details` map with a `code` key overrides the
fixed code of the class in `extensions`. -/
theorem toGraphQLError_code_overridden :
    ((GraphQLError.new .ServerError (some "boom")
        (some [("code", .str "TEAPOT")])).toGraphQLError.extensions.get "code"
      = some (.str "TEAPOT")) ∧
    ((GraphQLError.new .ServerError (some "boom")
        (some [("code", .str "TEAPOT")])).toGraphQLError.extensions.get "code"
      ≠ some (.str ErrorClass.ServerError.code)) := by
  constructor <;> decide

/-- C9 (amended): for every taxonomy class, message and `details` object,
`toGraphQLError()` returns the message of the error, every key of `details`
appears in `extensions` with its value, and `extensions.code` is the fixed
code of the class whenever `details` has no `code` key. -/
theorem toGraphQLError_extensions (cls : ErrorClass) (message : Option String)
    (details : Option JsObject) (hkeys : ((details.getD []).map Prod.fst).Nodup) :
    (GraphQLError.new cls message details).toGraphQLError.message
        = message.getD cls.defaultMessage ∧
    (∀ k v, (details.getD []).get k = some v →
      (GraphQLError.new cls message details).toGraphQLError.extensions.get k = some v) ∧
    ((details.getD []).get "code" = none →
      (GraphQLError.new cls message details).toGraphQLError.extensions.get "code"
        = some (.str cls.code)) := by
  refine ⟨rfl, ?_, ?_⟩
  · intro k v h
    exact JsObject.get_spread_of_mem _ _ k v hkeys (JsObject.mem_of_get _ k v h)
  · intro h
    have := JsObject.get_spread_of_absent (details.getD []) [("code", .str cls.code)] "code"
      (JsObject.absent_of_get_none _ _ h)
    simpa [GraphQLError.toGraphQLError, GraphQLError.new, JsObject.get_cons] using this

/-- Witness of C9 (amended): a `ParamsNotValidError` with one detail. -/
theorem toGraphQLError_extensions_witness :
    (GraphQLError.new .ParamsNotValidError (some "bad id")
        (some [("field", .str "id")])).toGraphQLError.extensions.get "field"
      = some (.str "id") ∧
    (GraphQLError.new .ParamsNotValidError (some "bad id")
        (some [("field", .str "id")])).toGraphQLError.extensions.get "code"
      = some (.str "PARAMS_NOT_VALID") :=
  ⟨(toGraphQLError_extensions .ParamsNotValidError (some "bad id")
      (some [("field", .str "id")]) (by decide)).2.1 "field" (.str "id") (by decide),
   (toGraphQLError_extensions .ParamsNotValidError (some "bad id")
      (some [("field", .str "id")]) (by decide)).2.2 (by decide)⟩

/-! ## Pagination: lemmas -/

theorem mathCeilDiv_eq_ceil (n : Nat) (limit : Int) (h : 0 < limit) :
    mathCeilDiv n limit = .fin ⌈(n : ℚ) / (limit : ℚ)⌉ := by
  have hne : limit ≠ 0 := ne_of_gt h
  obtain ⟨d, rfl⟩ : ∃ d : ℕ, limit = (d : ℤ) := ⟨limit.toNat, (Int.toNat_of_nonneg h.le).symm⟩
  have hfloor := Rat.floor_intCast_div_natCast (-(n : ℤ)) d
  have hceil : ⌈(n : ℚ) / ((d : ℤ) : ℚ)⌉ = -⌊((-(n : ℤ) : ℤ) : ℚ) / (d : ℚ)⌋ := by
    rw [← Int.ceil_neg]
    congr 1
    push_cast
    ring
  simp only [mathCeilDiv, hne, if_false]
  rw [hceil, hfloor, Int.fdiv_eq_ediv _ h.le]

theorem paginationBlock_meets (total : Nat) (page limit : Int) (h : 1 ≤ limit) :
    (paginationBlock total page limit).Meets total page limit := by
  refine ⟨rfl, mathCeilDiv_eq_ceil total limit (by omega), rfl, ?_, ?_⟩
  · simp [paginationBlock]
  · simp [paginationBlock]

theorem Mongo.countDocuments_eq {α : Type} (env : Env) (m : Mongo.Model α) (s : Store)
    (q : Mongo.Query) (p : α → Bool) (hc : Mongo.compile env m q = .ok p)
    (hr : s.fault .count = none) :
    Mongo.countDocuments env m s q = .ok ((m.docs s).filter p).length := by
  simp [Mongo.countDocuments, Mongo.reach, hc, hr, bind, Except.bind, pure, Except.pure]

theorem Mongo.window_eq {α : Type} (docs : List α) (page limit : Int) (hp : 1 ≤ page)
    (hl : 1 ≤ limit) : Mongo.window ((page - 1) * limit) limit docs = .ok (pageOf docs page limit) := by
  have hs : ¬ ((page - 1) * limit < 0) := by
    have : 0 ≤ (page - 1) * limit := mul_nonneg (by omega) (by omega)
    omega
  have hl0 : limit ≠ 0 := by omega
  have hnat : limit.natAbs = limit.toNat := by omega
  simp [Mongo.window, hs, hl0, pageOf, hnat]

theorem Mongo.find_eq {α : Type} (env : Env) (m : Mongo.Model α) (s : Store)
    (q : Mongo.Query) (p : α → Bool) (spec : Mongo.SortSpec) (page limit : Int)
    (hc : Mongo.compile env m q = .ok p) (hr : s.fault .find = none) (hp : 1 ≤ page)
    (hl : 1 ≤ limit) :
    Mongo.find env m s q (some spec) ((page - 1) * limit) limit
      = .ok (pageOf (Mongo.sort m.sortKey spec ((m.docs s).filter p)) page limit) := by
  simp [Mongo.find, Mongo.reach, hc, hr, bind, Except.bind, Mongo.window_eq _ _ _ hp hl]

theorem Mongo.find_unsorted_eq {α : Type} (env : Env) (m : Mongo.Model α) (s : Store)
    (q : Mongo.Query) (p : α → Bool) (page limit : Int)
    (hc : Mongo.compile env m q = .ok p) (hr : s.fault .find = none) (hp : 1 ≤ page)
    (hl : 1 ≤ limit) :
    Mongo.find env m s q none ((page - 1) * limit) limit
      = .ok (pageOf ((m.docs s).filter p) page limit) := by
  simp [Mongo.find, Mongo.reach, hc, hr, bind, Except.bind, Mongo.window_eq _ _ _ hp hl]

theorem pageOf_length {α : Type} (records : List α) (page limit : Int) (hp : 1 ≤ page)
    (hl : 1 ≤ limit) :
    ((pageOf records page limit).length : Int)
      = min limit (max 0 ((records.length : Int) - (page - 1) * limit)) := by
  have hs : 0 ≤ (page - 1) * limit := mul_nonneg (by omega) (by omega)
  simp only [pageOf, List.length_take, List.length_drop]
  generalize (page - 1) * limit = k at hs
  omega

theorem pageOf_length_le {α : Type} (records : List α) (page limit : Int) (hl : 1 ≤ limit) :
    ((pageOf records page limit).length : Int) ≤ limit := by
  simp only [pageOf, List.length_take]
  omega

theorem pageOf_beyond {α : Type} (records : List α) (page limit : Int) (hl : 1 ≤ limit)
    (hbeyond : ⌈(records.length : ℚ) / (limit : ℚ)⌉ < page) :
    pageOf records page limit = [] ∧ ¬ (page * limit < (records.length : Int)) := by
  have hlq : (0 : ℚ) < (limit : ℚ) := by exact_mod_cast (by omega : 0 < limit)
  have h1 : (records.length : ℚ) / (limit : ℚ) ≤ ((page - 1 : ℤ) : ℚ) := by
    have : ⌈(records.length : ℚ) / (limit : ℚ)⌉ ≤ page - 1 := by omega
    exact Int.ceil_le.mp this
  have h2 : (records.length : ℚ) ≤ ((page - 1 : ℤ) : ℚ) * (limit : ℚ) :=
    (div_le_iff₀ hlq).mp h1
  have h3 : (records.length : Int) ≤ (page - 1) * limit := by exact_mod_cast h2
  constructor
  · simp only [pageOf]
    rw [List.drop_eq_nil_of_le (by omega), List.take_nil]
  · nlinarith

theorem Mongo.sort_perm {α : Type} (key : Mongo.SortField → α → Option Int)
    (spec : Mongo.SortSpec) (docs : List α) : (Mongo.sort key spec docs).Perm docs := by
  unfold Mongo.sort
  split <;> exact List.perm_insertionSort _ _

theorem Mongo.keyLe_total (a b : Option Int) : Mongo.keyLe a b = true ∨ Mongo.keyLe b a = true := by
  cases a <;> cases b <;> simp [Mongo.keyLe]
  omega

theorem Mongo.keyLe_trans (a b c : Option Int) (h1 : Mongo.keyLe a b = true)
    (h2 : Mongo.keyLe b c = true) : Mongo.keyLe a c = true := by
  cases a <;> cases b <;> cases c <;> simp_all [Mongo.keyLe]
  omega

theorem Mongo.sort_sorted {α : Type} (key : Mongo.SortField → α → Option Int)
    (spec : Mongo.SortSpec) (docs : List α) :
    (Mongo.sort key spec docs).Sorted (Mongo.ordered key spec) := by
  unfold Mongo.sort Mongo.ordered
  split
  · rename_i h
    haveI : IsTotal α (fun a b => Mongo.keyLe (key spec.field a) (key spec.field b) = true) :=
      ⟨fun a b => Mongo.keyLe_total _ _⟩
    haveI : IsTrans α (fun a b => Mongo.keyLe (key spec.field a) (key spec.field b) = true) :=
      ⟨fun a b c => Mongo.keyLe_trans _ _ _⟩
    exact List.sorted_insertionSort _ _
  · rename_i h
    haveI : IsTotal α (fun a b => Mongo.keyLe (key spec.field b) (key spec.field a) = true) :=
      ⟨fun a b => (Mongo.keyLe_total _ _).symm⟩
    haveI : IsTrans α (fun a b => Mongo.keyLe (key spec.field b) (key spec.field a) = true) :=
      ⟨fun a b c h1 h2 => Mongo.keyLe_trans _ _ _ h2 h1⟩
    exact List.sorted_insertionSort _ _

/-! ## The list resolvers on a valid page request -/

theorem objectPrototypeNames_defaults :
    objectPrototypeNames.contains "registerDate_desc" = false ∧
      objectPrototypeNames.contains "createdAt_desc" = false := by
  decide

theorem sortOr_of_own (table : List (String × Mongo.SortSpec)) (key : String)
    (fallback : Mongo.SortSpec) (h : objectPrototypeNames.contains key = false) :
    sortOr table key fallback = .doc (selectedSort table key fallback) := by
  unfold sortOr selectedSort
  cases table.find? (fun p => p.1 == key) with
  | some p => rfl
  | none =>
    have hp : (key == "__proto__") = false := by
      cases hk : key == "__proto__" with
      | false => rfl
      | true =>
        have : key = "__proto__" := by simpa using hk
        subst this
        exact absurd h (by decide)
    have hc : ¬ key ∈ objectPrototypeNames := by simpa using h
    simp [hp, hc]

theorem sortOr_of_ownSortKey (table : List (String × Mongo.SortSpec)) (sort : Option String)
    (defaultKey : String) (fallback : Mongo.SortSpec)
    (hd : objectPrototypeNames.contains defaultKey = false) (h : ownSortKey sort = true) :
    sortOr table (sort.getD defaultKey) fallback
      = .doc (selectedSort table (sort.getD defaultKey) fallback) := by
  apply sortOr_of_own
  cases sort with
  | none => exact hd
  | some key => simpa [ownSortKey] using h

theorem Mongo.findSorted_eq {α : Type} (env : Env) (m : Mongo.Model α) (s : Store)
    (q : Mongo.Query) (p : α → Bool) (arg : Mongo.SortArg) (spec : Mongo.SortSpec)
    (page limit : Int) (ha : arg = .doc spec)
    (hc : Mongo.compile env m q = .ok p) (hr : s.fault .find = none) (hp : 1 ≤ page)
    (hl : 1 ≤ limit) :
    Mongo.findSorted env m s q arg ((page - 1) * limit) limit
      = .ok (pageOf (Mongo.sort m.sortKey spec ((m.docs s).filter p)) page limit) := by
  subst ha
  exact Mongo.find_eq env m s q p spec page limit hc hr hp hl

theorem UserModel_docs (s : Store) : UserModel.docs s = s.users := rfl

theorem PostModel_docs (s : Store) : PostModel.docs s = s.posts := rfl

theorem CommentModel_docs (s : Store) : CommentModel.docs s = s.comments := rfl

theorem Resolvers.Query.users_eq (env : Env) (s : Store) (args : ListArgs UserFilterInput)
    (ctx : Context) (p : User → Bool)
    (h : ValidPage env UserModel s (usersQuery args.filter) p (args.page.getD 1)
      (args.limit.getD 10))
    (hsort : ownSortKey args.sort = true) :
    Resolvers.Query.users env s args ctx = .ok
      { data := (pageOf (Mongo.sort UserModel.sortKey
            (selectedSort sortOptions (args.sort.getD "registerDate_desc") ⟨.registerDate, false⟩)
            (s.users.filter p)) (args.page.getD 1) (args.limit.getD 10)).map (fun user =>
          { id := user._id
            doc := user
            gender := i18nextTOpt user.gender ctx.language
            registerDate := formatDate env (some user.registerDate) ctx.language
            email := if ctx.apiVersion == "2.0" then none else some user.email })
        pagination := paginationBlock (s.users.filter p).length (args.page.getD 1)
          (args.limit.getD 10) } := by
  have hcount := Mongo.countDocuments_eq env UserModel s _ p h.compiles h.count_ok
  have hfind := Mongo.findSorted_eq env UserModel s _ p _
    (selectedSort sortOptions (args.sort.getD "registerDate_desc") ⟨.registerDate, false⟩)
    _ _ (sortOr_of_ownSortKey sortOptions args.sort "registerDate_desc" ⟨.registerDate, false⟩ (by decide) hsort)
    h.compiles h.find_ok h.page_pos h.limit_pos
  by_cases hv : ctx.apiVersion = "2.0" <;>
    simp [Resolvers.Query.users, tryCatch, hcount, hfind, bind, Except.bind, pure, Except.pure,
      hv, UserModel_docs]

theorem Resolvers2.Query.users2_eq (env : Env) (s : Store) (args : ListArgs UserFilterInput)
    (p : User → Bool)
    (h : ValidPage env UserModel s (usersQuery args.filter) p (args.page.getD 1)
      (args.limit.getD 10))
    (hsort : ownSortKey args.sort = true) :
    Resolvers2.Query.users env s args = .ok
      { data := (pageOf (Mongo.sort UserModel.sortKey
            (selectedSort sortOptions (args.sort.getD "registerDate_desc") ⟨.registerDate, false⟩)
            (s.users.filter p)) (args.page.getD 1) (args.limit.getD 10)).map selectSansEmail
        pagination := paginationBlock (s.users.filter p).length (args.page.getD 1)
          (args.limit.getD 10) } := by
  have hcount := Mongo.countDocuments_eq env UserModel s _ p h.compiles h.count_ok
  have hfind := Mongo.findSorted_eq env UserModel s _ p _
    (selectedSort sortOptions (args.sort.getD "registerDate_desc") ⟨.registerDate, false⟩)
    _ _ (sortOr_of_ownSortKey sortOptions args.sort "registerDate_desc" ⟨.registerDate, false⟩ (by decide) hsort)
    h.compiles h.find_ok h.page_pos h.limit_pos
  simp [Resolvers2.Query.users, tryCatch, hcount, hfind, bind, Except.bind, pure, Except.pure,
    UserModel_docs]

theorem Resolvers.Query.posts_eq (env : Env) (s : Store) (args : ListArgs PostFilterInput)
    (ctx : Context) (p : Post → Bool)
    (h : ValidPage env PostModel s (postsQuery env args.filter) p (args.page.getD 1)
      (args.limit.getD 10))
    (hsort : ownSortKey args.sort = true) :
    Resolvers.Query.posts env s args ctx = .ok
      { data := (pageOf (Mongo.sort PostModel.sortKey
            (selectedSort sortOptions (args.sort.getD "createdAt_desc") ⟨.publishDate, false⟩)
            (s.posts.filter p)) (args.page.getD 1) (args.limit.getD 10)).map (fun post =>
          { id := post._id
            doc := populatePost s post
            publishDate := formatDate env (some post.publishDate) ctx.language })
        pagination := paginationBlock (s.posts.filter p).length (args.page.getD 1)
          (args.limit.getD 10) } := by
  have hcount := Mongo.countDocuments_eq env PostModel s _ p h.compiles h.count_ok
  have hfind := Mongo.findSorted_eq env PostModel s _ p _
    (selectedSort sortOptions (args.sort.getD "createdAt_desc") ⟨.publishDate, false⟩)
    _ _ (sortOr_of_ownSortKey sortOptions args.sort "createdAt_desc" ⟨.publishDate, false⟩ (by decide) hsort)
    h.compiles h.find_ok h.page_pos h.limit_pos
  simp [Resolvers.Query.posts, tryCatch, hcount, hfind, bind, Except.bind, pure, Except.pure,
    PostModel_docs, Function.comp_def, populatePost]

theorem Resolvers2.Query.posts2_eq (env : Env) (s : Store) (args : ListArgs PostFilterInput)
    (p : Post → Bool)
    (h : ValidPage env PostModel s (postsQuery env args.filter) p (args.page.getD 1)
      (args.limit.getD 10))
    (hsort : ownSortKey args.sort = true) :
    Resolvers2.Query.posts env s args = .ok
      { data := (pageOf (Mongo.sort PostModel.sortKey
            (selectedSort sortOptions (args.sort.getD "createdAt_desc") ⟨.publishDate, false⟩)
            (s.posts.filter p)) (args.page.getD 1) (args.limit.getD 10)).map (populatePost s)
        pagination := paginationBlock (s.posts.filter p).length (args.page.getD 1)
          (args.limit.getD 10) } := by
  have hcount := Mongo.countDocuments_eq env PostModel s _ p h.compiles h.count_ok
  have hfind := Mongo.findSorted_eq env PostModel s _ p _
    (selectedSort sortOptions (args.sort.getD "createdAt_desc") ⟨.publishDate, false⟩)
    _ _ (sortOr_of_ownSortKey sortOptions args.sort "createdAt_desc" ⟨.publishDate, false⟩ (by decide) hsort)
    h.compiles h.find_ok h.page_pos h.limit_pos
  simp [Resolvers2.Query.posts, tryCatch, hcount, hfind, bind, Except.bind, pure, Except.pure,
    PostModel_docs]

theorem searchUsersQuery_regex (env : Env) (query : String) (p : User → Bool)
    (hc : Mongo.compile env UserModel (searchUsersQuery query) = .ok p) :
    newRegExp env query = .ok () := by
  cases hq : env.regex query with
  | some t => simp [newRegExp, hq]
  | none =>
    simp [Mongo.compile, searchUsersQuery, Mongo.compileClause, Mongo.compileOr,
      Mongo.compilePath, UserModel, Mongo.compileCond, hq, bind, Except.bind] at hc

theorem searchPostsQuery_regex (env : Env) (query : String) (p : Post → Bool)
    (hc : Mongo.compile env PostModel (searchPostsQuery query) = .ok p) :
    newRegExp env query = .ok () := by
  cases hq : env.regex query with
  | some t => simp [newRegExp, hq]
  | none =>
    simp [Mongo.compile, searchPostsQuery, Mongo.compileClause, Mongo.compileOr,
      Mongo.compilePath, PostModel, Mongo.compileCond, hq, bind, Except.bind] at hc

theorem ObjectId.isValid_of_cast {id oid : String} (h : ObjectId.cast id = some oid) :
    ObjectId.isValid id = true := by
  by_cases hv : ObjectId.isValid id = true
  · exact hv
  · simp [ObjectId.cast, hv] at h

theorem compile_post_eq_valid (env : Env) (postId : String) (rest : Mongo.Query)
    (p : Comment → Bool)
    (hc : Mongo.compile env CommentModel (.path "post" (.eq postId) :: rest) = .ok p) :
    ObjectId.isValid postId = true := by
  cases hq : ObjectId.cast postId with
  | some t => exact ObjectId.isValid_of_cast hq
  | none =>
    simp [Mongo.compile, Mongo.compileClause, Mongo.compilePath, CommentModel,
      Mongo.compileCond, hq, bind, Except.bind] at hc

theorem compile_owner_eq_valid (env : Env) (userId : String) (rest : Mongo.Query)
    (p : Comment → Bool)
    (hc : Mongo.compile env CommentModel (.path "owner" (.eq userId) :: rest) = .ok p) :
    ObjectId.isValid userId = true := by
  cases hq : ObjectId.cast userId with
  | some t => exact ObjectId.isValid_of_cast hq
  | none =>
    simp [Mongo.compile, Mongo.compileClause, Mongo.compilePath, CommentModel,
      Mongo.compileCond, hq, bind, Except.bind] at hc

theorem compile_post_owner_eq_valid (env : Env) (userId : String) (p : Post → Bool)
    (hc : Mongo.compile env PostModel [.path "owner" (.eq userId)] = .ok p) :
    ObjectId.isValid userId = true := by
  cases hq : ObjectId.cast userId with
  | some t => exact ObjectId.isValid_of_cast hq
  | none =>
    simp [Mongo.compile, Mongo.compileClause, Mongo.compilePath, PostModel,
      Mongo.compileCond, hq, bind, Except.bind] at hc

theorem Resolvers.Query.searchUsers_eq (env : Env) (s : Store) (query : String)
    (page limit : Option Int) (p : User → Bool)
    (h : ValidPage env UserModel s (searchUsersQuery query) p (page.getD 1) (limit.getD 10)) :
    Resolvers.Query.searchUsers env s query page limit = .ok
      { data := pageOf (s.users.filter p) (page.getD 1) (limit.getD 10)
        pagination := paginationBlock (s.users.filter p).length (page.getD 1)
          (limit.getD 10) } := by
  have hcount := Mongo.countDocuments_eq env UserModel s _ p h.compiles h.count_ok
  have hfind := Mongo.find_unsorted_eq env UserModel s _ p
    _ _ h.compiles h.find_ok h.page_pos h.limit_pos
  simp [Resolvers.Query.searchUsers, tryCatch, hcount, hfind, bind, Except.bind, pure,
    Except.pure, UserModel_docs, searchUsersQuery_regex env query p h.compiles]

theorem Resolvers.Query.searchPosts_eq (env : Env) (s : Store) (query : String)
    (page limit : Option Int) (p : Post → Bool)
    (h : ValidPage env PostModel s (searchPostsQuery query) p (page.getD 1) (limit.getD 10)) :
    Resolvers.Query.searchPosts env s query page limit = .ok
      { data := (pageOf (s.posts.filter p) (page.getD 1) (limit.getD 10)).map (populatePost s)
        pagination := paginationBlock (s.posts.filter p).length (page.getD 1)
          (limit.getD 10) } := by
  have hcount := Mongo.countDocuments_eq env PostModel s _ p h.compiles h.count_ok
  have hfind := Mongo.find_unsorted_eq env PostModel s _ p
    _ _ h.compiles h.find_ok h.page_pos h.limit_pos
  simp [Resolvers.Query.searchPosts, tryCatch, hcount, hfind, bind, Except.bind, pure,
    Except.pure, PostModel_docs, searchPostsQuery_regex env query p h.compiles]

theorem Resolvers.Query.commentsByPost_eq (env : Env) (s : Store) (postId : String)
    (args : ListArgs CommentFilterInput) (p : Comment → Bool)
    (h : ValidPage env CommentModel s
      (.path "post" (.eq postId) :: commentsFilter env args.filter) p
      (args.page.getD 1) (args.limit.getD 10))
    (hsort : ownSortKey args.sort = true) :
    Resolvers.Query.commentsByPost env s postId args = .ok
      { data := (pageOf (Mongo.sort CommentModel.sortKey
            (selectedSort sortOptions (args.sort.getD "createdAt_desc") ⟨.publishDate, false⟩)
            (s.comments.filter p)) (args.page.getD 1) (args.limit.getD 10)).map
            (populateComment s)
        pagination := paginationBlock (s.comments.filter p).length (args.page.getD 1)
          (args.limit.getD 10) } := by
  have hcount := Mongo.countDocuments_eq env CommentModel s _ p h.compiles h.count_ok
  have hfind := Mongo.findSorted_eq env CommentModel s _ p _
    (selectedSort sortOptions (args.sort.getD "createdAt_desc") ⟨.publishDate, false⟩)
    _ _ (sortOr_of_ownSortKey sortOptions args.sort "createdAt_desc" ⟨.publishDate, false⟩ (by decide) hsort)
    h.compiles h.find_ok h.page_pos h.limit_pos
  have hid := compile_post_eq_valid env postId _ p h.compiles
  simp [Resolvers.Query.commentsByPost, tryCatch, hcount, hfind, bind, Except.bind, pure,
    Except.pure, CommentModel_docs, hid]

theorem Resolvers.Query.commentsByUser_eq (env : Env) (s : Store) (userId : String)
    (args : ListArgs CommentFilterInput) (p : Comment → Bool)
    (h : ValidPage env CommentModel s
      (.path "owner" (.eq userId) :: commentsFilter env args.filter) p
      (args.page.getD 1) (args.limit.getD 10))
    (hsort : ownSortKey args.sort = true) :
    Resolvers.Query.commentsByUser env s userId args = .ok
      { data := (pageOf (Mongo.sort CommentModel.sortKey
            (selectedSort sortOptions (args.sort.getD "createdAt_desc") ⟨.publishDate, false⟩)
            (s.comments.filter p)) (args.page.getD 1) (args.limit.getD 10)).map
            (populateComment s)
        pagination := paginationBlock (s.comments.filter p).length (args.page.getD 1)
          (args.limit.getD 10) } := by
  have hcount := Mongo.countDocuments_eq env CommentModel s _ p h.compiles h.count_ok
  have hfind := Mongo.findSorted_eq env CommentModel s _ p _
    (selectedSort sortOptions (args.sort.getD "createdAt_desc") ⟨.publishDate, false⟩)
    _ _ (sortOr_of_ownSortKey sortOptions args.sort "createdAt_desc" ⟨.publishDate, false⟩ (by decide) hsort)
    h.compiles h.find_ok h.page_pos h.limit_pos
  have hid := compile_owner_eq_valid env userId _ p h.compiles
  simp [Resolvers.Query.commentsByUser, tryCatch, hcount, hfind, bind, Except.bind, pure,
    Except.pure, CommentModel_docs, hid]

theorem Resolvers.Query.postsByUser_eq (env : Env) (s : Store) (userId : String)
    (page limit : Option Int) (sort : Option String) (p : Post → Bool)
    (h : ValidPage env PostModel s [.path "owner" (.eq userId)] p
      (page.getD 1) (limit.getD 10))
    (hsort : ownSortKey sort = true) :
    Resolvers.Query.postsByUser env s userId page limit sort = .ok
      { data := (pageOf (Mongo.sort PostModel.sortKey
            (selectedSort sortOptions (sort.getD "createdAt_desc") ⟨.publishDate, false⟩)
            (s.posts.filter p)) (page.getD 1) (limit.getD 10)).map (populatePost s)
        pagination := paginationBlock (s.posts.filter p).length (page.getD 1)
          (limit.getD 10) } := by
  have hcount := Mongo.countDocuments_eq env PostModel s _ p h.compiles h.count_ok
  have hfind := Mongo.findSorted_eq env PostModel s _ p _
    (selectedSort sortOptions (sort.getD "createdAt_desc") ⟨.publishDate, false⟩)
    _ _ (sortOr_of_ownSortKey sortOptions sort "createdAt_desc" ⟨.publishDate, false⟩ (by decide) hsort)
    h.compiles h.find_ok h.page_pos h.limit_pos
  have hid := compile_post_owner_eq_valid env userId p h.compiles
  simp [Resolvers.Query.postsByUser, tryCatch, hcount, hfind, bind, Except.bind, pure,
    Except.pure, PostModel_docs, hid]

theorem Resolvers.Query.postsByTag_eq (env : Env) (s : Store) (tag : String)
    (page limit : Option Int) (sort : Option String) (p : Post → Bool)
    (h : ValidPage env PostModel s [.path "tags" (.eq tag)] p
      (page.getD 1) (limit.getD 10))
    (hsort : ownSortKey sort = true) :
    Resolvers.Query.postsByTag env s tag page limit sort = .ok
      { data := (pageOf (Mongo.sort PostModel.sortKey
            (selectedSort postsByTagSortOptions (sort.getD "createdAt_desc") ⟨.createdAt, false⟩)
            (s.posts.filter p)) (page.getD 1) (limit.getD 10)).map (populatePost s)
        pagination := paginationBlock (s.posts.filter p).length (page.getD 1)
          (limit.getD 10) } := by
  have hcount := Mongo.countDocuments_eq env PostModel s _ p h.compiles h.count_ok
  have hfind := Mongo.findSorted_eq env PostModel s _ p _
    (selectedSort postsByTagSortOptions (sort.getD "createdAt_desc") ⟨.createdAt, false⟩)
    _ _ (sortOr_of_ownSortKey postsByTagSortOptions sort "createdAt_desc" ⟨.createdAt, false⟩ (by decide) hsort)
    h.compiles h.find_ok h.page_pos h.limit_pos
  simp [Resolvers.Query.postsByTag, tryCatch, hcount, hfind, bind, Except.bind, pure,
    Except.pure, PostModel_docs]

theorem isPageOf_pageOf {α : Type} (sorted : List α) (page limit : Int) (hp : 1 ≤ page)
    (hl : 1 ≤ limit) : IsPageOf (pageOf sorted page limit) sorted page limit :=
  ⟨rfl, pageOf_length_le sorted page limit hl, pageOf_length sorted page limit hp hl⟩

theorem isBeyondLast_of {α β : Type} (sorted matching : List α) (f : α → β) (page limit : Int)
    (hl : 1 ≤ limit) (hlen : sorted.length = matching.length)
    (hbeyond : ⌈(matching.length : ℚ) / (limit : ℚ)⌉ < page) :
    PageResult.IsBeyondLast
      { data := (pageOf sorted page limit).map f
        pagination := paginationBlock matching.length page limit } matching.length limit := by
  have h := pageOf_beyond sorted page limit hl (by rw [hlen]; exact hbeyond)
  refine ⟨by simp [h.1], ?_, rfl, mathCeilDiv_eq_ceil _ _ (by omega)⟩
  have h2 := h.2
  rw [hlen] at h2
  simp [paginationBlock, h2]

/-! ## The predicate a filter selects records with -/

theorem Mongo.compile_nil {α : Type} (env : Env) (m : Mongo.Model α) (p : α → Bool)
    (hc : Mongo.compile env m [] = .ok p) : ∀ d, p d = true := by
  simp only [Mongo.compile, Except.ok.injEq] at hc
  intro d
  rw [← hc]

theorem Mongo.compile_cons {α : Type} (env : Env) (m : Mongo.Model α) (cl : Mongo.Clause)
    (rest : Mongo.Query) (p : α → Bool) (hc : Mongo.compile env m (cl :: rest) = .ok p) :
    ∃ p1 p2, Mongo.compileClause env m cl = .ok p1 ∧ Mongo.compile env m rest = .ok p2 ∧
      ∀ d, p d = (p1 d && p2 d) := by
  simp only [Mongo.compile, bind, Except.bind, pure, Except.pure] at hc
  cases h1 : Mongo.compileClause env m cl with
  | error e => simp [h1] at hc
  | ok p1 =>
    cases h2 : Mongo.compile env m rest with
    | error e => simp [h1, h2] at hc
    | ok p2 =>
      simp only [h1, h2, Except.ok.injEq] at hc
      exact ⟨p1, p2, rfl, rfl, fun d => by rw [← hc]⟩

theorem Mongo.compile_append {α : Type} (env : Env) (m : Mongo.Model α) (q1 q2 : Mongo.Query) :
    ∀ p : α → Bool, Mongo.compile env m (q1 ++ q2) = .ok p →
    ∃ p1 p2, Mongo.compile env m q1 = .ok p1 ∧ Mongo.compile env m q2 = .ok p2 ∧
      ∀ d, p d = (p1 d && p2 d) := by
  induction q1 with
  | nil =>
    intro p hc
    exact ⟨fun _ => true, p, rfl, hc, fun d => by simp⟩
  | cons cl rest ih =>
    intro p hc
    obtain ⟨pc, pr, h1, h2, h3⟩ := Mongo.compile_cons env m cl (rest ++ q2) p hc
    obtain ⟨p1, p2, h4, h5, h6⟩ := ih pr h2
    refine ⟨fun d => pc d && p1 d, p2, ?_, h5, ?_⟩
    · simp [Mongo.compile, h1, h4, bind, Except.bind, pure, Except.pure]
    · intro d
      rw [h3, h6, Bool.and_assoc]

theorem Mongo.compile_single {α : Type} (env : Env) (m : Mongo.Model α) (name : String)
    (c : Mongo.Cond) (p : α → Bool) (hc : Mongo.compile env m [.path name c] = .ok p) :
    ∃ q, Mongo.compilePath env m name c = .ok q ∧ ∀ d, p d = q d := by
  obtain ⟨p1, p2, h1, h2, h3⟩ := Mongo.compile_cons env m _ _ p hc
  refine ⟨p1, h1, fun d => ?_⟩
  rw [h3, Mongo.compile_nil env m p2 h2 d, Bool.and_true]

theorem compilePath_regex_string {α : Type} (env : Env) (m : Mongo.Model α) (name pattern : String)
    (p : α → Bool) (hs : m.schema name = some .string)
    (hc : Mongo.compilePath env m name (.regex pattern) = .ok p) :
    ∀ d, p d = match m.field d name with
      | .str text => textMatches env pattern text
      | _ => false := by
  simp only [Mongo.compilePath, hs, Mongo.compileCond, bind, Except.bind, pure, Except.pure] at hc
  cases hr : env.regex pattern with
  | none => simp [hr] at hc
  | some test =>
    simp only [hr, Except.ok.injEq] at hc
    intro d
    rw [← hc]
    simp only []
    generalize m.field d name = v
    cases v <;> simp [textMatches, hr]

/-- An optional pattern on a text path of a query. -/
theorem compile_optional_regex {α : Type} (env : Env) (m : Mongo.Model α) (name : String)
    (x : Option String) (text : α → String) (p : α → Bool)
    (hs : m.schema name = some .string) (hf : ∀ d, m.field d name = .str (text d))
    (hc : Mongo.compile env m
      (if truthy x then [.path name (.regex (x.getD ""))] else []) = .ok p) :
    ∀ d, p d = (!truthy x || textMatches env (x.getD "") (text d)) := by
  cases hx : truthy x with
  | false =>
    rw [hx] at hc
    intro d
    simpa using Mongo.compile_nil env m p hc d
  | true =>
    rw [hx, if_pos rfl] at hc
    obtain ⟨q, hq, hpq⟩ := Mongo.compile_single env m _ _ p hc
    intro d
    rw [hpq, compilePath_regex_string env m name _ q hs hq d, hf]
    simp

theorem usersQuery_selects (env : Env) (filter : Option UserFilterInput) (p : User → Bool)
    (hc : Mongo.compile env UserModel (usersQuery filter) = .ok p)
    (hemail : ∀ f, filter = some f → truthy f.email = false) :
    ∀ u, p u = UserFilterInput.selects env filter u := by
  cases filter with
  | none =>
    intro u
    rw [Mongo.compile_nil env UserModel p hc u]
    rfl
  | some f =>
    have he := hemail f rfl
    intro u
    simp only [usersQuery] at hc
    obtain ⟨p12, p3, h12, h3, e3⟩ := Mongo.compile_append env UserModel _ _ p hc
    obtain ⟨p1, p2, h1, h2, e12⟩ := Mongo.compile_append env UserModel _ _ p12 h12
    have r1 := compile_optional_regex env UserModel "firstName" f.firstName
      (fun u => u.firstName) p1 (by decide) (fun _ => rfl) h1 u
    have r2 := compile_optional_regex env UserModel "lastName" f.lastName
      (fun u => u.lastName) p2 (by decide) (fun _ => rfl) h2 u
    have r3 : p3 u = (!truthy f.gender || u.gender == f.gender) := by
      cases hg : truthy f.gender with
      | false =>
        rw [hg] at h3
        simpa using Mongo.compile_nil env UserModel p3 h3 u
      | true =>
        rw [hg, if_pos rfl] at h3
        obtain ⟨q, hq, hpq⟩ := Mongo.compile_single env UserModel _ _ p3 h3
        have hsch : UserModel.schema "gender" = some .string := by decide
        simp only [Mongo.compilePath, hsch, Mongo.compileCond, bind, Except.bind, pure,
          Except.pure, Except.ok.injEq] at hq
        rw [hpq, ← hq]
        have hfield : UserModel.field u "gender" = optStr u.gender := rfl
        cases hfg : f.gender with
        | none => simp [hfg, truthy] at hg
        | some g =>
          cases hug : u.gender with
          | none => simp [hfield, hug, optStr]
          | some g2 =>
            simp only [hfield, hug, optStr, Option.getD_some, Bool.not_true, Bool.false_or]
            by_cases hgg : g2 = g <;> simp [hgg]
    rw [e3, e12, r1, r2, r3]
    simp [UserFilterInput.selects, he]

theorem postsQuery_selects (env : Env) (filter : Option PostFilterInput) (p : Post → Bool)
    (hc : Mongo.compile env PostModel (postsQuery env filter) = .ok p) :
    ∀ post, p post = PostFilterInput.selects env filter post := by
  cases filter with
  | none =>
    intro post
    rw [Mongo.compile_nil env PostModel p hc post]
    rfl
  | some f =>
    intro post
    simp only [postsQuery] at hc
    obtain ⟨p123, p4, h123, h4, e4⟩ := Mongo.compile_append env PostModel _ _ p hc
    obtain ⟨p12, p3, h12, h3, e3⟩ := Mongo.compile_append env PostModel _ _ p123 h123
    obtain ⟨p1, p2, h1, h2, e12⟩ := Mongo.compile_append env PostModel _ _ p12 h12
    have r1 := compile_optional_regex env PostModel "text" f.text
      (fun post => post.text) p1 (by decide) (fun _ => rfl) h1 post
    have r2 : p2 post
        = (!truthy f.owner || ObjectId.cast (f.owner.getD "") == some post.owner) := by
      cases ho : truthy f.owner with
      | false =>
        rw [ho] at h2
        simpa using Mongo.compile_nil env PostModel p2 h2 post
      | true =>
        rw [ho, if_pos rfl] at h2
        obtain ⟨q, hq, hpq⟩ := Mongo.compile_single env PostModel _ _ p2 h2
        have hsch : PostModel.schema "owner" = some .objectId := by decide
        simp only [Mongo.compilePath, hsch, Mongo.compileCond, bind, Except.bind, pure,
          Except.pure] at hq
        have hfield : PostModel.field post "owner" = .oid post.owner := rfl
        cases hcast : ObjectId.cast (f.owner.getD "") with
        | none => simp [hcast] at hq
        | some id =>
          simp only [hcast, Except.ok.injEq] at hq
          rw [hpq, ← hq]
          simp only [hfield]
          by_cases hid : post.owner = id <;> simp [hid]
          exact fun h => hid h.symm
    have r3 : p3 post = (match f.tags with
        | none => true
        | some tags => post.tags.any (fun t => tags.contains t)) := by
      cases ht : f.tags with
      | none =>
        rw [ht] at h3
        simpa using Mongo.compile_nil env PostModel p3 h3 post
      | some tags =>
        rw [ht] at h3
        obtain ⟨q, hq, hpq⟩ := Mongo.compile_single env PostModel _ _ p3 h3
        have hsch : PostModel.schema "tags" = some .stringArray := by decide
        simp only [Mongo.compilePath, hsch, Mongo.compileCond, bind, Except.bind, pure,
          Except.pure, Except.ok.injEq] at hq
        have hfield : PostModel.field post "tags" = .strs post.tags := rfl
        rw [hpq, ← hq]
        simp only [hfield]
    have r4 : p4 post = (!truthy f.publishDate ||
        match env.parseDate (f.publishDate.getD "") with
        | some date => decide (date ≤ post.publishDate)
        | none => false) := by
      cases hd : truthy f.publishDate with
      | false =>
        rw [hd] at h4
        simpa using Mongo.compile_nil env PostModel p4 h4 post
      | true =>
        rw [hd, if_pos rfl] at h4
        obtain ⟨q, hq, hpq⟩ := Mongo.compile_single env PostModel _ _ p4 h4
        have hsch : PostModel.schema "publishDate" = some .date := by decide
        simp only [Mongo.compilePath, hsch, Mongo.compileCond, bind, Except.bind, pure,
          Except.pure] at hq
        have hfield : PostModel.field post "publishDate" = .date post.publishDate := rfl
        cases hpd : env.parseDate (f.publishDate.getD "") with
        | none => simp [hpd] at hq
        | some date =>
          simp only [hpd, Except.ok.injEq] at hq
          rw [hpq, ← hq]
          simp only [hfield]
          simp
    rw [e4, e3, e12, r1, r2, r3, r4]
    simp only [PostFilterInput.selects]

theorem users_filter_selects (env : Env) (s : Store) (filter : Option UserFilterInput)
    (p : User → Bool) (hc : Mongo.compile env UserModel (usersQuery filter) = .ok p)
    (hemail : ∀ f, filter = some f → truthy f.email = false) :
    s.users.filter p = s.users.filter (UserFilterInput.selects env filter) :=
  List.filter_congr (fun u _ => usersQuery_selects env filter p hc hemail u)

theorem posts_filter_selects (env : Env) (s : Store) (filter : Option PostFilterInput)
    (p : Post → Bool) (hc : Mongo.compile env PostModel (postsQuery env filter) = .ok p) :
    s.posts.filter p = s.posts.filter (PostFilterInput.selects env filter) :=
  List.filter_congr (fun post _ => postsQuery_selects env filter p hc post)

/-! ## C1: the pagination block -/

/-- C1 fails on the code for a filter that names an email: neither `users`
resolver reads `filter.email`, a field `UserFilterInput` declares.  Under the
email of no stored user the filter selects no user, yet both resolvers count
the whole collection: `totalRecords = 2` and `totalPages = 1`. -/
theorem users_count_ignores_email :
    (Example.store.users.filter (UserFilterInput.selects Example.env
        (some { firstName := none, lastName := none, gender := none,
                email := some "nobody@example.org" }))).length = 0 ∧
    (∃ r, Resolvers.Query.users Example.env Example.store
        { page := some 1, limit := some 10, sort := none,
          filter := some { firstName := none, lastName := none, gender := none,
                           email := some "nobody@example.org" } } Example.ctx = .ok r ∧
      r.pagination.totalRecords = 2 ∧ r.pagination.totalPages = .fin 1) ∧
    (∃ r, Resolvers2.Query.users Example.env Example.store
        { page := some 1, limit := some 10, sort := none,
          filter := some { firstName := none, lastName := none, gender := none,
                           email := some "nobody@example.org" } } = .ok r ∧
      r.pagination.totalRecords = 2 ∧ r.pagination.totalPages = .fin 1) :=
  ⟨by decide, ⟨_, rfl, rfl, by decide⟩, ⟨_, rfl, rfl, by decide⟩⟩

/-- C1, where the code meets it: for the `users` and `posts` list resolvers
of both versions, on every store and every valid page request (`page ≥ 1`,
`limit ≥ 1`, store reachable, query accepted) whose sort key is no name
inherited from `Object.prototype` and, for `users`, whose filter gives no
email, the resolver returns and its pagination block has `totalRecords = N`,
the number of stored records the filter of the request selects,
`totalPages = ceil(N / limit)`, `currentPage = page`,
`hasNextPage = (page * limit < N)` and `hasPreviousPage = (page > 1)`. -/
theorem list_pagination_block (env : Env) (s : Store) (ctx : Context) :
    (∀ (args : ListArgs UserFilterInput) (p : User → Bool),
      ValidPage env UserModel s (usersQuery args.filter) p (args.page.getD 1)
        (args.limit.getD 10) →
      ownSortKey args.sort = true →
      (∀ f, args.filter = some f → truthy f.email = false) →
      ∃ r, Resolvers.Query.users env s args ctx = .ok r ∧
        r.pagination.Meets (s.users.filter (UserFilterInput.selects env args.filter)).length
          (args.page.getD 1) (args.limit.getD 10)) ∧
    (∀ (args : ListArgs UserFilterInput) (p : User → Bool),
      ValidPage env UserModel s (usersQuery args.filter) p (args.page.getD 1)
        (args.limit.getD 10) →
      ownSortKey args.sort = true →
      (∀ f, args.filter = some f → truthy f.email = false) →
      ∃ r, Resolvers2.Query.users env s args = .ok r ∧
        r.pagination.Meets (s.users.filter (UserFilterInput.selects env args.filter)).length
          (args.page.getD 1) (args.limit.getD 10)) ∧
    (∀ (args : ListArgs PostFilterInput) (p : Post → Bool),
      ValidPage env PostModel s (postsQuery env args.filter) p (args.page.getD 1)
        (args.limit.getD 10) →
      ownSortKey args.sort = true →
      ∃ r, Resolvers.Query.posts env s args ctx = .ok r ∧
        r.pagination.Meets (s.posts.filter (PostFilterInput.selects env args.filter)).length
          (args.page.getD 1) (args.limit.getD 10)) ∧
    (∀ (args : ListArgs PostFilterInput) (p : Post → Bool),
      ValidPage env PostModel s (postsQuery env args.filter) p (args.page.getD 1)
        (args.limit.getD 10) →
      ownSortKey args.sort = true →
      ∃ r, Resolvers2.Query.posts env s args = .ok r ∧
        r.pagination.Meets (s.posts.filter (PostFilterInput.selects env args.filter)).length
          (args.page.getD 1) (args.limit.getD 10)) := by
  refine ⟨?_, ?_, ?_, ?_⟩
  · intro args p h hsort hemail
    rw [← users_filter_selects env s args.filter p h.compiles hemail]
    exact ⟨_, Resolvers.Query.users_eq env s args ctx p h hsort,
      paginationBlock_meets _ _ _ h.limit_pos⟩
  · intro args p h hsort hemail
    rw [← users_filter_selects env s args.filter p h.compiles hemail]
    exact ⟨_, Resolvers2.Query.users2_eq env s args p h hsort,
      paginationBlock_meets _ _ _ h.limit_pos⟩
  · intro args p h hsort
    rw [← posts_filter_selects env s args.filter p h.compiles]
    exact ⟨_, Resolvers.Query.posts_eq env s args ctx p h hsort,
      paginationBlock_meets _ _ _ h.limit_pos⟩
  · intro args p h hsort
    rw [← posts_filter_selects env s args.filter p h.compiles]
    exact ⟨_, Resolvers2.Query.posts2_eq env s args p h hsort,
      paginationBlock_meets _ _ _ h.limit_pos⟩

/-- Witness of C1: page 1 with limit 1 of the users whose first name holds
`an` and whose gender is `female`, oldest registration first; one of the two
stored users matches. -/
theorem list_pagination_block_witness :
    ∃ r, Resolvers.Query.users Example.env Example.store
        { page := some 1, limit := some 1, sort := some "registerDate_asc",
          filter := some { firstName := some "an", lastName := none, gender := some "female",
                           email := none } } Example.ctx = .ok r ∧
      r.pagination.Meets 1 1 1 :=
  (list_pagination_block Example.env Example.store Example.ctx).1
    { page := some 1, limit := some 1, sort := some "registerDate_asc",
      filter := some { firstName := some "an", lastName := none, gender := some "female",
                       email := none } }
    (fun d => (match UserModel.field d "firstName" with
        | .str text => jsIncludes (jsToLowerCase "an") (jsToLowerCase text)
        | _ => false) && ((optStr d.gender == Mongo.FieldVal.str "female") && true))
    ⟨by decide, by decide, rfl, rfl, rfl⟩ (by decide) (fun f hf => by cases hf; rfl)

/-! ## C2: the data of a page -/

/-- C2 fails on the code for a filter that names an email: neither `users`
resolver reads `filter.email`.  Under the email of `ann` the filter selects
`ann` alone, yet the page of both resolvers holds `bob` too. -/
theorem users_data_ignores_email :
    Example.store.users.filter (UserFilterInput.selects Example.env
        (some { firstName := none, lastName := none, gender := none,
                email := some "ann@example.org" })) = [Example.ann] ∧
    (∃ r, Resolvers.Query.users Example.env Example.store
        { page := some 1, limit := some 10, sort := none,
          filter := some { firstName := none, lastName := none, gender := none,
                           email := some "ann@example.org" } } Example.ctx = .ok r ∧
      r.data.map (fun v => v.doc) = [Example.bob, Example.ann]) ∧
    (∃ r, Resolvers2.Query.users Example.env Example.store
        { page := some 1, limit := some 10, sort := none,
          filter := some { firstName := none, lastName := none, gender := none,
                           email := some "ann@example.org" } } = .ok r ∧
      r.data = [Example.bob, Example.ann].map selectSansEmail) :=
  ⟨by decide, ⟨_, rfl, rfl⟩, ⟨_, rfl, rfl⟩⟩

/-- C2, where the code meets it: for the `users` and `posts` list resolvers,
on every store and every valid page request whose sort key is no name
inherited from `Object.prototype` and, for `users`, whose filter gives no
email, the records of `data` are exactly the sequence of the records the
filter of the request selects, sorted, after skipping `(page - 1) * limit`
records and taking at most `limit`; so `data.length ≤ limit` and
`data.length = min(limit, max(0, N - (page - 1) * limit))`.  The sorted
sequence is a rearrangement of the selected records in the order of the sort
document. -/
theorem list_data_window (env : Env) (s : Store) (ctx : Context) :
    (∀ (args : ListArgs UserFilterInput) (p : User → Bool),
      ValidPage env UserModel s (usersQuery args.filter) p (args.page.getD 1)
        (args.limit.getD 10) →
      ownSortKey args.sort = true →
      (∀ f, args.filter = some f → truthy f.email = false) →
      ∃ r, Resolvers.Query.users env s args ctx = .ok r ∧
        r.data.length = (r.data.map (fun v => v.doc)).length ∧
        IsPageOf (r.data.map (fun v => v.doc))
          (Mongo.sort UserModel.sortKey
            (selectedSort sortOptions (args.sort.getD "registerDate_desc") ⟨.registerDate, false⟩)
            (s.users.filter (UserFilterInput.selects env args.filter)))
          (args.page.getD 1) (args.limit.getD 10)) ∧
    (∀ (args : ListArgs UserFilterInput) (p : User → Bool),
      ValidPage env UserModel s (usersQuery args.filter) p (args.page.getD 1)
        (args.limit.getD 10) →
      ownSortKey args.sort = true →
      (∀ f, args.filter = some f → truthy f.email = false) →
      ∃ r records, Resolvers2.Query.users env s args = .ok r ∧
        r.data = records.map selectSansEmail ∧
        IsPageOf records
          (Mongo.sort UserModel.sortKey
            (selectedSort sortOptions (args.sort.getD "registerDate_desc") ⟨.registerDate, false⟩)
            (s.users.filter (UserFilterInput.selects env args.filter)))
          (args.page.getD 1) (args.limit.getD 10)) ∧
    (∀ (args : ListArgs PostFilterInput) (p : Post → Bool),
      ValidPage env PostModel s (postsQuery env args.filter) p (args.page.getD 1)
        (args.limit.getD 10) →
      ownSortKey args.sort = true →
      ∃ r, Resolvers.Query.posts env s args ctx = .ok r ∧
        IsPageOf (r.data.map (fun v => v.doc.doc))
          (Mongo.sort PostModel.sortKey
            (selectedSort sortOptions (args.sort.getD "createdAt_desc") ⟨.publishDate, false⟩)
            (s.posts.filter (PostFilterInput.selects env args.filter)))
          (args.page.getD 1) (args.limit.getD 10)) ∧
    (∀ (args : ListArgs PostFilterInput) (p : Post → Bool),
      ValidPage env PostModel s (postsQuery env args.filter) p (args.page.getD 1)
        (args.limit.getD 10) →
      ownSortKey args.sort = true →
      ∃ r, Resolvers2.Query.posts env s args = .ok r ∧
        IsPageOf (r.data.map (fun v => v.doc))
          (Mongo.sort PostModel.sortKey
            (selectedSort sortOptions (args.sort.getD "createdAt_desc") ⟨.publishDate, false⟩)
            (s.posts.filter (PostFilterInput.selects env args.filter)))
          (args.page.getD 1) (args.limit.getD 10)) ∧
    (∀ (α : Type) (key : Mongo.SortField → α → Option Int) (spec : Mongo.SortSpec)
        (matching : List α),
      (Mongo.sort key spec matching).Perm matching ∧
      (Mongo.sort key spec matching).Sorted (Mongo.ordered key spec)) := by
  refine ⟨?_, ?_, ?_, ?_, ?_⟩
  · intro args p h hsort hemail
    rw [← users_filter_selects env s args.filter p h.compiles hemail]
    refine ⟨_, Resolvers.Query.users_eq env s args ctx p h hsort, by simp, ?_⟩
    simpa [Function.comp_def] using isPageOf_pageOf _ _ _ h.page_pos h.limit_pos
  · intro args p h hsort hemail
    rw [← users_filter_selects env s args.filter p h.compiles hemail]
    exact ⟨_, _, Resolvers2.Query.users2_eq env s args p h hsort, rfl,
      isPageOf_pageOf _ _ _ h.page_pos h.limit_pos⟩
  · intro args p h hsort
    rw [← posts_filter_selects env s args.filter p h.compiles]
    refine ⟨_, Resolvers.Query.posts_eq env s args ctx p h hsort, ?_⟩
    simpa [Function.comp_def, populatePost] using isPageOf_pageOf _ _ _ h.page_pos h.limit_pos
  · intro args p h hsort
    rw [← posts_filter_selects env s args.filter p h.compiles]
    refine ⟨_, Resolvers2.Query.posts2_eq env s args p h hsort, ?_⟩
    simpa [Function.comp_def, populatePost] using isPageOf_pageOf _ _ _ h.page_pos h.limit_pos
  · intro α key spec matching
    exact ⟨Mongo.sort_perm key spec matching, Mongo.sort_sorted key spec matching⟩

/-- Witness of C2: page 2 with limit 1 of the posts tagged `intro`, most
liked first, is the less liked of the two. -/
theorem list_data_window_witness :
    ∃ r, Resolvers2.Query.posts Example.env Example.twoPosts
        { page := some 2, limit := some 1, sort := some "likes_desc",
          filter := some { text := none, owner := none, tags := some ["intro"],
                           publishDate := none } } = .ok r ∧
      IsPageOf (r.data.map (fun v => v.doc))
        (Mongo.sort PostModel.sortKey ⟨.likes, false⟩ [Example.hello, Example.later]) 2 1 :=
  (list_data_window Example.env Example.twoPosts Example.ctx).2.2.2.1
    { page := some 2, limit := some 1, sort := some "likes_desc",
      filter := some { text := none, owner := none, tags := some ["intro"],
                       publishDate := none } }
    (fun d => (match PostModel.field d "tags" with
        | .strs have_ => have_.any (fun t => ["intro"].contains t)
        | _ => false) && true)
    ⟨by decide, by decide, rfl, rfl, rfl⟩ (by decide)

/-! ## C3: a page beyond the last one -/

/-- C3: for every list resolver (`users`, `posts`, `searchUsers`,
`searchPosts`, `commentsByPost`, `commentsByUser`, `postsByUser`,
`postsByTag`; `users` and `posts` in both versions, the others have one text
for both), every `limit ≥ 1` and every `page` greater than
`totalPages = ceil(N / limit)`, on an otherwise valid request (for the
resolvers that take a sort key, one that is no name inherited from
`Object.prototype`): the resolver does not fail, `data` is empty,
`hasNextPage = false`, `totalRecords = N` and `totalPages = ceil(N / limit)`. -/
theorem page_beyond_last (env : Env) (s : Store) (ctx : Context) :
    (∀ (args : ListArgs UserFilterInput) (p : User → Bool),
      ValidPage env UserModel s (usersQuery args.filter) p (args.page.getD 1)
        (args.limit.getD 10) →
      ownSortKey args.sort = true →
      ⌈((s.users.filter p).length : ℚ) / (args.limit.getD 10 : ℚ)⌉ < args.page.getD 1 →
      ∃ r, Resolvers.Query.users env s args ctx = .ok r ∧
        r.IsBeyondLast (s.users.filter p).length (args.limit.getD 10)) ∧
    (∀ (args : ListArgs UserFilterInput) (p : User → Bool),
      ValidPage env UserModel s (usersQuery args.filter) p (args.page.getD 1)
        (args.limit.getD 10) →
      ownSortKey args.sort = true →
      ⌈((s.users.filter p).length : ℚ) / (args.limit.getD 10 : ℚ)⌉ < args.page.getD 1 →
      ∃ r, Resolvers2.Query.users env s args = .ok r ∧
        r.IsBeyondLast (s.users.filter p).length (args.limit.getD 10)) ∧
    (∀ (args : ListArgs PostFilterInput) (p : Post → Bool),
      ValidPage env PostModel s (postsQuery env args.filter) p (args.page.getD 1)
        (args.limit.getD 10) →
      ownSortKey args.sort = true →
      ⌈((s.posts.filter p).length : ℚ) / (args.limit.getD 10 : ℚ)⌉ < args.page.getD 1 →
      ∃ r, Resolvers.Query.posts env s args ctx = .ok r ∧
        r.IsBeyondLast (s.posts.filter p).length (args.limit.getD 10)) ∧
    (∀ (args : ListArgs PostFilterInput) (p : Post → Bool),
      ValidPage env PostModel s (postsQuery env args.filter) p (args.page.getD 1)
        (args.limit.getD 10) →
      ownSortKey args.sort = true →
      ⌈((s.posts.filter p).length : ℚ) / (args.limit.getD 10 : ℚ)⌉ < args.page.getD 1 →
      ∃ r, Resolvers2.Query.posts env s args = .ok r ∧
        r.IsBeyondLast (s.posts.filter p).length (args.limit.getD 10)) ∧
    (∀ (query : String) (page limit : Option Int) (p : User → Bool),
      ValidPage env UserModel s (searchUsersQuery query) p (page.getD 1) (limit.getD 10) →
      ⌈((s.users.filter p).length : ℚ) / (limit.getD 10 : ℚ)⌉ < page.getD 1 →
      ∃ r, Resolvers.Query.searchUsers env s query page limit = .ok r ∧
        r.IsBeyondLast (s.users.filter p).length (limit.getD 10)) ∧
    (∀ (query : String) (page limit : Option Int) (p : Post → Bool),
      ValidPage env PostModel s (searchPostsQuery query) p (page.getD 1) (limit.getD 10) →
      ⌈((s.posts.filter p).length : ℚ) / (limit.getD 10 : ℚ)⌉ < page.getD 1 →
      ∃ r, Resolvers.Query.searchPosts env s query page limit = .ok r ∧
        r.IsBeyondLast (s.posts.filter p).length (limit.getD 10)) ∧
    (∀ (postId : String) (args : ListArgs CommentFilterInput) (p : Comment → Bool),
      ValidPage env CommentModel s
        (.path "post" (.eq postId) :: commentsFilter env args.filter) p
        (args.page.getD 1) (args.limit.getD 10) →
      ownSortKey args.sort = true →
      ⌈((s.comments.filter p).length : ℚ) / (args.limit.getD 10 : ℚ)⌉ < args.page.getD 1 →
      ∃ r, Resolvers.Query.commentsByPost env s postId args = .ok r ∧
        r.IsBeyondLast (s.comments.filter p).length (args.limit.getD 10)) ∧
    (∀ (userId : String) (args : ListArgs CommentFilterInput) (p : Comment → Bool),
      ValidPage env CommentModel s
        (.path "owner" (.eq userId) :: commentsFilter env args.filter) p
        (args.page.getD 1) (args.limit.getD 10) →
      ownSortKey args.sort = true →
      ⌈((s.comments.filter p).length : ℚ) / (args.limit.getD 10 : ℚ)⌉ < args.page.getD 1 →
      ∃ r, Resolvers.Query.commentsByUser env s userId args = .ok r ∧
        r.IsBeyondLast (s.comments.filter p).length (args.limit.getD 10)) ∧
    (∀ (userId : String) (page limit : Option Int) (sort : Option String) (p : Post → Bool),
      ValidPage env PostModel s [.path "owner" (.eq userId)] p (page.getD 1) (limit.getD 10) →
      ownSortKey sort = true →
      ⌈((s.posts.filter p).length : ℚ) / (limit.getD 10 : ℚ)⌉ < page.getD 1 →
      ∃ r, Resolvers.Query.postsByUser env s userId page limit sort = .ok r ∧
        r.IsBeyondLast (s.posts.filter p).length (limit.getD 10)) ∧
    (∀ (tag : String) (page limit : Option Int) (sort : Option String) (p : Post → Bool),
      ValidPage env PostModel s [.path "tags" (.eq tag)] p (page.getD 1) (limit.getD 10) →
      ownSortKey sort = true →
      ⌈((s.posts.filter p).length : ℚ) / (limit.getD 10 : ℚ)⌉ < page.getD 1 →
      ∃ r, Resolvers.Query.postsByTag env s tag page limit sort = .ok r ∧
        r.IsBeyondLast (s.posts.filter p).length (limit.getD 10)) := by
  refine ⟨?_, ?_, ?_, ?_, ?_, ?_, ?_, ?_, ?_, ?_⟩
  · intro args p h hsort hb
    exact ⟨_, Resolvers.Query.users_eq env s args ctx p h hsort,
      isBeyondLast_of _ _ _ _ _ h.limit_pos (Mongo.sort_perm _ _ _).length_eq hb⟩
  · intro args p h hsort hb
    exact ⟨_, Resolvers2.Query.users2_eq env s args p h hsort,
      isBeyondLast_of _ _ _ _ _ h.limit_pos (Mongo.sort_perm _ _ _).length_eq hb⟩
  · intro args p h hsort hb
    exact ⟨_, Resolvers.Query.posts_eq env s args ctx p h hsort,
      isBeyondLast_of _ _ _ _ _ h.limit_pos (Mongo.sort_perm _ _ _).length_eq hb⟩
  · intro args p h hsort hb
    exact ⟨_, Resolvers2.Query.posts2_eq env s args p h hsort,
      isBeyondLast_of _ _ _ _ _ h.limit_pos (Mongo.sort_perm _ _ _).length_eq hb⟩
  · intro query page limit p h hb
    refine ⟨_, Resolvers.Query.searchUsers_eq env s query page limit p h, ?_⟩
    simpa using isBeyondLast_of (s.users.filter p) (s.users.filter p) id _ _ h.limit_pos rfl hb
  · intro query page limit p h hb
    exact ⟨_, Resolvers.Query.searchPosts_eq env s query page limit p h,
      isBeyondLast_of _ _ _ _ _ h.limit_pos rfl hb⟩
  · intro postId args p h hsort hb
    exact ⟨_, Resolvers.Query.commentsByPost_eq env s postId args p h hsort,
      isBeyondLast_of _ _ _ _ _ h.limit_pos (Mongo.sort_perm _ _ _).length_eq hb⟩
  · intro userId args p h hsort hb
    exact ⟨_, Resolvers.Query.commentsByUser_eq env s userId args p h hsort,
      isBeyondLast_of _ _ _ _ _ h.limit_pos (Mongo.sort_perm _ _ _).length_eq hb⟩
  · intro userId page limit sort p h hsort hb
    exact ⟨_, Resolvers.Query.postsByUser_eq env s userId page limit sort p h hsort,
      isBeyondLast_of _ _ _ _ _ h.limit_pos (Mongo.sort_perm _ _ _).length_eq hb⟩
  · intro tag page limit sort p h hsort hb
    exact ⟨_, Resolvers.Query.postsByTag_eq env s tag page limit sort p h hsort,
      isBeyondLast_of _ _ _ _ _ h.limit_pos (Mongo.sort_perm _ _ _).length_eq hb⟩

/-- Witness of C3: page 3 with limit 1 of the two stored users. -/
theorem page_beyond_last_witness :
    ∃ r, Resolvers.Query.users Example.env Example.store
        (Example.pageArgs UserFilterInput 3 1) Example.ctx = .ok r ∧
      r.IsBeyondLast 2 1 :=
  (page_beyond_last Example.env Example.store Example.ctx).1
    (Example.pageArgs UserFilterInput 3 1) (fun _ => true)
    ⟨by decide, by decide, rfl, rfl, rfl⟩ (by decide)
    (by
      show ⌈((2 : ℕ) : ℚ) / ((1 : ℤ) : ℚ)⌉ < 3
      norm_num)

/-! ## C4: `limit ≤ 0` -/

/-- C4, as stated, fails: `users` with `limit = 0` is not rejected, it
returns a page; and with `limit = -1` on page 2 (a negative `skip`, which the
store rejects) the failure is a `ServerError`, not a `ParamsNotValidError`. -/
theorem users_limit_not_rejected :
    (∃ r, Resolvers.Query.users Example.env Example.store
        (Example.pageArgs UserFilterInput 1 0) Example.ctx = .ok r) ∧
    failureCode (Resolvers.Query.users Example.env Example.store
        (Example.pageArgs UserFilterInput 2 (-1)) Example.ctx) = some "SERVER_ERROR" :=
  ⟨⟨_, rfl⟩, by decide⟩

/-- C4 (amended): the `users` and `posts` resolvers of both versions do not
validate `limit`.  On a request with `limit ≤ 0` they never fail with
`PARAMS_NOT_VALID`: whenever such a request fails, it fails with a
`ServerError` (code `SERVER_ERROR`). -/
theorem limit_not_validated (env : Env) (s : Store) (ctx : Context) :
    (∀ (args : ListArgs UserFilterInput), args.limit.getD 10 ≤ 0 →
      ∀ e, Resolvers.Query.users env s args ctx = .error e →
        e.taxonomyCode = some "SERVER_ERROR") ∧
    (∀ (args : ListArgs UserFilterInput), args.limit.getD 10 ≤ 0 →
      ∀ e, Resolvers2.Query.users env s args = .error e →
        e.taxonomyCode = some "SERVER_ERROR") ∧
    (∀ (args : ListArgs PostFilterInput), args.limit.getD 10 ≤ 0 →
      ∀ e, Resolvers.Query.posts env s args ctx = .error e →
        e.taxonomyCode = some "SERVER_ERROR") ∧
    (∀ (args : ListArgs PostFilterInput), args.limit.getD 10 ≤ 0 →
      ∀ e, Resolvers2.Query.posts env s args = .error e →
        e.taxonomyCode = some "SERVER_ERROR") := by
  refine ⟨?_, ?_, ?_, ?_⟩
  · intro args _ e h
    simp only [Resolvers.Query.users, tryCatch] at h
    split at h <;> simp at h
    subst h; rfl
  · intro args _ e h
    simp only [Resolvers2.Query.users, tryCatch] at h
    split at h <;> simp at h
    subst h; rfl
  · intro args _ e h
    simp only [Resolvers.Query.posts, tryCatch] at h
    split at h <;> simp at h
    subst h; rfl
  · intro args _ e h
    simp only [Resolvers2.Query.posts, tryCatch] at h
    split at h <;> simp at h
    subst h; rfl

/-- Witness of C4 (amended): the failure of `users` on page 2 with
`limit = -1`. -/
theorem limit_not_validated_witness :
    (mkError .ServerError (i18nextT "failedToFetchUsers" "en" [])).taxonomyCode
        = some "SERVER_ERROR" :=
  (limit_not_validated Example.env Example.store Example.ctx).1
    (Example.pageArgs UserFilterInput 2 (-1)) (by decide) _ (by decide)

/-! ## C5: malformed identifiers -/

/-- C5 fails on the code: `commentsByPost`, `commentsByUser` and `postsByUser`
throw `ParamsNotValidError` for the malformed identifier `"not-an-id"`, but
their `catch` replaces every error, so the caller observes `SERVER_ERROR`;
`user` and `post` re-throw it and the caller observes `PARAMS_NOT_VALID`. -/
theorem malformed_id_in_list_resolvers (env : Env) (s : Store)
    (args : ListArgs CommentFilterInput) (page limit : Option Int) (sort : Option String)
    (ctx : Context) :
    Resolvers.Query.commentsByPost env s "not-an-id" args
      = .error (mkError .ServerError "Failed to fetch comments") ∧
    Resolvers.Query.commentsByUser env s "not-an-id" args
      = .error (mkError .ServerError "Failed to fetch comments") ∧
    Resolvers.Query.postsByUser env s "not-an-id" page limit sort
      = .error (mkError .ServerError "Failed to fetch posts") ∧
    failureCode (Resolvers.Query.commentsByPost env s "not-an-id" args)
      = some "SERVER_ERROR" ∧
    failureCode (Resolvers.Query.user env s "not-an-id" ctx) = some "PARAMS_NOT_VALID" ∧
    failureCode (Resolvers.Query.post env s "not-an-id" ctx) = some "PARAMS_NOT_VALID" ∧
    failureCode (Resolvers2.Query.user s "not-an-id") = some "PARAMS_NOT_VALID" ∧
    failureCode (Resolvers2.Query.post s "not-an-id") = some "PARAMS_NOT_VALID" := by
  have hid : ObjectId.isValid "not-an-id" = false := by decide
  refine ⟨?_, ?_, ?_, ?_, ?_, ?_, ?_, ?_⟩ <;>
    simp [Resolvers.Query.commentsByPost, Resolvers.Query.commentsByUser,
      Resolvers.Query.postsByUser, Resolvers.Query.user, Resolvers.Query.post,
      Resolvers2.Query.user, Resolvers2.Query.post, tryCatch, hid, bind, Except.bind,
      failureCode, mkError, JsError.instanceOf, GraphQLError.new, JsError.taxonomyCode,
      GraphQLError.code, ErrorClass.code, throw, throwThe, MonadExceptOf.throw]

/-! ## C6 and C7: typed errors at the `catch` blocks -/

/-- C6 fails on the code: `createPost` throws `BodyNotValidError` for an
empty `text` and `ParamsNotValidError` for a malformed `owner`, but its
`catch` replaces every error by `ServerError("Failed to create post")`;
`createComment` re-throws the same typed errors unchanged. -/
theorem createPost_replaces_typed_errors (env : Env) (s : Store) (oid : String) (now : Int) :
    Resolvers.Mutation.createPost env s
        { idempotencyKey := none, text := some "", image := none, likes := none, link := none,
          tags := none, owner := some "0123456789abcdef01234567" } oid now
      = (.error (mkError .ServerError "Failed to create post"), s) ∧
    Resolvers.Mutation.createPost env s
        { idempotencyKey := none, text := some "Hello world", image := none, likes := none,
          link := none, tags := none, owner := some "not-an-id" } oid now
      = (.error (mkError .ServerError "Failed to create post"), s) ∧
    Resolvers.Mutation.createComment env s
        { message := some "", owner := some "0123456789abcdef01234567",
          post := some "0123456789abcdef0123456a", publishDate := none } oid now
      = (.error (mkError .BodyNotValidError "Missing required fields: message, owner, post"),
          s) ∧
    Resolvers.Mutation.createComment env s
        { message := some "Nice", owner := some "not-an-id",
          post := some "0123456789abcdef0123456a", publishDate := none } oid now
      = (.error (mkError .ParamsNotValidError "Invalid owner ID format"), s) := by
  have hid : ObjectId.isValid "not-an-id" = false := by decide
  refine ⟨?_, ?_, ?_, ?_⟩ <;>
    simp [Resolvers.Mutation.createPost, Resolvers.Mutation.createComment,
      Resolvers.Mutation.createPostTry, Resolvers.Mutation.createCommentTry, truthy, hid, bind,
      Except.bind, pure, Except.pure, mkError, JsError.instanceOf, GraphQLError.new, throw,
      throwThe, MonadExceptOf.throw]

/-- C7 fails on the code of v2: when one of `firstName`, `lastName`, `email`
is missing or empty, v1 `createUser` fails with the `BodyNotValidError` it
throws and writes nothing, but the `catch` of v2 `createUser` does not
re-throw it: the caller observes `ServerError("Failed to create user")`. -/
theorem createUser_missing_field (env : Env) (s : Store) (ctx : Context) (oid : String)
    (now : Int) :
    (∀ input : UserInput,
      truthy input.firstName = false ∨ truthy input.lastName = false ∨
        truthy input.email = false →
      Resolvers.Mutation.createUser env s input ctx oid now
        = (.error (mkError .BodyNotValidError
            (i18nextT "missingRequiredFields" ctx.language
              [("fields", "firstName, lastName, email")])), s)) ∧
    (∀ input : UserInput,
      truthy input.firstName = false ∨ truthy input.lastName = false ∨
        truthy input.email = false →
      Resolvers2.Mutation.createUser env s input oid now
        = (.error (mkError .ServerError "Failed to create user"), s)) := by
  constructor
  · intro input h
    have hc : (!truthy input.firstName || !truthy input.lastName || !truthy input.email)
        = true := by
      rcases h with h | h | h <;> simp [h]
    simp [Resolvers.Mutation.createUser, tryCatchWrite, hc, bind, Except.bind, mkError,
      JsError.instanceOf, GraphQLError.new, throw, throwThe, MonadExceptOf.throw]
  · intro input h
    have hc : (!truthy input.firstName || !truthy input.lastName || !truthy input.email)
        = true := by
      rcases h with h | h | h <;> simp [h]
    simp [Resolvers2.Mutation.createUser, tryCatchWrite, hc, bind, Except.bind, mkError,
      JsError.name, JsError.codeIs11000, GraphQLError.new, throw, throwThe,
      MonadExceptOf.throw]

/-- Witness of C7: a payload with an empty `firstName` on the empty store. -/
theorem createUser_missing_field_witness :
    Resolvers2.Mutation.createUser Example.env Example.emptyStore
        { Example.carol none with firstName := some "" } "0123456789abcdef01234569" 3000
      = (.error (mkError .ServerError "Failed to create user"), Example.emptyStore) :=
  (createUser_missing_field Example.env Example.emptyStore Example.ctx
    "0123456789abcdef01234569" 3000).2 { Example.carol none with firstName := some "" }
    (Or.inl rfl)

/-! ## C8: the failures a caller observes -/

theorem JsError.isTyped_server (message : String) : (mkError .ServerError message).IsTyped :=
  Or.inr (Or.inr (Or.inr rfl))

theorem JsError.isTyped_of_instanceOf (e : JsError) (c : ErrorClass)
    (hc : c = .ParamsNotValidError ∨ c = .BodyNotValidError ∨ c = .ResourceNotFoundError)
    (h : e.instanceOf c = true) : e.IsTyped := by
  cases e with
  | other n m k => simp [JsError.instanceOf] at h
  | typed g =>
    simp only [JsError.instanceOf, beq_iff_eq] at h
    rcases hc with hc | hc | hc <;> subst hc
    · exact Or.inl (by simp [JsError.taxonomyCode, GraphQLError.code, h, ErrorClass.code])
    · exact Or.inr (Or.inl (by simp [JsError.taxonomyCode, GraphQLError.code, h, ErrorClass.code]))
    · exact Or.inr (Or.inr (Or.inl
        (by simp [JsError.taxonomyCode, GraphQLError.code, h, ErrorClass.code])))

theorem JsError.isTyped_rethrow (e : JsError) (message : String) :
    (if (e.instanceOf .ParamsNotValidError || e.instanceOf .ResourceNotFoundError) = true
      then e else mkError .ServerError message).IsTyped := by
  split
  · rename_i h
    simp only [Bool.or_eq_true] at h
    rcases h with h | h
    · exact JsError.isTyped_of_instanceOf e _ (Or.inl rfl) h
    · exact JsError.isTyped_of_instanceOf e _ (Or.inr (Or.inr rfl)) h
  · exact JsError.isTyped_server message

theorem failsTyped_tryCatch {α : Type} (body : Except JsError α) (handler : JsError → JsError)
    (h : ∀ e, (handler e).IsTyped) : FailsTyped (tryCatch body handler) := by
  intro e he
  cases body with
  | ok r => simp [tryCatch] at he
  | error err =>
    simp only [tryCatch, Except.error.injEq] at he
    exact he ▸ h err

theorem failsTyped_tryCatchWrite {α : Type} (s : Store) (body : Except JsError (α × Store))
    (handler : JsError → JsError) (h : ∀ e, (handler e).IsTyped) :
    FailsTyped (tryCatchWrite s body handler).1 := by
  intro e he
  cases body with
  | ok r => simp [tryCatchWrite] at he
  | error err =>
    simp only [tryCatchWrite, Except.error.injEq] at he
    exact he ▸ h err

theorem Mongo.savePost_fault (s s' : Store) (doc : Option Post) (p : Post)
    (h : Mongo.savePost s doc = .ok (p, s')) : s'.fault = s.fault := by
  cases doc with
  | none => simp [Mongo.savePost] at h
  | some d =>
    simp only [Mongo.savePost] at h
    split at h
    · simp at h
    · simp only [Mongo.reach, bind, Except.bind, pure, Except.pure] at h
      split at h
      · simp at h
      · split at h
        · simp [throw, throwThe, MonadExceptOf.throw] at h
        · simp only [Except.ok.injEq, Prod.mk.injEq] at h
          rw [← h.2]

theorem Mongo.saveComment_fault (s s' : Store) (doc : Option Comment) (c : Comment)
    (h : Mongo.saveComment s doc = .ok (c, s')) : s'.fault = s.fault := by
  cases doc with
  | none => simp [Mongo.saveComment] at h
  | some d =>
    simp only [Mongo.saveComment] at h
    split at h
    · simp at h
    · simp only [Mongo.reach, bind, Except.bind, pure, Except.pure] at h
      split at h
      · simp at h
      · split at h
        · simp [throw, throwThe, MonadExceptOf.throw] at h
        · simp only [Except.ok.injEq, Prod.mk.injEq] at h
          rw [← h.2]

theorem Resolvers.Mutation.createPostTry_fault (env : Env) (s s' : Store) (input : PostInput)
    (oid : String) (now : Int) (p : Post)
    (h : Resolvers.Mutation.createPostTry env s input oid now = .ok (.inr (p, s'))) :
    s'.fault = s.fault := by
  simp only [Resolvers.Mutation.createPostTry, bind, Except.bind, pure, Except.pure] at h
  repeat' split at h
  all_goals try (simp [throw, throwThe, MonadExceptOf.throw] at h; done)
  all_goals
    rename_i _ v hsave
    simp only [Except.ok.injEq, Sum.inr.injEq] at h
    subst h
    exact Mongo.savePost_fault _ _ _ _ hsave

theorem Resolvers.Mutation.createCommentTry_fault (env : Env) (s s' : Store)
    (input : CommentInput) (oid : String) (now : Int) (c : Comment)
    (h : Resolvers.Mutation.createCommentTry env s input oid now = .ok (c, s')) :
    s'.fault = s.fault := by
  simp only [Resolvers.Mutation.createCommentTry, bind, Except.bind, pure, Except.pure] at h
  repeat' split at h
  all_goals first
    | exact Mongo.saveComment_fault _ _ _ _ h
    | simp [throw, throwThe, MonadExceptOf.throw] at h

theorem Resolvers.Mutation.createPost_failsTyped (env : Env) (s : Store) (input : PostInput)
    (oid : String) (now : Int) (hp : s.fault .populate = none) :
    FailsTyped (Resolvers.Mutation.createPost env s input oid now).1 := by
  intro e he
  simp only [Resolvers.Mutation.createPost] at he
  split at he
  · simp only [Except.error.injEq] at he
    exact he ▸ JsError.isTyped_server _
  · simp at he
  · rename_i newPost s' htry
    have hf := Resolvers.Mutation.createPostTry_fault env s s' input oid now newPost htry
    simp [Mongo.populatePostDoc, Mongo.reach, hf, hp, bind, Except.bind, pure, Except.pure,
      Except.map] at he

theorem Resolvers.Mutation.createComment_failsTyped (env : Env) (s : Store)
    (input : CommentInput) (oid : String) (now : Int) (hp : s.fault .populate = none) :
    FailsTyped (Resolvers.Mutation.createComment env s input oid now).1 := by
  intro e he
  simp only [Resolvers.Mutation.createComment] at he
  split at he
  · rename_i error _
    simp only [Except.error.injEq] at he
    subst he
    split
    · rename_i h
      simp only [Bool.or_eq_true] at h
      rcases h with (h | h) | h
      · exact JsError.isTyped_of_instanceOf _ _ (Or.inr (Or.inl rfl)) h
      · exact JsError.isTyped_of_instanceOf _ _ (Or.inl rfl) h
      · exact JsError.isTyped_of_instanceOf _ _ (Or.inr (Or.inr rfl)) h
    · exact JsError.isTyped_server _
  · rename_i newComment s' htry
    have hf := Resolvers.Mutation.createCommentTry_fault env s s' input oid now newComment htry
    simp [Mongo.populateCommentDoc, Mongo.reach, hf, hp, bind, Except.bind, pure,
      Except.pure] at he

theorem Resolvers.Mutation.createUser_handler_typed (ctx : Context) (error : JsError) :
    (if error.instanceOf .BodyNotValidError = true then error
      else if (error.name == "ValidationError") = true then
        mkError .BodyNotValidError
          (i18nextT "validationError" ctx.language [("error", error.message)])
      else if error.codeIs11000 = true then
        mkError .BodyNotValidError (i18nextT "emailExists" ctx.language [])
      else mkError .ServerError (i18nextT "failedToCreateUser" ctx.language [])).IsTyped := by
  split
  · rename_i h
    exact JsError.isTyped_of_instanceOf _ _ (Or.inr (Or.inl rfl)) h
  · split
    · exact Or.inr (Or.inl rfl)
    · split
      · exact Or.inr (Or.inl rfl)
      · exact JsError.isTyped_server _

theorem Resolvers2.Mutation.createUser_handler_typed2 (error : JsError) :
    (if (error.name == "ValidationError") = true then
        mkError .BodyNotValidError ("Validation error: " ++ error.message)
      else if error.codeIs11000 = true then mkError .BodyNotValidError "Email already exists"
      else mkError .ServerError "Failed to create user").IsTyped := by
  split
  · exact Or.inr (Or.inl rfl)
  · split
    · exact Or.inr (Or.inl rfl)
    · exact JsError.isTyped_server _

/-- C8, as stated, fails: `login` with an email no user has fails with a
plain `Error`, which carries none of the five taxonomy codes. -/
theorem login_failure_is_untyped :
    Resolvers.Mutation.login Example.env Example.emptyStore "nobody@example.org"
      = .error (.other "Error" "Login failed: No user found with this email" none) ∧
    failureCode (Resolvers.Mutation.login Example.env Example.emptyStore "nobody@example.org")
      = none := by
  constructor <;> decide

/-- C8 (amended): for every resolver of both versions other than `login`,
every input and every behaviour of the store, a failure of the resolver
carries one of the codes `PARAMS_NOT_VALID`, `BODY_NOT_VALID`,
`RESOURCE_NOT_FOUND`, `SERVER_ERROR` (for `createPost` and `createComment`:
when the `populate` they return without `await` is not rejected); a failure
of `login` is a plain `Error` whose message starts with `Login failed: `.
The resolvers of `resolvers2.js` not listed have the text, and the
definition, of their v1 namesake. -/
theorem failures_typed_except_login (env : Env) (s : Store) (ctx : Context) :
    (∀ args, FailsTyped (Resolvers.Query.users env s args ctx)) ∧
    (∀ id, FailsTyped (Resolvers.Query.user env s id ctx)) ∧
    (∀ args, FailsTyped (Resolvers.Query.posts env s args ctx)) ∧
    (∀ query page limit, FailsTyped (Resolvers.Query.searchUsers env s query page limit)) ∧
    (∀ id, FailsTyped (Resolvers.Query.post env s id ctx)) ∧
    (∀ query page limit, FailsTyped (Resolvers.Query.searchPosts env s query page limit)) ∧
    (∀ postId args, FailsTyped (Resolvers.Query.commentsByPost env s postId args)) ∧
    (∀ userId args, FailsTyped (Resolvers.Query.commentsByUser env s userId args)) ∧
    (∀ userId page limit sort,
      FailsTyped (Resolvers.Query.postsByUser env s userId page limit sort)) ∧
    (∀ tag page limit sort, FailsTyped (Resolvers.Query.postsByTag env s tag page limit sort)) ∧
    FailsTyped (Resolvers.Query.tags env s) ∧
    (∀ input oid now, FailsTyped (Resolvers.Mutation.createUser env s input ctx oid now).1) ∧
    (∀ id input, FailsTyped (Resolvers.Mutation.updateUser env s id input).1) ∧
    (∀ id, FailsTyped (Resolvers.Mutation.deleteUser s id).1) ∧
    (∀ input oid now, s.fault .populate = none →
      FailsTyped (Resolvers.Mutation.createPost env s input oid now).1) ∧
    (∀ id input, FailsTyped (Resolvers.Mutation.updatePost env s id input ctx).1) ∧
    (∀ input oid now, s.fault .populate = none →
      FailsTyped (Resolvers.Mutation.createComment env s input oid now).1) ∧
    (∀ id, FailsTyped (Resolvers.Mutation.deleteComment s id).1) ∧
    (∀ owner, FailsTyped (Resolvers.Post.owner s owner ctx)) ∧
    (∀ owner, FailsTyped (Resolvers.Comment.owner s owner ctx)) ∧
    (∀ post, FailsTyped (Resolvers.Comment.post s post ctx)) ∧
    (∀ args, FailsTyped (Resolvers2.Query.users env s args)) ∧
    (∀ id, FailsTyped (Resolvers2.Query.user s id)) ∧
    (∀ args, FailsTyped (Resolvers2.Query.posts env s args)) ∧
    (∀ id, FailsTyped (Resolvers2.Query.post s id)) ∧
    (∀ input oid now, FailsTyped (Resolvers2.Mutation.createUser env s input oid now).1) ∧
    (∀ owner, FailsTyped (Resolvers2.Post.owner s owner)) ∧
    (∀ owner, FailsTyped (Resolvers2.Comment.owner s owner)) ∧
    (∀ post, FailsTyped (Resolvers2.Comment.post s post)) ∧
    (∀ email e, Resolvers.Mutation.login env s email = .error e →
      ∃ message, e = .other "Error" ("Login failed: " ++ message) none) := by
  refine ⟨?_, ?_, ?_, ?_, ?_, ?_, ?_, ?_, ?_, ?_, ?_, ?_, ?_, ?_, ?_, ?_, ?_, ?_, ?_, ?_, ?_,
    ?_, ?_, ?_, ?_, ?_, ?_, ?_, ?_, ?_⟩
  · exact fun _ => failsTyped_tryCatch _ _ (fun _ => JsError.isTyped_server _)
  · exact fun _ => failsTyped_tryCatch _ _ (fun e => JsError.isTyped_rethrow e _)
  · exact fun _ => failsTyped_tryCatch _ _ (fun _ => JsError.isTyped_server _)
  · exact fun _ _ _ => failsTyped_tryCatch _ _ (fun _ => JsError.isTyped_server _)
  · exact fun _ => failsTyped_tryCatch _ _ (fun e => JsError.isTyped_rethrow e _)
  · exact fun _ _ _ => failsTyped_tryCatch _ _ (fun _ => JsError.isTyped_server _)
  · exact fun _ _ => failsTyped_tryCatch _ _ (fun _ => JsError.isTyped_server _)
  · exact fun _ _ => failsTyped_tryCatch _ _ (fun _ => JsError.isTyped_server _)
  · exact fun _ _ _ _ => failsTyped_tryCatch _ _ (fun _ => JsError.isTyped_server _)
  · exact fun _ _ _ _ => failsTyped_tryCatch _ _ (fun _ => JsError.isTyped_server _)
  · exact failsTyped_tryCatch _ _ (fun _ => JsError.isTyped_server _)
  · exact fun _ _ _ => failsTyped_tryCatchWrite _ _ _
      (fun e => Resolvers.Mutation.createUser_handler_typed ctx e)
  · exact fun _ _ => failsTyped_tryCatchWrite _ _ _ (fun e => JsError.isTyped_rethrow e _)
  · exact fun _ => failsTyped_tryCatchWrite _ _ _ (fun e => JsError.isTyped_rethrow e _)
  · exact fun input oid now hp => Resolvers.Mutation.createPost_failsTyped env s input oid now hp
  · exact fun _ _ => failsTyped_tryCatchWrite _ _ _ (fun e => JsError.isTyped_rethrow e _)
  · exact fun input oid now hp =>
      Resolvers.Mutation.createComment_failsTyped env s input oid now hp
  · exact fun _ => failsTyped_tryCatchWrite _ _ _ (fun e => JsError.isTyped_rethrow e _)
  · exact fun _ => failsTyped_tryCatch _ _ (fun _ => JsError.isTyped_server _)
  · exact fun _ => failsTyped_tryCatch _ _ (fun _ => JsError.isTyped_server _)
  · exact fun _ => failsTyped_tryCatch _ _ (fun _ => JsError.isTyped_server _)
  · exact fun _ => failsTyped_tryCatch _ _ (fun _ => JsError.isTyped_server _)
  · exact fun _ => failsTyped_tryCatch _ _ (fun e => JsError.isTyped_rethrow e _)
  · exact fun _ => failsTyped_tryCatch _ _ (fun _ => JsError.isTyped_server _)
  · exact fun _ => failsTyped_tryCatch _ _ (fun e => JsError.isTyped_rethrow e _)
  · exact fun _ _ _ => failsTyped_tryCatchWrite _ _ _
      (fun e => Resolvers2.Mutation.createUser_handler_typed2 e)
  · exact fun _ => failsTyped_tryCatch _ _ (fun _ => JsError.isTyped_server _)
  · exact fun _ => failsTyped_tryCatch _ _ (fun _ => JsError.isTyped_server _)
  · exact fun _ => failsTyped_tryCatch _ _ (fun _ => JsError.isTyped_server _)
  · intro email e he
    simp only [Resolvers.Mutation.login, tryCatch] at he
    split at he
    · simp at he
    · rename_i error _
      simp only [Except.error.injEq] at he
      exact ⟨error.message, he.symm⟩

/-- Witness of C8 (amended): `createPost` on a reachable store. -/
theorem failures_typed_except_login_witness :
    FailsTyped (Resolvers.Mutation.createPost Example.env Example.store
      { idempotencyKey := none, text := none, image := none, likes := none, link := none,
        tags := none, owner := none } "0123456789abcdef0123456b" 3000).1 :=
  (failures_typed_except_login Example.env Example.store Example.ctx).2.2.2.2.2.2.2.2.2.2.2.2.2.2.1
    _ _ _ rfl

/-! ## C10: idempotent creation of a user -/

theorem compile_idempotencyKey (env : Env) (k : String) :
    Mongo.compile env UserModel [.path "idempotencyKey" (.eq k)]
      = .ok (fun d => (optStr d.idempotencyKey == .str k) && true) := by
  rfl

theorem optStr_beq (o : Option String) (k : String) :
    (optStr o == Mongo.FieldVal.str k) = (o == some k) := by
  cases o with
  | none => rfl
  | some x =>
    by_cases h : x = k
    · subst h; simp [optStr]
    · have h1 : (optStr (some x) == Mongo.FieldVal.str k) = false := by
        simp [optStr, h]
      have h2 : (some x == some k) = false := by simp [h]
      rw [h1, h2]

theorem Mongo.findOne_idempotencyKey (env : Env) (s : Store) (k : String)
    (hr : s.fault .findOne = none) :
    Mongo.findOne env UserModel s [.path "idempotencyKey" (.eq k)]
      = .ok (s.users.find? (fun u => u.idempotencyKey == some k)) := by
  simp only [Mongo.findOne, compile_idempotencyKey, Mongo.reach, hr, bind, Except.bind, pure,
    Except.pure, UserModel_docs]
  congr 2
  funext d
  simp [optStr_beq]

theorem Mongo.newUser_fields (env : Env) (oid : String) (now : Int) (userData : UserInput)
    (key : Option String) (u : User) (h : Mongo.newUser env oid now userData key = some u) :
    u._id = oid ∧ u.email = userData.email.getD "" ∧ u.idempotencyKey = key := by
  simp only [Mongo.newUser] at h
  split at h
  · simp at h
  · simp only [Option.some.injEq] at h
    subst h
    exact ⟨rfl, rfl, rfl⟩

theorem Mongo.saveUser_fresh (s : Store) (u : User) (hv : u.validate = true)
    (hsave : s.fault .save = none)
    (hfree : ∀ o ∈ s.users,
      o._id ≠ u._id ∧ o.email ≠ u.email ∧ o.idempotencyKey ≠ u.idempotencyKey) :
    Mongo.saveUser s (some u) = .ok (u, { s with users := s.users ++ [u] }) := by
  have hc : Mongo.userConflict s.users u = false := by
    simp only [Mongo.userConflict, List.any_eq_false]
    intro o ho
    obtain ⟨h1, h2, h3⟩ := hfree o ho
    simp [h1, h2, h3]
  simp [Mongo.saveUser, hv, Mongo.reach, hsave, hc, bind, Except.bind, pure, Except.pure]

theorem find?_key_absent (users : List User) (k : String)
    (hkey : ∀ u ∈ users, u.idempotencyKey ≠ some k) :
    users.find? (fun u => u.idempotencyKey == some k) = none := by
  simp only [List.find?_eq_none]
  intro u hu
  simp [hkey u hu]

theorem find?_key_appended (users : List User) (k : String) (u : User)
    (hkey : ∀ o ∈ users, o.idempotencyKey ≠ some k) (hu : u.idempotencyKey = some k) :
    (users ++ [u]).find? (fun o => o.idempotencyKey == some k) = some u := by
  simp [List.find?_append, find?_key_absent users k hkey, hu]

theorem filter_key_appended (users : List User) (k : String) (u : User)
    (hkey : ∀ o ∈ users, o.idempotencyKey ≠ some k) (hu : u.idempotencyKey = some k) :
    ((users ++ [u]).filter (fun o => o.idempotencyKey == some k)).length = 1 := by
  have h0 : users.filter (fun o => o.idempotencyKey == some k) = [] := by
    simp only [List.filter_eq_nil_iff]
    intro o ho
    simp [hkey o ho]
  simp [List.filter_append, h0, hu]

theorem truthy_some_ne_empty (k : String) (h : k ≠ "") : truthy (some k) = true := by
  simp [truthy, h]

theorem Resolvers.Mutation.createUser_new (env : Env) (s : Store) (ctx : Context)
    (input : UserInput) (k : String) (oid : String) (now : Int) (u : User)
    (hk : input.idempotencyKey = some k) (hne : k ≠ "")
    (h1 : truthy input.firstName = true) (h2 : truthy input.lastName = true)
    (h3 : truthy input.email = true) (hmail : isValidEmail (input.email.getD "") = true)
    (hnew : Mongo.newUser env oid now input input.idempotencyKey = some u)
    (hv : u.validate = true)
    (hkey : ∀ o ∈ s.users, o.idempotencyKey ≠ some k)
    (hemail : ∀ o ∈ s.users, o.email ≠ input.email.getD "")
    (hid : ∀ o ∈ s.users, o._id ≠ oid)
    (hfind : s.fault .findOne = none) (hsave : s.fault .save = none) :
    Resolvers.Mutation.createUser env s input ctx oid now
      = (.ok u, { s with users := s.users ++ [u] }) := by
  obtain ⟨f1, f2, f3⟩ := Mongo.newUser_fields env oid now input _ u hnew
  have hsaved := Mongo.saveUser_fresh s u hv hsave (fun o ho =>
    ⟨by rw [f1]; exact hid o ho, by rw [f2]; exact hemail o ho,
     by rw [f3, hk]; exact hkey o ho⟩)
  rw [hk] at hnew
  simp [Resolvers.Mutation.createUser, tryCatchWrite, h1, h2, h3, hmail, hk,
    truthy_some_ne_empty k hne, Mongo.findOne_idempotencyKey env s k hfind,
    find?_key_absent s.users k hkey, hnew, hsaved, bind, Except.bind, pure, Except.pure]

theorem Resolvers.Mutation.createUser_again (env : Env) (s : Store) (ctx : Context)
    (input : UserInput) (k : String) (oid : String) (now : Int) (u : User)
    (hk : input.idempotencyKey = some k) (hne : k ≠ "")
    (h1 : truthy input.firstName = true) (h2 : truthy input.lastName = true)
    (h3 : truthy input.email = true) (hmail : isValidEmail (input.email.getD "") = true)
    (hfound : s.users.find? (fun o => o.idempotencyKey == some k) = some u)
    (hfind : s.fault .findOne = none) :
    Resolvers.Mutation.createUser env s input ctx oid now = (.ok u, s) := by
  simp [Resolvers.Mutation.createUser, tryCatchWrite, h1, h2, h3, hmail, hk,
    truthy_some_ne_empty k hne, Mongo.findOne_idempotencyKey env s k hfind, hfound, bind,
    Except.bind, pure, Except.pure]

theorem Resolvers2.Mutation.createUser2_new (env : Env) (s : Store)
    (input : UserInput) (k : String) (oid : String) (now : Int) (u : User)
    (hk : input.idempotencyKey = some k) (hne : k ≠ "")
    (h1 : truthy input.firstName = true) (h2 : truthy input.lastName = true)
    (h3 : truthy input.email = true)
    (hnew : Mongo.newUser env oid now input input.idempotencyKey = some u)
    (hv : u.validate = true)
    (hkey : ∀ o ∈ s.users, o.idempotencyKey ≠ some k)
    (hemail : ∀ o ∈ s.users, o.email ≠ input.email.getD "")
    (hid : ∀ o ∈ s.users, o._id ≠ oid)
    (hfind : s.fault .findOne = none) (hsave : s.fault .save = none) :
    Resolvers2.Mutation.createUser env s input oid now
      = (.ok u, { s with users := s.users ++ [u] }) := by
  obtain ⟨f1, f2, f3⟩ := Mongo.newUser_fields env oid now input _ u hnew
  have hsaved := Mongo.saveUser_fresh s u hv hsave (fun o ho =>
    ⟨by rw [f1]; exact hid o ho, by rw [f2]; exact hemail o ho,
     by rw [f3, hk]; exact hkey o ho⟩)
  rw [hk] at hnew
  simp [Resolvers2.Mutation.createUser, tryCatchWrite, h1, h2, h3, hk,
    truthy_some_ne_empty k hne, Mongo.findOne_idempotencyKey env s k hfind,
    find?_key_absent s.users k hkey, hnew, hsaved, bind, Except.bind, pure, Except.pure]

theorem Resolvers2.Mutation.createUser2_again (env : Env) (s : Store)
    (input : UserInput) (k : String) (oid : String) (now : Int) (u : User)
    (hk : input.idempotencyKey = some k) (hne : k ≠ "")
    (h1 : truthy input.firstName = true) (h2 : truthy input.lastName = true)
    (h3 : truthy input.email = true)
    (hfound : s.users.find? (fun o => o.idempotencyKey == some k) = some u)
    (hfind : s.fault .findOne = none) :
    Resolvers2.Mutation.createUser env s input oid now = (.ok u, s) := by
  simp [Resolvers2.Mutation.createUser, tryCatchWrite, h1, h2, h3, hk,
    truthy_some_ne_empty k hne, Mongo.findOne_idempotencyKey env s k hfind, hfound, bind,
    Except.bind, pure, Except.pure]

/-- C10, as stated, fails for the empty idempotency key: `createUser` treats
`""` as no key, so the second call with the same payload does not find the
first record and is rejected by the unique index on `email`. -/
theorem createUser_empty_key_twice :
    (Resolvers.Mutation.createUser Example.env Example.emptyStore
        (Example.carol (some "")) Example.ctx "0123456789abcdef01234569" 3000).1.toBool
      = true ∧
    (Resolvers.Mutation.createUser Example.env
        (Resolvers.Mutation.createUser Example.env Example.emptyStore
          (Example.carol (some "")) Example.ctx "0123456789abcdef01234569" 3000).2
        (Example.carol (some "")) Example.ctx "0123456789abcdef0123456b" 4000).1
      = .error (mkError .BodyNotValidError "Email already exists") := by
  constructor <;> decide

/-- C10 (amended): for every store with no record holding key `k`, none
holding the email of the payload and none holding the freshly generated id,
and every payload the store accepts that carries a non-empty idempotency key
`k` (for v1 also a well-formed email): calling `createUser` twice in sequence
with that payload returns the same entity both times, the second call leaves
the store unchanged, and afterwards exactly one stored record has
idempotency key `k`.  This holds for both resolver versions. -/
theorem createUser_idempotent (env : Env) (s : Store) (ctx : Context) (input : UserInput)
    (k : String) (oid₁ : String) (now₁ : Int) (oid₂ : String) (now₂ : Int)
    (hk : input.idempotencyKey = some k) (hne : k ≠ "")
    (hvalid : input.Storable env)
    (hkey : ∀ u ∈ s.users, u.idempotencyKey ≠ some k)
    (hemail : ∀ u ∈ s.users, u.email ≠ input.email.getD "")
    (hid : ∀ u ∈ s.users, u._id ≠ oid₁)
    (hfind : s.fault .findOne = none) (hsave : s.fault .save = none) :
    (isValidEmail (input.email.getD "") = true →
      IdempotentTwice
        (fun s oid now => Resolvers.Mutation.createUser env s input ctx oid now)
        s k oid₁ now₁ oid₂ now₂) ∧
    IdempotentTwice
      (fun s oid now => Resolvers2.Mutation.createUser env s input oid now)
      s k oid₁ now₁ oid₂ now₂ := by
  obtain ⟨h1, h2, h3, hdoc⟩ := hvalid
  obtain ⟨u, hnew, hv⟩ := hdoc oid₁ now₁
  obtain ⟨f1, _, f3⟩ := Mongo.newUser_fields env oid₁ now₁ input _ u hnew
  have hu : u.idempotencyKey = some k := by rw [f3, hk]
  have hfound := find?_key_appended s.users k u hkey hu
  have hcount := filter_key_appended s.users k u hkey hu
  constructor
  · intro hmail
    have e1 := Resolvers.Mutation.createUser_new env s ctx input k oid₁ now₁ u hk hne h1 h2 h3
      hmail hnew hv hkey hemail hid hfind hsave
    have e2 := Resolvers.Mutation.createUser_again env { s with users := s.users ++ [u] } ctx
      input k oid₂ now₂ u hk hne h1 h2 h3 hmail hfound hfind
    refine ⟨u, ?_, f1, ?_, ?_⟩
    · simp only [e1]
    · simp only [e1, e2]
    · simp only [e1, hcount]
  · have e1 := Resolvers2.Mutation.createUser2_new env s input k oid₁ now₁ u hk hne h1 h2 h3
      hnew hv hkey hemail hid hfind hsave
    have e2 := Resolvers2.Mutation.createUser2_again env { s with users := s.users ++ [u] }
      input k oid₂ now₂ u hk hne h1 h2 h3 hfound hfind
    refine ⟨u, ?_, f1, ?_, ?_⟩
    · simp only [e1]
    · simp only [e1, e2]
    · simp only [e1, hcount]

/-- Witness of C10 (amended): the payload `carol` with key `"k1"` on the
store of two users. -/
theorem createUser_idempotent_witness :
    IdempotentTwice
      (fun s oid now => Resolvers.Mutation.createUser Example.env s
        (Example.carol (some "k1")) Example.ctx oid now)
      Example.store "k1" "0123456789abcdef01234569" 3000 "0123456789abcdef0123456b" 4000 :=
  (createUser_idempotent Example.env Example.store Example.ctx (Example.carol (some "k1")) "k1"
    "0123456789abcdef01234569" 3000 "0123456789abcdef0123456b" 4000 rfl (by decide)
    ⟨rfl, rfl, rfl, fun _ _ => ⟨_, rfl, rfl⟩⟩ (by decide) (by decide) (by decide) rfl rfl).1
    (by decide)

/-! ## C11: a duplicate email -/

theorem Mongo.saveUser_conflict (s : Store) (u : User) (hv : u.validate = true)
    (hsave : s.fault .save = none) (hc : Mongo.userConflict s.users u = true) :
    Mongo.saveUser s (some u) = .error (Mongo.duplicateKeyError "users") := by
  simp [Mongo.saveUser, hv, Mongo.reach, hsave, hc, bind, Except.bind, throw, throwThe,
    MonadExceptOf.throw]

theorem Mongo.userConflict_of_email (stored : List User) (u : User)
    (h : ∃ o ∈ stored, o.email = u.email) : Mongo.userConflict stored u = true := by
  obtain ⟨o, ho, he⟩ := h
  simp only [Mongo.userConflict, List.any_eq_true]
  exact ⟨o, ho, by simp [he]⟩

/-- C11: for every payload the store accepts, without idempotency key, whose
email is the email of a stored user (the insert is rejected with the
duplicate-key code 11000), on a store that can be reached: `createUser`
fails with `BodyNotValidError` (code `BODY_NOT_VALID`) and the
`emailExists` message, not with `ServerError`, and the store is unchanged.
v1 (which also requires a well-formed email) takes the message from the
translation table, v2 has the English text. -/
theorem createUser_duplicate_email (env : Env) (s : Store) (ctx : Context) (input : UserInput)
    (oid : String) (now : Int)
    (hkey : truthy input.idempotencyKey = false) (hvalid : input.Storable env)
    (hdup : ∃ u ∈ s.users, u.email = input.email.getD "")
    (hsave : s.fault .save = none) :
    (isValidEmail (input.email.getD "") = true →
      Resolvers.Mutation.createUser env s input ctx oid now
        = (.error (mkError .BodyNotValidError (i18nextT "emailExists" ctx.language [])), s)) ∧
    Resolvers2.Mutation.createUser env s input oid now
      = (.error (mkError .BodyNotValidError "Email already exists"), s) ∧
    (mkError .BodyNotValidError "Email already exists").taxonomyCode = some "BODY_NOT_VALID" ∧
    i18nextT "emailExists" "en" [] = "Email already exists" ∧
    i18nextT "emailExists" "fr" [] = "Ce courriel existe déjà" := by
  obtain ⟨h1, h2, h3, hdoc⟩ := hvalid
  obtain ⟨u, hnew, hv⟩ := hdoc oid now
  obtain ⟨_, f2, _⟩ := Mongo.newUser_fields env oid now input _ u hnew
  have hsaved := Mongo.saveUser_conflict s u hv hsave
    (Mongo.userConflict_of_email s.users u (by rw [f2]; exact hdup))
  refine ⟨?_, ?_, rfl, by decide, by decide⟩
  · intro hmail
    simp [Resolvers.Mutation.createUser, tryCatchWrite, h1, h2, h3, hmail, hkey, hnew, hsaved,
      bind, Except.bind, pure, Except.pure, Mongo.duplicateKeyError, JsError.instanceOf,
      JsError.name, JsError.codeIs11000]
  · simp [Resolvers2.Mutation.createUser, tryCatchWrite, h1, h2, h3, hkey, hnew, hsaved,
      bind, Except.bind, pure, Except.pure, Mongo.duplicateKeyError,
      JsError.name, JsError.codeIs11000]

/-- Witness of C11: a second payload with the email of the stored user `ann`. -/
theorem createUser_duplicate_email_witness :
    Resolvers2.Mutation.createUser Example.env Example.store
        { Example.carol none with email := some "ann@example.org" }
        "0123456789abcdef01234569" 3000
      = (.error (mkError .BodyNotValidError "Email already exists"), Example.store) :=
  (createUser_duplicate_email Example.env Example.store Example.ctx
    { Example.carol none with email := some "ann@example.org" }
    "0123456789abcdef01234569" 3000 rfl
    ⟨rfl, rfl, rfl, fun _ _ => ⟨_, rfl, rfl⟩⟩ ⟨Example.ann, by decide, rfl⟩ rfl).2.1

/-! ## C12: a comment on a missing post or by a missing user -/

theorem truthy_of_isValid (o : Option String) (h : ObjectId.isValid (o.getD "") = true) :
    truthy o = true := by
  cases o with
  | none => exact absurd h (by decide)
  | some x =>
    by_cases hx : x = ""
    · subst hx; exact absurd h (by decide)
    · simp [truthy, hx]

theorem Mongo.findById_post (s : Store) (id : String) (hv : ObjectId.isValid id = true)
    (hr : s.fault .findById = none) :
    Mongo.findById PostModel s id = .ok (s.posts.find? (fun d => d._id == id.toLower)) := by
  have hf : ∀ d : Post, PostModel.field d "_id" = .oid d._id := fun _ => rfl
  simp only [Mongo.findById, ObjectId.cast, hv, if_true, Mongo.reach, hr, bind, Except.bind,
    pure, Except.pure, PostModel_docs, hf]
  congr 2
  funext d
  by_cases h : d._id = id.toLower <;> simp [h]

theorem Mongo.findById_user (s : Store) (id : String) (hv : ObjectId.isValid id = true)
    (hr : s.fault .findById = none) :
    Mongo.findById UserModel s id = .ok (s.users.find? (fun d => d._id == id.toLower)) := by
  have hf : ∀ d : User, UserModel.field d "_id" = .oid d._id := fun _ => rfl
  simp only [Mongo.findById, ObjectId.cast, hv, if_true, Mongo.reach, hr, bind, Except.bind,
    pure, Except.pure, UserModel_docs, hf]
  congr 2
  funext d
  by_cases h : d._id = id.toLower <;> simp [h]

/-- C12: for every `createComment` input with a non-empty message and
well-formed owner and post ids, on a store that can be reached: if no stored
post has the post id the call fails with
`ResourceNotFoundError("Post not found")`; if such a post exists but no
stored user has the owner id it fails with
`ResourceNotFoundError("User not found")`; in both cases the store is
unchanged. -/
theorem createComment_missing_reference (env : Env) (s : Store) (input : CommentInput)
    (oid : String) (now : Int)
    (hm : truthy input.message = true)
    (ho : ObjectId.isValid (input.owner.getD "") = true)
    (hp : ObjectId.isValid (input.post.getD "") = true)
    (hr : s.fault .findById = none) :
    ((∀ p ∈ s.posts, p._id ≠ (input.post.getD "").toLower) →
      Resolvers.Mutation.createComment env s input oid now
        = (.error (mkError .ResourceNotFoundError "Post not found"), s)) ∧
    ((∃ p ∈ s.posts, p._id = (input.post.getD "").toLower) →
      (∀ u ∈ s.users, u._id ≠ (input.owner.getD "").toLower) →
      Resolvers.Mutation.createComment env s input oid now
        = (.error (mkError .ResourceNotFoundError "User not found"), s)) ∧
    (mkError .ResourceNotFoundError "Post not found").taxonomyCode
      = some "RESOURCE_NOT_FOUND" := by
  have hto := truthy_of_isValid _ ho
  have htp := truthy_of_isValid _ hp
  refine ⟨?_, ?_, rfl⟩
  · intro hnone
    have hfind : s.posts.find? (fun d => d._id == (input.post.getD "").toLower) = none := by
      simp only [List.find?_eq_none]
      intro p hp'
      simp [hnone p hp']
    simp [Resolvers.Mutation.createComment, Resolvers.Mutation.createCommentTry, hm, hto, htp,
      ho, hp, Mongo.findById_post s _ hp hr, hfind, bind, Except.bind, pure, Except.pure,
      mkError, GraphQLError.new, JsError.instanceOf, throw, throwThe, MonadExceptOf.throw]
  · intro hsome hnone
    obtain ⟨p, hpmem, hpid⟩ := hsome
    have hfindp : (s.posts.find? (fun d => d._id == (input.post.getD "").toLower)).isNone
        = false := by
      cases hq : s.posts.find? (fun d => d._id == (input.post.getD "").toLower) with
      | some q => rfl
      | none =>
        simp only [List.find?_eq_none] at hq
        exact absurd (hq p hpmem) (by simp [hpid])
    have hfindu : s.users.find? (fun d => d._id == (input.owner.getD "").toLower) = none := by
      simp only [List.find?_eq_none]
      intro u hu
      simp [hnone u hu]
    simp [Resolvers.Mutation.createComment, Resolvers.Mutation.createCommentTry, hm, hto, htp,
      ho, hp, Mongo.findById_post s _ hp hr, Mongo.findById_user s _ ho hr, hfindp, hfindu,
      bind, Except.bind, pure, Except.pure, mkError, GraphQLError.new, JsError.instanceOf,
      throw, throwThe, MonadExceptOf.throw]

/-- Witness of C12: a comment by the stored user `ann` on a post that is not
stored. -/
theorem createComment_missing_reference_witness :
    Resolvers.Mutation.createComment Example.env Example.store
        { message := some "Nice", owner := some "0123456789abcdef01234567",
          post := some "0123456789abcdef0123456f", publishDate := none }
        "0123456789abcdef0123456c" 3000
      = (.error (mkError .ResourceNotFoundError "Post not found"), Example.store) :=
  (createComment_missing_reference Example.env Example.store
    { message := some "Nice", owner := some "0123456789abcdef01234567",
      post := some "0123456789abcdef0123456f", publishDate := none }
    "0123456789abcdef0123456c" 3000 rfl (by decide) (by decide) rfl).1
    (by
      have hl : ("0123456789abcdef0123456f" : String).toLower = "0123456789abcdef0123456f" := by
        rw [String.toLower, String.map_eq]
        decide
      show ∀ p ∈ Example.store.posts, p._id ≠ ("0123456789abcdef0123456f" : String).toLower
      rw [hl]
      decide)

/-! ## C13 and C14: the projection of `users` by version -/

theorem Resolvers.Query.users_data (env : Env) (s : Store) (args : ListArgs UserFilterInput)
    (ctx : Context) (r : PageResult UserView)
    (h : Resolvers.Query.users env s args ctx = .ok r) :
    ∃ found : List User, r.data = found.map (fun user =>
      { id := user._id
        doc := user
        gender := i18nextTOpt user.gender ctx.language
        registerDate := formatDate env (some user.registerDate) ctx.language
        email := if ctx.apiVersion == "2.0" then none else some user.email }) := by
  simp only [Resolvers.Query.users, tryCatch, bind, Except.bind, pure, Except.pure] at h
  cases hcount : Mongo.countDocuments env UserModel s (usersQuery args.filter) with
  | error e => simp [hcount] at h
  | ok total =>
    cases hfind : Mongo.findSorted env UserModel s (usersQuery args.filter)
        (sortOr sortOptions (args.sort.getD "registerDate_desc") ⟨.registerDate, false⟩)
        ((args.page.getD 1 - 1) * args.limit.getD 10) (args.limit.getD 10) with
    | error e => simp [hcount, hfind] at h
    | ok found =>
      simp only [hcount, hfind, Except.ok.injEq] at h
      refine ⟨found, ?_⟩
      rw [← h]
      by_cases hv : ctx.apiVersion = "2.0" <;> simp [hv]

/-- C13: for every store and page request, every record in the data of a
`users` response of `resolvers.js` (the resolvers the server is built with)
has no email when the context has `apiVersion = "2.0"`, and has the email of
its stored user when `apiVersion` is `"1.0"`, which is what the middleware
sets when the version header is absent.  On a valid page request whose sort
key is no name inherited from `Object.prototype` the response exists and its
records are the stored users of the page; the `users` resolver of
`resolvers2.js` returns them read without `email`. -/
theorem users_email_by_version (env : Env) (s : Store) (args : ListArgs UserFilterInput)
    (ctx : Context) :
    (ctx.apiVersion = "2.0" → ∀ r, Resolvers.Query.users env s args ctx = .ok r →
      ∀ v ∈ r.data, v.email = none) ∧
    (ctx.apiVersion = "1.0" → ∀ r, Resolvers.Query.users env s args ctx = .ok r →
      ∀ v ∈ r.data, v.email = some v.doc.email) ∧
    (∀ headers : RequestHeaders, headers.xApiVersion = none →
      ∀ r, Resolvers.Query.users env s args (versionLanguageMiddleware headers) = .ok r →
      ∀ v ∈ r.data, v.email = some v.doc.email) ∧
    (∀ p, ValidPage env UserModel s (usersQuery args.filter) p (args.page.getD 1)
        (args.limit.getD 10) →
      ownSortKey args.sort = true →
      ∃ r, Resolvers.Query.users env s args ctx = .ok r ∧
        r.data.map (fun v => v.doc) = pageOf (Mongo.sort UserModel.sortKey
          (selectedSort sortOptions (args.sort.getD "registerDate_desc") ⟨.registerDate, false⟩)
          (s.users.filter p)) (args.page.getD 1) (args.limit.getD 10)) ∧
    (∀ p, ValidPage env UserModel s (usersQuery args.filter) p (args.page.getD 1)
        (args.limit.getD 10) →
      ownSortKey args.sort = true →
      ∃ r, Resolvers2.Query.users env s args = .ok r ∧
        r.data = (pageOf (Mongo.sort UserModel.sortKey
          (selectedSort sortOptions (args.sort.getD "registerDate_desc") ⟨.registerDate, false⟩)
          (s.users.filter p)) (args.page.getD 1) (args.limit.getD 10)).map
            selectSansEmail) := by
  refine ⟨?_, ?_, ?_, ?_, ?_⟩
  · intro hv r hr v hmem
    obtain ⟨found, hdata⟩ := Resolvers.Query.users_data env s args ctx r hr
    rw [hdata] at hmem
    obtain ⟨u, _, rfl⟩ := List.mem_map.mp hmem
    simp [hv]
  · intro hv r hr v hmem
    obtain ⟨found, hdata⟩ := Resolvers.Query.users_data env s args ctx r hr
    rw [hdata] at hmem
    obtain ⟨u, _, rfl⟩ := List.mem_map.mp hmem
    simp [hv]
  · intro headers hh r hr v hmem
    obtain ⟨found, hdata⟩ := Resolvers.Query.users_data env s args _ r hr
    rw [hdata] at hmem
    obtain ⟨u, _, rfl⟩ := List.mem_map.mp hmem
    simp [versionLanguageMiddleware, hh, truthy]
  · intro p h hsort
    refine ⟨_, Resolvers.Query.users_eq env s args ctx p h hsort, ?_⟩
    simp [Function.comp_def]
  · intro p h hsort
    exact ⟨_, Resolvers2.Query.users2_eq env s args p h hsort, rfl⟩

/-- Witness of C13: page 1 of the two stored users under `apiVersion = "2.0"`. -/
theorem users_email_by_version_witness :
    ∃ r, Resolvers.Query.users Example.env Example.store
        (Example.pageArgs UserFilterInput 1 10) { language := "en", apiVersion := "2.0" }
        = .ok r ∧
      r.data.length = 2 ∧ ∀ v ∈ r.data, v.email = none := by
  obtain ⟨r, hr, hdocs⟩ :=
    (users_email_by_version Example.env Example.store (Example.pageArgs UserFilterInput 1 10)
      { language := "en", apiVersion := "2.0" }).2.2.2.1 (fun _ => true)
      ⟨by decide, by decide, rfl, rfl, rfl⟩ (by decide)
  refine ⟨r, hr, ?_,
    (users_email_by_version Example.env Example.store (Example.pageArgs UserFilterInput 1 10)
      { language := "en", apiVersion := "2.0" }).1 rfl r hr⟩
  have hlen := congrArg List.length hdocs
  rw [List.length_map] at hlen
  rw [hlen]
  decide

/-- C14 fails on the code: the `users` resolver of `resolvers.js`, the one
the server is built with, under `apiVersion = "2.0"` and the locale `fr`
returns the translated gender (`homme`, `femme`) and the formatted
registration date, not the stored values (`male`, `female` and the instant),
which the `users` resolver of `resolvers2.js` returns. -/
theorem users_localized_under_version_2 :
    (Resolvers.Query.users Example.env Example.store (Example.pageArgs UserFilterInput 1 10)
        { language := "fr", apiVersion := "2.0" }).toOption.map
      (fun r => r.data.map (fun v => (v.doc.firstName, v.doc.gender, v.gender,
        v.doc.registerDate, v.registerDate)))
      = some [("Bob", some "male", "homme", 2000, some "DD/MM/YYYY 2000"),
              ("Ann", some "female", "femme", 1000, some "DD/MM/YYYY 1000")] := by
  decide

/-- C14, the two texts of `users` side by side: the resolver of
`resolvers2.js` returns, for every locale, the stored `gender` and
`registerDate` of each record, as the claim says of version `"2.0"`; the
resolver of `resolvers.js` returns, for every `apiVersion` (`"2.0"`
included, where it only removes `email`) and every locale, the formatted
registration date and, for a stored gender of the schema (`male`, `female`
or none), its translation. -/
theorem users_raw_only_in_resolvers2 (env : Env) (s : Store)
    (args : ListArgs UserFilterInput) (ctx : Context) :
    (∀ r, Resolvers.Query.users env s args ctx = .ok r → ∀ v ∈ r.data,
      v.registerDate = formatDate env (some v.doc.registerDate) ctx.language ∧
      (v.doc.gender = none → v.gender = "") ∧
      (v.doc.gender = some "male" →
        v.gender = if ctx.language = "fr" then "homme" else "male") ∧
      (v.doc.gender = some "female" →
        v.gender = if ctx.language = "fr" then "femme" else "female")) ∧
    (∀ p, ValidPage env UserModel s (usersQuery args.filter) p (args.page.getD 1)
        (args.limit.getD 10) →
      ownSortKey args.sort = true →
      ∃ r, Resolvers2.Query.users env s args = .ok r ∧
        r.data.map (fun v => (v.gender, v.registerDate)) =
          (pageOf (Mongo.sort UserModel.sortKey
            (selectedSort sortOptions (args.sort.getD "registerDate_desc") ⟨.registerDate, false⟩)
            (s.users.filter p)) (args.page.getD 1) (args.limit.getD 10)).map
              (fun u => (u.gender, u.registerDate))) := by
  refine ⟨?_, ?_⟩
  · intro r hr v hmem
    obtain ⟨found, hdata⟩ := Resolvers.Query.users_data env s args ctx r hr
    rw [hdata] at hmem
    obtain ⟨u, _, rfl⟩ := List.mem_map.mp hmem
    refine ⟨rfl, ?_, ?_, ?_⟩
    · intro hg
      simp only [] at hg
      simp [hg, i18nextTOpt]
    · intro hg
      simp only [] at hg
      by_cases hl : ctx.language = "fr"
      · simp only [hg, hl, if_true]
        decide
      · by_cases he : ctx.language = "en"
        · simp only [hg, he]
          decide
        · simp [hg, hl, he, i18nextTOpt, i18nextT, resources, lookupKey, resourcesEn]
    · intro hg
      simp only [] at hg
      by_cases hl : ctx.language = "fr"
      · simp only [hg, hl, if_true]
        decide
      · by_cases he : ctx.language = "en"
        · simp only [hg, he]
          decide
        · simp [hg, hl, he, i18nextTOpt, i18nextT, resources, lookupKey, resourcesEn]
  · intro p h hsort
    refine ⟨_, Resolvers2.Query.users2_eq env s args p h hsort, ?_⟩
    simp [Function.comp_def, selectSansEmail]

/-- Witness of C14: page 1 of the two stored users read by the `users`
resolver of `resolvers2.js`. -/
theorem users_raw_only_in_resolvers2_witness :
    ∃ r, Resolvers2.Query.users Example.env Example.store
        (Example.pageArgs UserFilterInput 1 10) = .ok r ∧
      r.data.map (fun v => (v.gender, v.registerDate))
        = [(some "male", 2000), (some "female", 1000)] :=
  (users_raw_only_in_resolvers2 Example.env Example.store
    (Example.pageArgs UserFilterInput 1 10) Example.ctx).2 (fun _ => true)
    ⟨by decide, by decide, rfl, rfl, rfl⟩ (by decide)

/-! ## C15: the API version of the context -/

/-- C15, as stated, fails: the version header `3.0` is not recognised and
not replaced, the context carries `apiVersion = "3.0"`. -/
theorem apiVersion_unrecognised_kept :
    (versionLanguageMiddleware
        { xApiVersion := some "3.0", acceptLanguage := none, xLanguage := none,
          authorization := none }).apiVersion = "3.0" ∧
    (context (fun _ => .error (.other "JsonWebTokenError" "jwt malformed" none))
        { xApiVersion := some "3.0", acceptLanguage := none, xLanguage := none,
          authorization := none }
        (versionLanguageMiddleware
          { xApiVersion := some "3.0", acceptLanguage := none, xLanguage := none,
            authorization := none })).toOption.map (fun c => c.apiVersion) = some "3.0" := by
  constructor <;> decide

theorem Resolvers.Query.users_version_other (env : Env) (s : Store)
    (args : ListArgs UserFilterInput) (ctx : Context) (h : ctx.apiVersion ≠ "2.0") :
    Resolvers.Query.users env s args ctx
      = Resolvers.Query.users env s args { ctx with apiVersion := "1.0" } := by
  simp [Resolvers.Query.users, h]

/-- C15 (amended): for every inbound header set, the `apiVersion` of the
context is the value of the `x-api-version` header when that header is
present and not empty, and `"1.0"` when it is absent or empty; the value is
not checked.  So it is `"2.0"` exactly when the header is `"2.0"`, it is
`"1.0"` for an absent, empty or `"1.0"` header, and an unrecognised value is
kept as it is; the `users` resolver serves every value other than `"2.0"`
as it serves `"1.0"`. -/
theorem apiVersion_of_header (headers : RequestHeaders) :
    (headers.xApiVersion = none → (versionLanguageMiddleware headers).apiVersion = "1.0") ∧
    (headers.xApiVersion = some "" → (versionLanguageMiddleware headers).apiVersion = "1.0") ∧
    (∀ v, v ≠ "" → headers.xApiVersion = some v →
      (versionLanguageMiddleware headers).apiVersion = v) ∧
    ((versionLanguageMiddleware headers).apiVersion = "2.0" ↔
      headers.xApiVersion = some "2.0") ∧
    (∀ jwtVerify c, context jwtVerify headers (versionLanguageMiddleware headers) = .ok c →
      c.apiVersion = (versionLanguageMiddleware headers).apiVersion) ∧
    (∀ env s args, (versionLanguageMiddleware headers).apiVersion ≠ "2.0" →
      Resolvers.Query.users env s args (versionLanguageMiddleware headers)
        = Resolvers.Query.users env s args
            { versionLanguageMiddleware headers with apiVersion := "1.0" }) := by
  refine ⟨?_, ?_, ?_, ?_, ?_, ?_⟩
  · intro h
    simp [versionLanguageMiddleware, h, truthy]
  · intro h
    simp [versionLanguageMiddleware, h, truthy]
  · intro v hv h
    simp [versionLanguageMiddleware, h, truthy, hv]
  · cases hx : headers.xApiVersion with
    | none => simp [versionLanguageMiddleware, hx, truthy]
    | some v =>
      by_cases hv : v = ""
      · subst hv
        simp [versionLanguageMiddleware, hx, truthy]
      · simp [versionLanguageMiddleware, hx, truthy, hv]
  · intro jwtVerify c hc
    simp only [context, pure, Except.pure, Except.ok.injEq] at hc
    rw [← hc]
    split
    · split <;> rfl
    · rfl
  · intro env s args h
    exact Resolvers.Query.users_version_other env s args _ h

/-- Witness of C15 (amended): the header `2.0`. -/
theorem apiVersion_of_header_witness :
    (versionLanguageMiddleware
        { xApiVersion := some "2.0", acceptLanguage := none, xLanguage := none,
          authorization := none }).apiVersion = "2.0" :=
  (apiVersion_of_header
    { xApiVersion := some "2.0", acceptLanguage := none, xLanguage := none,
      authorization := none }).2.2.1 "2.0" (by decide) rfl

/-! ## C17: the context and the authorization header -/

/-- C17: for every header set and every outcome of the verification of the
token, the `context` function returns a context: its `apiVersion` and
`language` are those the middleware set on the request, whatever the
authorization header and the outcome; `userId` is the `userId` claim of the
token when a token is present and its verification succeeds, and is unset
when no token is present or the verification fails. -/
theorem context_never_fails (jwtVerify : String → Except JsError Decoded)
    (headers : RequestHeaders) (req : Context) :
    ∃ c, context jwtVerify headers req = .ok c ∧
      c.apiVersion = req.apiVersion ∧ c.language = req.language ∧
      (truthy (bearerToken headers.authorization) = false → c.userId = none) ∧
      (∀ token decoded, bearerToken headers.authorization = some token → token ≠ "" →
        jwtVerify token = .ok decoded → c.userId = decoded.userId) ∧
      (∀ token error, bearerToken headers.authorization = some token →
        jwtVerify token = .error error → c.userId = none) := by
  refine ⟨_, rfl, ?_, ?_, ?_, ?_, ?_⟩
  · split
    · split <;> rfl
    · rfl
  · split
    · split <;> rfl
    · rfl
  · intro h
    simp [h]
  · intro token decoded ht hne hv
    simp [ht, truthy, hne, hv]
  · intro token error ht hv
    by_cases hne : token = "" <;> simp [ht, truthy, hne, hv]

/-- Witness of C17: a bearer token whose verification succeeds. -/
theorem context_never_fails_witness :
    ∃ c, context (fun _ => .ok { userId := some "0123456789abcdef01234567" })
        { xApiVersion := none, acceptLanguage := none, xLanguage := none,
          authorization := some "Bearer abc" } Example.ctx = .ok c ∧
      c.userId = some "0123456789abcdef01234567" := by
  obtain ⟨c, hc, _, _, _, hok, _⟩ :=
    context_never_fails (fun _ => .ok { userId := some "0123456789abcdef01234567" })
      { xApiVersion := none, acceptLanguage := none, xLanguage := none,
        authorization := some "Bearer abc" } Example.ctx
  exact ⟨c, hc, hok "abc" _ (by decide) (by decide) rfl⟩

/-! ## C18: the headers written by the caching plugin -/

theorem HeaderMap.get_of_cons (n v : String) (rest : HeaderMap) (name : String) :
    HeaderMap.get ((n, v) :: rest) name = if n = name then some v else HeaderMap.get rest name := by
  by_cases h : n = name
  · simp [HeaderMap.get, List.find?_cons, h]
  · have hb : (n == name) = false := by simpa using h
    simp [HeaderMap.get, List.find?_cons, h, hb]

theorem HeaderMap.get_of_set (headers : HeaderMap) (name name' value : String) :
    (headers.set name value).get name'
      = if name = name' then some value else headers.get name' := by
  induction headers with
  | nil => simp [HeaderMap.set, HeaderMap.get_of_cons, HeaderMap.get]
  | cons p rest ih =>
    obtain ⟨n, v⟩ := p
    by_cases hn : n = name
    · subst hn
      by_cases h : n = name' <;> simp [HeaderMap.set, HeaderMap.get_of_cons, h]
    · have hb : (n == name) = false := by simpa using hn
      simp only [HeaderMap.set, hb, Bool.false_eq_true, if_false, HeaderMap.get_of_cons, ih]
      by_cases hk : name = name'
      · subst hk
        simp [hn]
      · simp [hk]

/-- C18 fails on the code for a query that ends in errors: the response the
server hands to the hook has the errors of the operation inside `body`, the
hook tests `response.errors`, which is not set, and writes
`Cache-Control: public, max-age=300` where the claim says `no-store`. -/
theorem query_with_errors_is_cached :
    Response.hasErrors { http := none, body := Example.failedBody } = true ∧
    ((willSendResponse (didResolveOperation (some "query"))
        { http := none, body := Example.failedBody }).http.getD []).get "Cache-Control"
      = some "public, max-age=300" := by
  decide

/-- C18, what the hook writes: for every response the plugin processes, when
the operation is a query `Cache-Control` is `public, max-age=300`, `Vary` is
`Accept, Origin, Accept-Encoding, Accept-Language` and `ETag` is
`generateETag(body)`, as the claim says of a response without errors, and
the same for a response with errors; when the operation is a mutation,
`Cache-Control` is `no-store` with or without errors.  The body of the
response is not changed. -/
theorem caching_headers (response : Response) :
    (((willSendResponse (didResolveOperation (some "query")) response).http.getD []).get
          "Cache-Control" = some "public, max-age=300" ∧
      ((willSendResponse (didResolveOperation (some "query")) response).http.getD []).get
          "Vary" = some "Accept, Origin, Accept-Encoding, Accept-Language" ∧
      ((willSendResponse (didResolveOperation (some "query")) response).http.getD []).get
          "ETag" = some (generateETag response.body)) ∧
    (((willSendResponse (didResolveOperation (some "mutation")) response).http.getD []).get
        "Cache-Control" = some "no-store") ∧
    (∀ operationType, (willSendResponse operationType response).body = response.body) := by
  refine ⟨?_, ?_, ?_⟩
  · simp only [willSendResponse, didResolveOperation, if_true, Response.errors,
      Option.isNone_none, Bool.true_or, Option.getD_some, HeaderMap.get_of_set]
    refine ⟨?_, ?_, ?_⟩ <;> simp
  · simp [willSendResponse, didResolveOperation, HeaderMap.get_of_set]
  · intro operationType
    simp only [willSendResponse]
    split
    · split <;> rfl
    · split <;> rfl

/-! ## C16: the locale of the context -/

theorem utf16OfChar_length (c : Char) :
    (utf16OfChar c).length = 1 ∨ (utf16OfChar c).length = 2 := by
  unfold utf16OfChar
  split <;> simp

theorem takeUnits_zero (l : List Char) : takeUnits 0 l = [] := by
  cases l with
  | nil => rfl
  | cons c rest =>
    rcases utf16OfChar_length c with h | h <;> simp [takeUnits, h]

theorem takeUnits_two_cons_cons (a b : Char) (rest : List Char) :
    takeUnits 2 (a :: b :: rest) = takeUnits 2 [a, b] := by
  rcases utf16OfChar_length a with ha | ha <;> rcases utf16OfChar_length b with hb | hb <;>
    simp [takeUnits, ha, hb, takeUnits_zero]

theorem toLower_of_isJsWhitespace (c : Char) (h : isJsWhitespace c = true) :
    c.toLower ≠ 'n' ∧ c.toLower ≠ 'r' := by
  have hc : Char.ofNat c.toNat = c := Char.ofNat_toNat c
  simp only [isJsWhitespace, Bool.or_eq_true, beq_iff_eq, Bool.and_eq_true,
    decide_eq_true_eq] at h
  have key : ∀ n, (n = 9 ∨ n = 10 ∨ n = 11 ∨ n = 12 ∨ n = 13 ∨ n = 32 ∨ n = 160 ∨ n = 5760 ∨
      (8192 ≤ n ∧ n ≤ 8202) ∨ n = 8232 ∨ n = 8233 ∨ n = 8239 ∨ n = 8287 ∨ n = 12288 ∨
      n = 65279) → (Char.ofNat n).toLower ≠ 'n' ∧ (Char.ofNat n).toLower ≠ 'r' := by
    intro n hn
    rcases hn with h | h | h | h | h | h | h | h | ⟨h1, h2⟩ | h | h | h | h | h | h
    all_goals first
      | (subst h; decide)
      | (interval_cases n <;> decide)
  rw [← hc]
  apply key
  tauto

theorem lower_take_rdrop (l : List Char) (h : ∀ c ∈ l.head?, isJsWhitespace c = false) :
    (takeUnits 2 (l.reverse.dropWhile isJsWhitespace).reverse).map Char.toLower
        = (takeUnits 2 l).map Char.toLower ∨
      ∀ x y, (x = 'n' ∨ x = 'r') →
        (takeUnits 2 (l.reverse.dropWhile isJsWhitespace).reverse).map Char.toLower ≠ [y, x] ∧
        (takeUnits 2 l).map Char.toLower ≠ [y, x] := by
  have hsplit : l = (l.reverse.dropWhile isJsWhitespace).reverse
      ++ (l.reverse.takeWhile isJsWhitespace).reverse := by
    rw [← List.reverse_append, List.takeWhile_append_dropWhile, List.reverse_reverse]
  have hws : ∀ c ∈ (l.reverse.takeWhile isJsWhitespace).reverse, isJsWhitespace c = true := by
    intro c hc
    exact List.mem_takeWhile_imp (List.mem_reverse.mp hc)
  generalize (l.reverse.dropWhile isJsWhitespace).reverse = t at hsplit
  generalize (l.reverse.takeWhile isJsWhitespace).reverse = s at hsplit hws
  subst hsplit
  match t, s with
  | [], [] => left; rfl
  | [], c :: s => 
    have h1 := h c (by simp)
    have h2 := hws c (by simp)
    simp [h1] at h2
  | [a], [] => left; rfl
  | [a], c :: s =>
    right
    intro x y hx
    have hc := toLower_of_isJsWhitespace c (hws c (by simp))
    rcases utf16OfChar_length a with ha | ha <;> rcases utf16OfChar_length c with hb | hb <;>
      rcases hx with hx | hx <;> subst hx <;>
      simp [takeUnits, ha, hb, takeUnits_zero, hc.1, hc.2]
  | a :: b :: t, s =>
    left
    rw [List.cons_append, List.cons_append, takeUnits_two_cons_cons a b (t ++ s),
      takeUnits_two_cons_cons a b t]

theorem languageCode_trim_irrelevant (s : String)
    (h : ∀ c ∈ s.toList.head?, isJsWhitespace c = false) :
    (if ["en", "fr"].contains (jsToLowerCase (jsSubstring0 2 (jsTrim s))) = true
      then jsToLowerCase (jsSubstring0 2 (jsTrim s)) else "en")
    = (if ["en", "fr"].contains (jsToLowerCase (jsSubstring0 2 s)) = true
      then jsToLowerCase (jsSubstring0 2 s) else "en") := by
  have hd : s.toList.dropWhile isJsWhitespace = s.toList := by
    cases hl : s.toList with
    | nil => rfl
    | cons c rest =>
      have := h c (by rw [hl]; simp)
      simp [List.dropWhile, this]
  have hen : ("en" : String) = String.mk ['e', 'n'] := rfl
  have hfr : ("fr" : String) = String.mk ['f', 'r'] := rfl
  have hcases := lower_take_rdrop s.toList h
  simp only [jsToLowerCase, jsSubstring0, jsTrim, hd]
  simp only [String.toList] at hcases ⊢
  rcases hcases with heq | hne
  · rw [heq]
  · have h1 := fun y => (hne 'n' y (Or.inl rfl))
    have h2 := fun y => (hne 'r' y (Or.inr rfl))
    have e1 : ∀ l : List Char, l ≠ ['e', 'n'] → l ≠ ['f', 'r'] →
        ¬ (["en", "fr"].contains (String.mk l) = true) := by
      intro l hl1 hl2 hh
      have hh2 : String.mk l = "en" ∨ String.mk l = "fr" := by simpa using hh
      rcases hh2 with hh | hh
      · exact hl1 (congrArg String.data (hh.trans hen))
      · exact hl2 (congrArg String.data (hh.trans hfr))
    rw [if_neg (e1 _ (h1 'e').1 (h2 'f').1), if_neg (e1 _ (h1 'e').2 (h2 'f').2)]
/-- C16, as stated, fails on a language header with leading white space: the
server trims the text before it cuts two characters, so ` fr` resolves to
`fr`, where the first two characters of the text, a blank and `f`, are no
supported code. -/
theorem language_trims_before_cut :
    (versionLanguageMiddleware
        { xApiVersion := none, acceptLanguage := some " fr", xLanguage := none,
          authorization := none }).language = "fr" ∧
      localeOfFirstTwo " fr" = "en" := by
  decide

/-- C16 (amended): for every header set, with `h` the language header the
middleware reads (`accept-language`, or `x-language` when that one is absent
or empty): the locale is the first two characters, lower-cased, of the
trimmed text of `h` before its first comma when that code is `en` or `fr`,
and `en` otherwise; with no language header, or an empty one, the locale is
`en`.  The locale is always `en` or `fr`, the header `fr-FR,en;q=0.8`
resolves to `fr`, and when the text before the first comma does not start
with white space the locale is the one the first two characters of that text
give, without trimming. -/
theorem language_of_header (headers : RequestHeaders) :
    ((versionLanguageMiddleware headers).language = "en" ∨
      (versionLanguageMiddleware headers).language = "fr") ∧
    (truthy (orTruthy headers.acceptLanguage headers.xLanguage) = false →
      (versionLanguageMiddleware headers).language = "en") ∧
    (∀ h, orTruthy headers.acceptLanguage headers.xLanguage = some h → h ≠ "" →
      (versionLanguageMiddleware headers).language
        = if languageCode h = "en" ∨ languageCode h = "fr" then languageCode h else "en") ∧
    (∀ h, orTruthy headers.acceptLanguage headers.xLanguage = some h → h ≠ "" →
      (∀ c ∈ ((jsSplit ',' h).headD "").toList.head?, isJsWhitespace c = false) →
      (versionLanguageMiddleware headers).language = localeOfFirstTwo h) ∧
    (headers.acceptLanguage = some "fr-FR,en;q=0.8" →
      (versionLanguageMiddleware headers).language = "fr") := by
  refine ⟨?_, ?_, ?_, ?_, ?_⟩
  · simp only [versionLanguageMiddleware]
    split
    · split
      · rename_i hc
        simpa using hc
      · exact Or.inl rfl
    · exact Or.inl rfl
  · intro h
    simp [versionLanguageMiddleware, h]
  · intro h hh hne
    have ht : truthy (some h) = true := by simp [truthy, hne]
    simp [versionLanguageMiddleware, hh, ht]
  · intro h hh hne hws
    have ht : truthy (some h) = true := by simp [truthy, hne]
    simp only [versionLanguageMiddleware, hh, ht, if_true, Option.getD_some, languageCode,
      localeOfFirstTwo]
    exact languageCode_trim_irrelevant _ hws
  · intro h
    have ht : truthy (some "fr-FR,en;q=0.8") = true := by decide
    have hc : languageCode "fr-FR,en;q=0.8" = "fr" := by decide
    simp [versionLanguageMiddleware, orTruthy, h, ht, hc]

/-- Witness of C16 (amended): the header `fr-FR,en;q=0.8`. -/
theorem language_of_header_witness :
    (versionLanguageMiddleware
        { xApiVersion := none, acceptLanguage := some "fr-FR,en;q=0.8", xLanguage := none,
          authorization := none }).language = "fr" :=
  (language_of_header
    { xApiVersion := none, acceptLanguage := some "fr-FR,en;q=0.8", xLanguage := none,
      authorization := none }).2.2.2.2 rfl

/-! ## Lemmas on `toString(16)` and on the hash of `generateETag` -/

theorem digitChar_injective_16 :
    ∀ a < 16, ∀ b < 16, Nat.digitChar a = Nat.digitChar b → a = b := by
  decide

theorem isHexDigit_digitChar : ∀ a < 16, isHexDigit (Nat.digitChar a) = true := by
  decide

theorem map_digitChar_injective :
    ∀ ds es : List Nat, (∀ d ∈ ds, d < 16) → (∀ d ∈ es, d < 16) →
      ds.map Nat.digitChar = es.map Nat.digitChar → ds = es
  | [], [], _, _, _ => rfl
  | [], _ :: _, _, _, h => by simp at h
  | _ :: _, [], _, _, h => by simp at h
  | d :: ds, e :: es, hd, he, h => by
    simp only [List.map_cons, List.cons.injEq] at h
    have h1 := digitChar_injective_16 d (hd d (by simp)) e (he e (by simp)) h.1
    have h2 := map_digitChar_injective ds es (fun x hx => hd x (by simp [hx]))
      (fun x hx => he x (by simp [hx])) h.2
    rw [h1, h2]

theorem digitsAux_spec (fuel : Nat) : ∀ (n : Nat) (acc : List Char), n < fuel →
    ∃ ds : List Nat, ds ≠ [] ∧ (∀ d ∈ ds, d < 16) ∧
      digitsAux 16 fuel n acc = ds.map Nat.digitChar ++ acc ∧
      Nat.ofDigits 16 ds.reverse = n := by
  induction fuel with
  | zero => intro n acc h; omega
  | succ fuel ih =>
    intro n acc h
    by_cases h0 : n / 16 = 0
    · refine ⟨[n % 16], by simp, ?_, ?_, ?_⟩
      · intro d hd
        simp only [List.mem_singleton] at hd
        omega
      · simp [digitsAux, h0]
      · simp [Nat.ofDigits]
        omega
    · obtain ⟨ds, _, hlt, heq, hval⟩ :=
        ih (n / 16) (Nat.digitChar (n % 16) :: acc) (by omega)
      refine ⟨ds ++ [n % 16], by simp, ?_, ?_, ?_⟩
      · intro d hd
        simp only [List.mem_append, List.mem_singleton] at hd
        rcases hd with hd | hd
        · exact hlt d hd
        · omega
      · simp [digitsAux, h0, heq]
      · simp only [List.reverse_append, List.reverse_cons, List.reverse_nil, List.nil_append,
          List.singleton_append, Nat.ofDigits_cons, hval]
        omega

theorem natDigits_spec (n : Nat) :
    ∃ ds : List Nat, ds ≠ [] ∧ (∀ d ∈ ds, d < 16) ∧
      natDigits 16 n = ds.map Nat.digitChar ∧ Nat.ofDigits 16 ds.reverse = n := by
  obtain ⟨ds, h1, h2, h3, h4⟩ := digitsAux_spec (n + 1) n [] (by omega)
  exact ⟨ds, h1, h2, by simpa [natDigits] using h3, h4⟩

theorem natDigits_injective (n m : Nat) (h : natDigits 16 n = natDigits 16 m) : n = m := by
  obtain ⟨ds, _, hd, hn, hv⟩ := natDigits_spec n
  obtain ⟨es, _, he, hm, hw⟩ := natDigits_spec m
  have := map_digitChar_injective ds es hd he (by rw [← hn, ← hm, h])
  rw [← hv, ← hw, this]

theorem natDigits_hex (n : Nat) :
    natDigits 16 n ≠ [] ∧ ∀ c ∈ natDigits 16 n, isHexDigit c = true := by
  obtain ⟨ds, hne, hd, hn, _⟩ := natDigits_spec n
  rw [hn]
  refine ⟨by simpa using hne, ?_⟩
  intro c hc
  obtain ⟨d, hd1, rfl⟩ := List.mem_map.mp hc
  exact isHexDigit_digitChar d (hd d hd1)

theorem intToString_injective (n m : Int) (h : intToString 16 n = intToString 16 m) :
    n = m := by
  have hl := congrArg String.data h
  simp only [intToString] at hl
  have key : ∀ k l : Nat, ('-' :: natDigits 16 k) ≠ natDigits 16 l := by
    intro k l hh
    have := (natDigits_hex l).2 '-' (by rw [← hh]; simp)
    revert this
    decide
  by_cases hn : n < 0 <;> by_cases hm : m < 0
  · simp only [hn, hm, if_true, List.cons.injEq, true_and] at hl
    have := natDigits_injective _ _ hl
    omega
  · simp only [hn, hm, if_true, if_false] at hl
    exact absurd hl (key _ _)
  · simp only [hn, hm, if_true, if_false] at hl
    exact absurd hl.symm (key _ _)
  · simp only [hn, hm, if_false] at hl
    have := natDigits_injective _ _ hl
    omega

theorem toInt32_range (x : Int) : -2147483648 ≤ toInt32 x ∧ toInt32 x < 2147483648 := by
  unfold toInt32
  omega

theorem hashStep_range (h : Int) (c : Nat) :
    -2147483648 ≤ hashStep h c ∧ hashStep h c < 2147483648 :=
  toInt32_range _

theorem hashStep_injective_unit (h : Int) (x y : Nat) (hx : x < 65536) (hy : y < 65536)
    (hh : hashStep h x = hashStep h y) : x = y := by
  unfold hashStep toInt32 at hh
  omega

theorem hashStep_injective_hash (h1 h2 : Int) (c : Nat)
    (r1 : -2147483648 ≤ h1 ∧ h1 < 2147483648) (r2 : -2147483648 ≤ h2 ∧ h2 < 2147483648)
    (hh : hashStep h1 c = hashStep h2 c) : h1 = h2 := by
  unfold hashStep toInt32 at hh
  omega
theorem foldl_hashStep_range (q : List Nat) : ∀ h : Int,
    (-2147483648 ≤ h ∧ h < 2147483648) →
      -2147483648 ≤ q.foldl hashStep h ∧ q.foldl hashStep h < 2147483648 := by
  induction q with
  | nil => intro h r; exact r
  | cons c q ih => intro h _; exact ih _ (hashStep_range h c)

theorem foldl_hashStep_injective (q : List Nat) : ∀ h1 h2 : Int,
    (-2147483648 ≤ h1 ∧ h1 < 2147483648) → (-2147483648 ≤ h2 ∧ h2 < 2147483648) →
      q.foldl hashStep h1 = q.foldl hashStep h2 → h1 = h2 := by
  induction q with
  | nil => intro h1 h2 _ _ h; exact h
  | cons c q ih =>
    intro h1 h2 r1 r2 h
    exact hashStep_injective_hash h1 h2 c r1 r2
      (ih _ _ (hashStep_range h1 c) (hashStep_range h2 c) h)

theorem utf16OfChar_lt (c : Char) : ∀ u ∈ utf16OfChar c, u < 65536 := by
  have hv : c.toNat < 1114112 := by
    have := c.valid
    simp only [UInt32.isValidChar, Nat.isValidChar] at this
    simp only [Char.toNat]
    omega
  intro u hu
  unfold utf16OfChar at hu
  split at hu
  · simp only [List.mem_singleton] at hu
    omega
  · simp only [List.mem_cons, List.mem_singleton, List.not_mem_nil, or_false] at hu
    omega

theorem utf16_lt (s : String) : ∀ u ∈ utf16 s, u < 65536 := by
  intro u hu
  simp only [utf16, List.mem_flatMap] at hu
  obtain ⟨c, _, hc⟩ := hu
  exact utf16OfChar_lt c u hc

theorem hashOf_one_unit (s1 s2 : String) (p q : List Nat) (x y : Nat)
    (h1 : utf16 s1 = p ++ x :: q) (h2 : utf16 s2 = p ++ y :: q) (hxy : x ≠ y) :
    hashOf s1 ≠ hashOf s2 := by
  intro h
  have hx : x < 65536 := utf16_lt s1 x (by rw [h1]; simp)
  have hy : y < 65536 := utf16_lt s2 y (by rw [h2]; simp)
  simp only [hashOf, h1, h2, List.foldl_append, List.foldl_cons] at h
  have := foldl_hashStep_injective q _ _ (hashStep_range _ x) (hashStep_range _ y) h
  exact hxy (hashStep_injective_unit _ x y hx hy this)

theorem generateETag_truthy (body : JsValue) (h : body.truthy = true) :
    generateETag body
      = String.mk ('"' :: (intToString 16 (hashOf (jsonStringify body))).data ++ ['"']) := by
  simp only [generateETag, h, Bool.not_true, Bool.false_eq_true, if_false]
  apply String.ext
  simp

theorem generateETag_falsy (body : JsValue) (h : body.truthy = false) :
    generateETag body = "" := by
  simp [generateETag, h]

theorem generateETag_eq_iff (b1 b2 : JsValue) (h1 : b1.truthy = true)
    (h2 : b2.truthy = true) :
    generateETag b1 = generateETag b2
      ↔ hashOf (jsonStringify b1) = hashOf (jsonStringify b2) := by
  rw [generateETag_truthy b1 h1, generateETag_truthy b2 h2]
  constructor
  · intro h
    have hd := congrArg String.data h
    simp only [List.cons_append, List.cons.injEq, true_and] at hd
    have := List.append_cancel_right hd
    exact intToString_injective _ _ (String.ext this)
  · intro h
    rw [h]

/-! ## C19: equal and different bodies -/

set_option maxRecDepth 100000 in
/-- C19, as stated, fails on two bodies that differ in one field,
`\x7b"k":"Aa"\x7d` and `\x7b"k":"BB"\x7d`: their serialisations differ and
`generateETag` returns the same tag, `"-18f7181f"`, for both. -/
theorem generateETag_collision :
    jsonStringify (.obj (.cons "k" (.str "Aa") .nil))
        ≠ jsonStringify (.obj (.cons "k" (.str "BB") .nil)) ∧
      generateETag (.obj (.cons "k" (.str "Aa") .nil)) = "\"-18f7181f\"" ∧
      generateETag (.obj (.cons "k" (.str "BB") .nil)) = "\"-18f7181f\"" := by
  decide

/-- C19 (amended): for every two response bodies: identical bodies get
identical tags; two truthy bodies get the same tag exactly when the 32-bit
hashes of their serialisations are equal, so bodies with different
serialisations may share a tag; a truthy and a falsy body get different
tags; and two truthy bodies whose serialisations differ in exactly one
UTF-16 code unit get different tags. -/
theorem generateETag_separates (b1 b2 : JsValue) :
    (b1 = b2 → generateETag b1 = generateETag b2) ∧
    (b1.truthy = true → b2.truthy = true →
      (generateETag b1 = generateETag b2
        ↔ hashOf (jsonStringify b1) = hashOf (jsonStringify b2))) ∧
    (b1.truthy = true → b2.truthy = false → generateETag b1 ≠ generateETag b2) ∧
    (b1.truthy = true → b2.truthy = true → ∀ (p q : List Nat) (x y : Nat),
      utf16 (jsonStringify b1) = p ++ x :: q → utf16 (jsonStringify b2) = p ++ y :: q →
      x ≠ y → generateETag b1 ≠ generateETag b2) := by
  refine ⟨?_, ?_, ?_, ?_⟩
  · intro h
    rw [h]
  · exact generateETag_eq_iff b1 b2
  · intro h1 h2 h
    rw [generateETag_truthy b1 h1, generateETag_falsy b2 h2] at h
    have := congrArg String.data h
    simp at this
  · intro h1 h2 p q x y hp hq hxy h
    exact hashOf_one_unit _ _ p q x y hp hq hxy ((generateETag_eq_iff b1 b2 h1 h2).mp h)

set_option maxRecDepth 100000 in
/-- Witness of C19 (amended): the bodies `\x7b"k":"Aa"\x7d` and
`\x7b"k":"Ab"\x7d`, whose serialisations differ in the ninth code unit. -/
theorem generateETag_separates_witness :
    generateETag (.obj (.cons "k" (.str "Aa") .nil))
      ≠ generateETag (.obj (.cons "k" (.str "Ab") .nil)) :=
  (generateETag_separates (.obj (.cons "k" (.str "Aa") .nil))
      (.obj (.cons "k" (.str "Ab") .nil))).2.2.2 rfl rfl
    [123, 34, 107, 34, 58, 34, 65] [34, 125] 97 98 (by decide) (by decide) (by decide)

/-! ## C20: the form of the tag -/

set_option maxRecDepth 100000 in
/-- C20, as stated, fails: the body `\x7b"data":\x7b"users":[]\x7d\x7d` has a
negative hash, its tag is `"-126a5f2e"`, with a minus sign between the quote
and the digits; and the tag of the body `null` is the empty string, without
quotes. -/
theorem generateETag_not_quoted_hex :
    generateETag (.obj (.cons "data" (.obj (.cons "users" (.arr .nil) .nil)) .nil))
        = "\"-126a5f2e\"" ∧
      isQuotedHex
        (generateETag (.obj (.cons "data" (.obj (.cons "users" (.arr .nil) .nil)) .nil)))
        = false ∧
      generateETag .null = "" ∧ isQuotedHex (generateETag .null) = false := by
  decide

/-- C20 (amended): for every response body: the tag of a falsy body is the
empty string; the tag of a truthy body is a double quote, then a minus sign
when the 32-bit hash of the serialisation is negative, then one or more
hexadecimal digits (0-9, a-f), then a closing double quote.  So the tag of a
truthy body is a quoted hex string exactly when the hash is not negative. -/
theorem generateETag_shape (body : JsValue) :
    (body.truthy = false → generateETag body = "") ∧
    (body.truthy = true → ∃ digits : List Char, digits ≠ [] ∧
      (∀ c ∈ digits, isHexDigit c = true) ∧
      generateETag body
        = String.mk ('"' :: (if hashOf (jsonStringify body) < 0 then '-' :: digits
            else digits) ++ ['"'])) ∧
    (body.truthy = true →
      (isQuotedHex (generateETag body) = true ↔ 0 ≤ hashOf (jsonStringify body))) := by
  have hhex := natDigits_hex (hashOf (jsonStringify body)).natAbs
  refine ⟨generateETag_falsy body, ?_, ?_⟩
  · intro h
    refine ⟨natDigits 16 (hashOf (jsonStringify body)).natAbs, hhex.1, hhex.2, ?_⟩
    rw [generateETag_truthy body h]
    simp only [intToString]
  · intro h
    rw [generateETag_truthy body h]
    simp only [intToString, isQuotedHex]
    by_cases hneg : hashOf (jsonStringify body) < 0
    · have hminus : isHexDigit '-' = false := by decide
      simp [hneg, hminus]
    · have hnn : 0 ≤ hashOf (jsonStringify body) := by omega
      simp [hneg, hnn, hhex.1]
      exact hhex.2

set_option maxRecDepth 100000 in
/-- Witness of C20 (amended): the body `\x7b\x7d`, of hash 3938 and tag
`"f62"`. -/
theorem generateETag_shape_witness :
    isQuotedHex (generateETag (.obj .nil)) = true :=
  ((generateETag_shape (.obj .nil)).2.2 rfl).mpr (by decide)

/-! ## C26: `hasNextPage` and `totalPages` -/

/-- C26: for every count of matching records `N ≥ 0`, every integer `page`
(in particular `page ≥ 1`) and every `limit ≥ 1`, the two fields of the
pagination block agree: `totalPages` is the integer `ceil(N / limit)`, and
`hasNextPage` (`page * limit < N`) holds if and only if
`currentPage < totalPages`; on the last page, `currentPage = totalPages`,
`hasNextPage` is false. -/
theorem hasNextPage_iff_before_last (total : Nat) (page limit : Int) (hl : 1 ≤ limit) :
    ∃ totalPages : Int,
      (paginationBlock total page limit).totalPages = .fin totalPages ∧
      totalPages = ⌈(total : ℚ) / (limit : ℚ)⌉ ∧
      ((paginationBlock total page limit).hasNextPage = true ↔
        (paginationBlock total page limit).currentPage < totalPages) ∧
      ((paginationBlock total page limit).currentPage = totalPages →
        (paginationBlock total page limit).hasNextPage = false) := by
  have hpos : (0 : ℚ) < (limit : ℚ) := by exact_mod_cast (by omega : (0 : Int) < limit)
  have key : page * limit < (total : Int) ↔ page < ⌈(total : ℚ) / (limit : ℚ)⌉ := by
    rw [Int.lt_ceil, lt_div_iff₀ hpos]
    exact_mod_cast Iff.rfl
  refine ⟨⌈(total : ℚ) / (limit : ℚ)⌉, ?_, rfl, ?_, ?_⟩
  · exact mathCeilDiv_eq_ceil total limit (by omega)
  · simp [paginationBlock, key]
  · intro h
    simp only [paginationBlock] at h
    have hn : ¬ page * limit < (total : Int) := by
      rw [key, ← h]
      exact lt_irrefl _
    simp [paginationBlock, hn]

/-- Witness of C26: page 3 of 25 records by 10. -/
theorem hasNextPage_iff_before_last_witness :
    ∃ totalPages : Int,
      (paginationBlock 25 3 10).totalPages = .fin totalPages ∧
      totalPages = ⌈((25 : Nat) : ℚ) / ((10 : Int) : ℚ)⌉ ∧
      ((paginationBlock 25 3 10).hasNextPage = true ↔
        (paginationBlock 25 3 10).currentPage < totalPages) ∧
      ((paginationBlock 25 3 10).currentPage = totalPages →
        (paginationBlock 25 3 10).hasNextPage = false) :=
  hasNextPage_iff_before_last 25 3 10 (by decide)

/-! ## C27: the pages of a list, one after the other -/

theorem pageOf_succ {α : Type} (records : List α) (k d : Nat) :
    pageOf records ((k : Int) + 1) (d : Int) = (records.drop (k * d)).take d := by
  have h : (((k : Int) + 1 - 1) * (d : Int)).toNat = k * d := by
    have : ((k : Int) + 1 - 1) * (d : Int) = ((k * d : Nat) : Int) := by push_cast; ring
    rw [this, Int.toNat_ofNat]
  unfold pageOf
  rw [h, Int.toNat_ofNat]

theorem concatPages_eq {α β : Type} (fetch : Int → Except JsError (PageResult β))
    (records : List α) (f : α → β) (d : Nat)
    (hfetch : ∀ k : Nat, ∃ pg, fetch ((k : Int) + 1)
      = .ok { data := (pageOf records ((k : Int) + 1) (d : Int)).map f, pagination := pg })
    (totalPages : Nat) :
    concatPages fetch totalPages = .ok ((records.take (totalPages * d)).map f) := by
  unfold concatPages
  generalize hs : (fun (k : Nat) (rest : Except JsError (List β)) => do
      let r ← fetch ((k : Int) + 1)
      let tail ← rest
      pure (r.data ++ tail)) = step
  have hstep : ∀ (k : Nat) (rest : List β),
      step k (.ok rest) = .ok ((pageOf records ((k : Int) + 1) (d : Int)).map f ++ rest) := by
    intro k rest
    obtain ⟨pg, hk⟩ := hfetch k
    rw [← hs]
    simp [hk, bind, Except.bind, pure, Except.pure]
  have gen : ∀ (t : Nat) (rest : List β),
      (List.range t).foldr step (Except.ok rest)
        = .ok ((records.take (t * d)).map f ++ rest) := by
    intro t
    induction t with
    | zero => intro rest; simp
    | succ t ih =>
      intro rest
      rw [List.range_succ, List.foldr_append, List.foldr_cons, List.foldr_nil, hstep, ih,
        pageOf_succ, Nat.succ_mul, List.take_add]
      simp
  have := gen totalPages []
  simpa [pure, Except.pure] using this


theorem ceil_pages_cover (total : Nat) (limit : Int) (hl : 1 ≤ limit) :
    ∃ t d : Nat, limit = (d : Int) ∧ mathCeilDiv total limit = .fin (t : Int) ∧
      total ≤ t * d := by
  obtain ⟨d, rfl⟩ : ∃ d : ℕ, limit = (d : ℤ) := ⟨limit.toNat, (Int.toNat_of_nonneg (by omega)).symm⟩
  have hd : 0 < d := by omega
  have hpos : (0 : ℚ) < ((d : ℤ) : ℚ) := by exact_mod_cast hd
  have hceil := mathCeilDiv_eq_ceil total (d : ℤ) (by omega)
  have hnn : 0 ≤ ⌈(total : ℚ) / ((d : ℤ) : ℚ)⌉ :=
    Int.ceil_nonneg (div_nonneg (by positivity) hpos.le)
  obtain ⟨t, ht⟩ : ∃ t : ℕ, ⌈(total : ℚ) / ((d : ℤ) : ℚ)⌉ = (t : ℤ) :=
    ⟨_, (Int.toNat_of_nonneg hnn).symm⟩
  refine ⟨t, d, rfl, by rw [hceil, ht], ?_⟩
  have h1 : (total : ℚ) / ((d : ℤ) : ℚ) ≤ (t : ℚ) := by
    have := Int.le_ceil ((total : ℚ) / ((d : ℤ) : ℚ))
    rw [ht] at this
    exact_mod_cast this
  rw [div_le_iff₀ hpos] at h1
  exact_mod_cast h1

/-- C27 fails on the code for a filter that names an email and for a sort
key inherited from `Object.prototype`.  Under the email of `ann` the filter
selects `ann` alone, yet the two pages of `users` with limit 1, one after the
other, hold `bob` and `ann`; and with the sort key `constructor` page 1 is
not returned, the resolver fails with `SERVER_ERROR`. -/
theorem pages_hold_unselected_users :
    Example.store.users.filter (UserFilterInput.selects Example.env
        (some { firstName := none, lastName := none, gender := none,
                email := some "ann@example.org" })) = [Example.ann] ∧
    (concatPages (fun page => Resolvers.Query.users Example.env Example.store
          { page := some page, limit := some 1, sort := none,
            filter := some { firstName := none, lastName := none, gender := none,
                             email := some "ann@example.org" } } Example.ctx)
        2).toOption.map (fun all => all.map (fun v => v.doc))
      = some [Example.bob, Example.ann] ∧
    failureCode (Resolvers.Query.users Example.env Example.store
        { page := some 1, limit := some 1, sort := some "constructor", filter := none }
        Example.ctx) = some "SERVER_ERROR" := by
  decide

/-- C27, where the code meets it: for every store, filter, sort key that is
no name inherited from `Object.prototype` and `limit ≥ 1`, on a reachable
store that accepts the query (for `users`, a filter that gives no email):
every page `1, 2, ...` of `users` and of `posts` is returned with the same
`totalPages`, and the data of the pages `1, ..., totalPages` one after the
other are exactly the records the filter of the request selects, in sort
order (for `users` the stored user of each record, for `posts` the stored
post), which hold every selected record once. -/
theorem pages_concatenate (env : Env) (s : Store) (ctx : Context) :
    (∀ (args : ListArgs UserFilterInput) (p : User → Bool),
      ValidPage env UserModel s (usersQuery args.filter) p 1 (args.limit.getD 10) →
      ownSortKey args.sort = true →
      (∀ f, args.filter = some f → truthy f.email = false) →
      ∃ (totalPages : Nat) (all : List UserView),
        (∀ page : Int, 1 ≤ page →
          ∃ r, Resolvers.Query.users env s { args with page := some page } ctx = .ok r ∧
            r.pagination.totalPages = .fin (totalPages : Int)) ∧
        concatPages (fun page => Resolvers.Query.users env s { args with page := some page } ctx)
          totalPages = .ok all ∧
        all.map (fun v => v.doc) = Mongo.sort UserModel.sortKey
          (selectedSort sortOptions (args.sort.getD "registerDate_desc") ⟨.registerDate, false⟩)
          (s.users.filter (UserFilterInput.selects env args.filter)) ∧
        (all.map (fun v => v.doc)).Perm
          (s.users.filter (UserFilterInput.selects env args.filter))) ∧
    (∀ (args : ListArgs PostFilterInput) (p : Post → Bool),
      ValidPage env PostModel s (postsQuery env args.filter) p 1 (args.limit.getD 10) →
      ownSortKey args.sort = true →
      ∃ (totalPages : Nat) (all : List PostView),
        (∀ page : Int, 1 ≤ page →
          ∃ r, Resolvers.Query.posts env s { args with page := some page } ctx = .ok r ∧
            r.pagination.totalPages = .fin (totalPages : Int)) ∧
        concatPages (fun page => Resolvers.Query.posts env s { args with page := some page } ctx)
          totalPages = .ok all ∧
        all.map (fun v => v.doc.doc) = Mongo.sort PostModel.sortKey
          (selectedSort sortOptions (args.sort.getD "createdAt_desc") ⟨.publishDate, false⟩)
          (s.posts.filter (PostFilterInput.selects env args.filter)) ∧
        (all.map (fun v => v.doc.doc)).Perm
          (s.posts.filter (PostFilterInput.selects env args.filter))) := by
  constructor
  · intro args p h hsort hemail
    rw [← users_filter_selects env s args.filter p h.compiles hemail]
    obtain ⟨t, d, hd, hfin, hcover⟩ := ceil_pages_cover (s.users.filter p).length _ h.limit_pos
    have hpage : ∀ page : Int, 1 ≤ page →
        ValidPage env UserModel s (usersQuery ({ args with page := some page }).filter) p
          (({ args with page := some page } : ListArgs UserFilterInput).page.getD 1)
          (({ args with page := some page } : ListArgs UserFilterInput).limit.getD 10) :=
      fun page hp => ⟨hp, h.limit_pos, h.compiles, h.count_ok, h.find_ok⟩
    have hfetch : ∀ k : Nat, ∃ pg,
        (fun page => Resolvers.Query.users env s { args with page := some page } ctx)
            ((k : Int) + 1)
          = .ok { data := (pageOf (Mongo.sort UserModel.sortKey
                (selectedSort sortOptions (args.sort.getD "registerDate_desc") ⟨.registerDate, false⟩)
                (s.users.filter p)) ((k : Int) + 1) (d : Int)).map (fun user =>
                  { id := user._id
                    doc := user
                    gender := i18nextTOpt user.gender ctx.language
                    registerDate := formatDate env (some user.registerDate) ctx.language
                    email := if ctx.apiVersion == "2.0" then none else some user.email })
                  pagination := pg } := by
      intro k
      refine ⟨paginationBlock (s.users.filter p).length ((k : Int) + 1) (d : Int), ?_⟩
      show Resolvers.Query.users env s { args with page := some ((k : Int) + 1) } ctx = _
      rw [Resolvers.Query.users_eq env s _ ctx p (hpage _ (by omega)) hsort]
      simp only [Option.getD_some, hd]
    have hcat := concatPages_eq
      (fun page => Resolvers.Query.users env s { args with page := some page } ctx)
      _ _ d hfetch t
    refine ⟨t, _, ?_, hcat, ?_, ?_⟩
    · intro page hp
      refine ⟨_, Resolvers.Query.users_eq env s _ ctx p (hpage page hp) hsort, ?_⟩
      simpa [paginationBlock] using hfin
    · rw [List.map_map, List.take_of_length_le]
      · simp [Function.comp_def]
      · rw [(Mongo.sort_perm _ _ _).length_eq]
        exact hcover
    · rw [List.map_map, List.take_of_length_le]
      · simpa [Function.comp_def] using Mongo.sort_perm _ _ _
      · rw [(Mongo.sort_perm _ _ _).length_eq]
        exact hcover
  · intro args p h hsort
    rw [← posts_filter_selects env s args.filter p h.compiles]
    obtain ⟨t, d, hd, hfin, hcover⟩ := ceil_pages_cover (s.posts.filter p).length _ h.limit_pos
    have hpage : ∀ page : Int, 1 ≤ page →
        ValidPage env PostModel s (postsQuery env ({ args with page := some page }).filter) p
          (({ args with page := some page } : ListArgs PostFilterInput).page.getD 1)
          (({ args with page := some page } : ListArgs PostFilterInput).limit.getD 10) :=
      fun page hp => ⟨hp, h.limit_pos, h.compiles, h.count_ok, h.find_ok⟩
    have hfetch : ∀ k : Nat, ∃ pg,
        (fun page => Resolvers.Query.posts env s { args with page := some page } ctx)
            ((k : Int) + 1)
          = .ok { data := (pageOf (Mongo.sort PostModel.sortKey
                (selectedSort sortOptions (args.sort.getD "createdAt_desc") ⟨.publishDate, false⟩)
                (s.posts.filter p)) ((k : Int) + 1) (d : Int)).map (fun post =>
                  { id := post._id
                    doc := populatePost s post
                    publishDate := formatDate env (some post.publishDate) ctx.language })
                  pagination := pg } := by
      intro k
      refine ⟨paginationBlock (s.posts.filter p).length ((k : Int) + 1) (d : Int), ?_⟩
      show Resolvers.Query.posts env s { args with page := some ((k : Int) + 1) } ctx = _
      rw [Resolvers.Query.posts_eq env s _ ctx p (hpage _ (by omega)) hsort]
      simp only [Option.getD_some, hd]
    have hcat := concatPages_eq
      (fun page => Resolvers.Query.posts env s { args with page := some page } ctx)
      _ _ d hfetch t
    refine ⟨t, _, ?_, hcat, ?_, ?_⟩
    · intro page hp
      refine ⟨_, Resolvers.Query.posts_eq env s _ ctx p (hpage page hp) hsort, ?_⟩
      simpa [paginationBlock] using hfin
    · rw [List.map_map, List.take_of_length_le]
      · simp [Function.comp_def, populatePost]
      · rw [(Mongo.sort_perm _ _ _).length_eq]
        exact hcover
    · rw [List.map_map, List.take_of_length_le]
      · simpa [Function.comp_def, populatePost] using Mongo.sort_perm _ _ _
      · rw [(Mongo.sort_perm _ _ _).length_eq]
        exact hcover

/-- Witness of C27: the two stored users, one per page. -/
theorem pages_concatenate_witness :
    ∃ (totalPages : Nat) (all : List UserView),
      concatPages (fun page => Resolvers.Query.users Example.env Example.store
          { Example.pageArgs UserFilterInput 1 1 with page := some page } Example.ctx)
        totalPages = .ok all ∧
      all.map (fun v => v.doc) = [Example.bob, Example.ann] := by
  obtain ⟨totalPages, all, _, hcat, hall, _⟩ :=
    (pages_concatenate Example.env Example.store Example.ctx).1
      (Example.pageArgs UserFilterInput 1 1) (fun _ => true)
      ⟨by decide, by decide, rfl, rfl, rfl⟩ (by decide) (fun f hf => by cases hf)
  refine ⟨totalPages, all, hcat, hall.trans ?_⟩
  decide

/-! ## C23: the sort applied by the list resolvers -/

theorem sortOr_unrecognised (table : List (String × Mongo.SortSpec)) (key : String)
    (fallback : Mongo.SortSpec) (hk : key ∉ objectPrototypeNames)
    (h : ∀ e ∈ table, e.1 ≠ key) :
    sortOr table key fallback = .doc fallback := by
  have hfind : table.find? (fun p => p.1 == key) = none := by
    rw [List.find?_eq_none]
    intro e he
    simpa using h e he
  rw [sortOr_of_own table key fallback (by simpa using hk)]
  simp [selectedSort, hfind]

theorem sortOr_sortOptions (key : String) (spec fallback : Mongo.SortSpec)
    (h : (key, spec) ∈ sortOptions) : sortOr sortOptions key fallback = .doc spec := by
  simp only [sortOptions, List.mem_cons, Prod.mk.injEq, List.mem_singleton, List.not_mem_nil,
    or_false] at h
  rcases h with h | h | h | h | h | h <;> obtain ⟨rfl, rfl⟩ := h <;> rfl

theorem sortOr_postsByTagSortOptions (key : String) (spec fallback : Mongo.SortSpec)
    (h : (key, spec) ∈ postsByTagSortOptions) :
    sortOr postsByTagSortOptions key fallback = .doc spec := by
  simp only [postsByTagSortOptions, List.mem_cons, Prod.mk.injEq, List.mem_singleton,
    List.not_mem_nil, or_false] at h
  rcases h with h | h | h | h <;> obtain ⟨rfl, rfl⟩ := h <;> rfl

theorem insertionSort_of_forall {α : Type} (r : α → α → Prop) [DecidableRel r]
    (h : ∀ a b, r a b) (l : List α) : l.insertionSort r = l := by
  induction l with
  | nil => rfl
  | cons a l ih =>
    rw [List.insertionSort, ih]
    cases l with
    | nil => rfl
    | cons b l => simp [List.orderedInsert, h a b]


theorem Mongo.sort_missing_key {α : Type} (key : Mongo.SortField → α → Option Int)
    (spec : Mongo.SortSpec) (h : ∀ a, key spec.field a = none) (docs : List α) :
    Mongo.sort key spec docs = docs := by
  unfold Mongo.sort
  split <;> exact insertionSort_of_forall _ (fun a b => by simp [h, Mongo.keyLe]) _


set_option maxRecDepth 100000 in
/-- The failing input of C23: with no sort key the `posts` resolver reads the
key as `createdAt_desc`, an entry of the table, and sorts by `createdAt`,
which no stored post has, so the older post comes first; an unrecognised key
gives the most recent post first.  The `postsByTag` resolver falls back to
`createdAt` for an unrecognised key as well. -/
theorem posts_default_sort_is_createdAt :
    sortOr sortOptions ((none : Option String).getD "createdAt_desc") ⟨.publishDate, false⟩
        = .doc ⟨.createdAt, false⟩ ∧
      (Resolvers.Query.posts Example.env Example.twoPosts
          (Example.pageArgs PostFilterInput 1 10) Example.ctx).toOption.map
        (fun r => r.data.map (fun v => (v.doc.doc.text, v.doc.doc.publishDate)))
        = some [("Hello world", 1500), ("Later post", 2500)] ∧
      (Resolvers.Query.posts Example.env Example.twoPosts
          { Example.pageArgs PostFilterInput 1 10 with sort := some "newest" }
          Example.ctx).toOption.map
        (fun r => r.data.map (fun v => (v.doc.doc.text, v.doc.doc.publishDate)))
        = some [("Later post", 2500), ("Hello world", 1500)] ∧
      (Resolvers.Query.postsByTag Example.env Example.twoPosts "intro" (some 1) (some 10)
          (some "newest")).toOption.map
        (fun r => r.data.map (fun v => (v.doc.text, v.doc.publishDate)))
        = some [("Hello world", 1500), ("Later post", 2500)] := by
  decide

/-- C23 fails on the code for every resolver but `users`.  On a valid page
request whose sort key is no property name inherited from `Object.prototype`
each of `users`, `posts`, `commentsByPost`, `commentsByUser`, `postsByUser`
and `postsByTag` returns the page of the matching records sorted by the
document `table[sort] || fallback`, where an absent `sort` is first replaced
by the default key of the resolver.  With no sort key `users`
sorts by `registerDate` descending; the other resolvers read the key as
`createdAt_desc`, which for `posts`, the comment resolvers and `postsByUser`
is the table entry `createdAt` descending, not their fallback `publishDate`,
and for `postsByTag` is not in its local table (which has `created_desc`),
whose fallback is `createdAt` descending.  A key that is in no table, and
is no property name inherited from `Object.prototype`, selects the fallback:
`registerDate` descending for `users`, `publishDate` descending for `posts`,
the comment resolvers and `postsByUser`, `createdAt` descending for
`postsByTag`.  A recognised key selects its table entry.  No stored post or
comment has `createdAt`: sorting by it leaves the collection order. -/
theorem sort_resolution (env : Env) (s : Store) (ctx : Context) :
    (∀ (args : ListArgs UserFilterInput) (p : User → Bool),
      ValidPage env UserModel s (usersQuery args.filter) p (args.page.getD 1)
        (args.limit.getD 10) →
      ownSortKey args.sort = true →
      ∃ spec, sortOr sortOptions (args.sort.getD "registerDate_desc")
          ⟨.registerDate, false⟩ = .doc spec ∧
        ServesSorted (Resolvers.Query.users env s args ctx) (fun v => v.doc)
          (Mongo.sort UserModel.sortKey spec (s.users.filter p))
          (args.page.getD 1) (args.limit.getD 10)) ∧
    (∀ (args : ListArgs PostFilterInput) (p : Post → Bool),
      ValidPage env PostModel s (postsQuery env args.filter) p (args.page.getD 1)
        (args.limit.getD 10) →
      ownSortKey args.sort = true →
      ∃ spec, sortOr sortOptions (args.sort.getD "createdAt_desc")
          ⟨.publishDate, false⟩ = .doc spec ∧
        ServesSorted (Resolvers.Query.posts env s args ctx) (fun v => v.doc.doc)
          (Mongo.sort PostModel.sortKey spec (s.posts.filter p))
          (args.page.getD 1) (args.limit.getD 10)) ∧
    (∀ (postId : String) (args : ListArgs CommentFilterInput) (p : Comment → Bool),
      ValidPage env CommentModel s
        (.path "post" (.eq postId) :: commentsFilter env args.filter) p
        (args.page.getD 1) (args.limit.getD 10) →
      ownSortKey args.sort = true →
      ∃ spec, sortOr sortOptions (args.sort.getD "createdAt_desc")
          ⟨.publishDate, false⟩ = .doc spec ∧
        ServesSorted (Resolvers.Query.commentsByPost env s postId args) (fun v => v.doc)
          (Mongo.sort CommentModel.sortKey spec (s.comments.filter p))
          (args.page.getD 1) (args.limit.getD 10)) ∧
    (∀ (userId : String) (args : ListArgs CommentFilterInput) (p : Comment → Bool),
      ValidPage env CommentModel s
        (.path "owner" (.eq userId) :: commentsFilter env args.filter) p
        (args.page.getD 1) (args.limit.getD 10) →
      ownSortKey args.sort = true →
      ∃ spec, sortOr sortOptions (args.sort.getD "createdAt_desc")
          ⟨.publishDate, false⟩ = .doc spec ∧
        ServesSorted (Resolvers.Query.commentsByUser env s userId args) (fun v => v.doc)
          (Mongo.sort CommentModel.sortKey spec (s.comments.filter p))
          (args.page.getD 1) (args.limit.getD 10)) ∧
    (∀ (userId : String) (page limit : Option Int) (sort : Option String) (p : Post → Bool),
      ValidPage env PostModel s [.path "owner" (.eq userId)] p (page.getD 1) (limit.getD 10) →
      ownSortKey sort = true →
      ∃ spec, sortOr sortOptions (sort.getD "createdAt_desc") ⟨.publishDate, false⟩ = .doc spec ∧
        ServesSorted (Resolvers.Query.postsByUser env s userId page limit sort) (fun v => v.doc)
          (Mongo.sort PostModel.sortKey spec (s.posts.filter p)) (page.getD 1) (limit.getD 10)) ∧
    (∀ (tag : String) (page limit : Option Int) (sort : Option String) (p : Post → Bool),
      ValidPage env PostModel s [.path "tags" (.eq tag)] p (page.getD 1) (limit.getD 10) →
      ownSortKey sort = true →
      ∃ spec, sortOr postsByTagSortOptions (sort.getD "createdAt_desc")
          ⟨.createdAt, false⟩ = .doc spec ∧
        ServesSorted (Resolvers.Query.postsByTag env s tag page limit sort) (fun v => v.doc)
          (Mongo.sort PostModel.sortKey spec (s.posts.filter p)) (page.getD 1) (limit.getD 10)) ∧
    (sortOr sortOptions ((none : Option String).getD "registerDate_desc")
        ⟨.registerDate, false⟩ = .doc ⟨.registerDate, false⟩ ∧
      sortOr sortOptions ((none : Option String).getD "createdAt_desc")
        ⟨.publishDate, false⟩ = .doc ⟨.createdAt, false⟩ ∧
      sortOr postsByTagSortOptions ((none : Option String).getD "createdAt_desc")
        ⟨.createdAt, false⟩ = .doc ⟨.createdAt, false⟩) ∧
    (∀ (key defaultKey : String) (fallback : Mongo.SortSpec), key ∉ objectPrototypeNames →
      ((∀ e ∈ sortOptions, e.1 ≠ key) →
        sortOr sortOptions ((some key).getD defaultKey) fallback = .doc fallback) ∧
      ((∀ e ∈ postsByTagSortOptions, e.1 ≠ key) →
        sortOr postsByTagSortOptions ((some key).getD defaultKey) fallback = .doc fallback)) ∧
    (∀ (key defaultKey : String) (spec fallback : Mongo.SortSpec),
      ((key, spec) ∈ sortOptions →
        sortOr sortOptions ((some key).getD defaultKey) fallback = .doc spec) ∧
      ((key, spec) ∈ postsByTagSortOptions →
        sortOr postsByTagSortOptions ((some key).getD defaultKey) fallback = .doc spec)) ∧
    (∀ (ascending : Bool) (posts : List Post) (comments : List Comment),
      Mongo.sort PostModel.sortKey ⟨.createdAt, ascending⟩ posts = posts ∧
      Mongo.sort CommentModel.sortKey ⟨.createdAt, ascending⟩ comments = comments) := by
  refine ⟨?_, ?_, ?_, ?_, ?_, ?_, ⟨rfl, rfl, rfl⟩, ?_, ?_, ?_⟩
  · intro args p h hsort
    exact ⟨_, sortOr_of_ownSortKey _ _ _ _ (by decide) hsort,
      _, Resolvers.Query.users_eq env s args ctx p h hsort, by simp [Function.comp_def]⟩
  · intro args p h hsort
    exact ⟨_, sortOr_of_ownSortKey _ _ _ _ (by decide) hsort,
      _, Resolvers.Query.posts_eq env s args ctx p h hsort,
      by simp [Function.comp_def, populatePost]⟩
  · intro postId args p h hsort
    exact ⟨_, sortOr_of_ownSortKey _ _ _ _ (by decide) hsort,
      _, Resolvers.Query.commentsByPost_eq env s postId args p h hsort,
      by simp [Function.comp_def, populateComment]⟩
  · intro userId args p h hsort
    exact ⟨_, sortOr_of_ownSortKey _ _ _ _ (by decide) hsort,
      _, Resolvers.Query.commentsByUser_eq env s userId args p h hsort,
      by simp [Function.comp_def, populateComment]⟩
  · intro userId page limit sort p h hsort
    exact ⟨_, sortOr_of_ownSortKey _ _ _ _ (by decide) hsort,
      _, Resolvers.Query.postsByUser_eq env s userId page limit sort p h hsort,
      by simp [Function.comp_def, populatePost]⟩
  · intro tag page limit sort p h hsort
    exact ⟨_, sortOr_of_ownSortKey _ _ _ _ (by decide) hsort,
      _, Resolvers.Query.postsByTag_eq env s tag page limit sort p h hsort,
      by simp [Function.comp_def, populatePost]⟩
  · intro key defaultKey fallback hk
    exact ⟨sortOr_unrecognised _ _ _ hk, sortOr_unrecognised _ _ _ hk⟩
  · intro key defaultKey spec fallback
    exact ⟨sortOr_sortOptions _ _ _, sortOr_postsByTagSortOptions _ _ _⟩
  · intro ascending posts comments
    exact ⟨Mongo.sort_missing_key _ _ (fun _ => rfl) _,
      Mongo.sort_missing_key _ _ (fun _ => rfl) _⟩

set_option maxRecDepth 100000 in
/-- Witness of C23: the two stored posts sorted by `likes_desc`. -/
theorem sort_resolution_witness :
    ServesSorted (Resolvers.Query.posts Example.env Example.twoPosts
        { Example.pageArgs PostFilterInput 1 10 with sort := some "likes_desc" } Example.ctx)
      (fun v => v.doc.doc) [Example.hello, Example.later] 1 10 := by
  obtain ⟨spec, hspec, h⟩ := (sort_resolution Example.env Example.twoPosts Example.ctx).2.1
    { Example.pageArgs PostFilterInput 1 10 with sort := some "likes_desc" } (fun _ => true)
    ⟨by decide, by decide, rfl, rfl, rfl⟩ (by decide)
  have hlikes : spec = ⟨.likes, false⟩ := by
    have hdoc : Mongo.SortArg.doc spec = .doc ⟨.likes, false⟩ := hspec.symm.trans rfl
    exact Mongo.SortArg.doc.inj hdoc
  subst hlikes
  exact h

/-! ## C24: the tags of the stored posts -/

theorem uniqueOf_nil : uniqueOf [] = [] := rfl

theorem uniqueOf_append_singleton (l : List String) (x : String) :
    uniqueOf (l ++ [x]) = if x ∈ uniqueOf l then uniqueOf l else uniqueOf l ++ [x] := by
  simp [uniqueOf, List.foldl_append]

theorem mem_uniqueOf (l : List String) (t : String) : t ∈ uniqueOf l ↔ t ∈ l := by
  induction l using List.reverseRecOn with
  | nil => simp [uniqueOf_nil]
  | append_singleton l x ih =>
    rw [uniqueOf_append_singleton]
    by_cases hx : x ∈ uniqueOf l
    · rw [if_pos hx, ih, List.mem_append, List.mem_singleton]
      constructor
      · exact Or.inl
      · rintro (h | rfl)
        · exact h
        · exact ih.mp hx
    · rw [if_neg hx, List.mem_append, List.mem_append, ih]

theorem nodup_uniqueOf (l : List String) : (uniqueOf l).Nodup := by
  induction l using List.reverseRecOn with
  | nil => simp [uniqueOf_nil]
  | append_singleton l x ih =>
    rw [uniqueOf_append_singleton]
    by_cases hx : x ∈ uniqueOf l
    · rw [if_pos hx]; exact ih
    · rw [if_neg hx]
      exact List.Nodup.append ih (List.nodup_singleton x) (by simpa using hx)

theorem uniqueOf_first_occurrence (l : List String) :
    ((uniqueOf l).map (fun t => l.indexOf t)).Pairwise (· < ·) := by
  induction l using List.reverseRecOn with
  | nil => simp [uniqueOf_nil]
  | append_singleton l x ih =>
    have hmap : ∀ u : List String, (∀ t ∈ u, t ∈ l) →
        u.map (fun t => (l ++ [x]).indexOf t) = u.map (fun t => l.indexOf t) := by
      intro u hu
      apply List.map_congr_left
      intro t ht
      exact List.indexOf_append_of_mem (hu t ht)
    have hsub : ∀ t ∈ uniqueOf l, t ∈ l := fun t ht => (mem_uniqueOf l t).mp ht
    rw [uniqueOf_append_singleton]
    by_cases hx : x ∈ uniqueOf l
    · rw [if_pos hx, hmap _ hsub]; exact ih
    · rw [if_neg hx, List.map_append, hmap _ hsub, List.pairwise_append]
      refine ⟨ih, by simp, ?_⟩
      intro a ha b hb
      simp only [List.map_cons, List.map_nil, List.mem_singleton] at hb
      obtain ⟨t, ht, rfl⟩ := List.mem_map.mp ha
      have hxl : x ∉ l := fun h => hx ((mem_uniqueOf l x).mpr h)
      rw [hb, List.indexOf_append_of_not_mem hxl]
      have := List.indexOf_lt_length.mpr (hsub t ht)
      omega

theorem foldl_tags (posts : List Post) (acc : List String) :
    posts.foldl
        (fun allTags post => if post.tags.length > 0 then allTags ++ post.tags else allTags) acc
      = acc ++ posts.flatMap (fun post => post.tags) := by
  induction posts generalizing acc with
  | nil => simp
  | cons post posts ih =>
    rw [List.foldl_cons, ih]
    by_cases h : post.tags.length > 0
    · simp [h]
    · have : post.tags = [] := by
        cases ht : post.tags with
        | nil => rfl
        | cons a b => simp [ht] at h
      simp [this]

theorem Resolvers.Query.tags_eq (env : Env) (s : Store) (h : s.fault .find = none) :
    Resolvers.Query.tags env s
      = .ok (uniqueOf (s.posts.flatMap (fun post => post.tags))) := by
  simp [Resolvers.Query.tags, tryCatch, Mongo.findAll, Mongo.compile, Mongo.reach, h, bind,
    Except.bind, pure, Except.pure, PostModel_docs, foldl_tags]

/-- C24: for every store that can be read, the `tags` query returns a
sequence without duplicates whose elements are exactly the tags of the
stored posts (every tag of every post, and nothing else), in the order of
their first occurrence in the tag arrays of the posts, taken in the order of
the collection. -/
theorem tags_distinct_union (env : Env) (s : Store) (h : s.fault .find = none) :
    ∃ tags, Resolvers.Query.tags env s = .ok tags ∧
      tags.Nodup ∧
      (∀ t, t ∈ tags ↔ ∃ post ∈ s.posts, t ∈ post.tags) ∧
      (tags.map (fun t => (s.posts.flatMap (fun post => post.tags)).indexOf t)).Pairwise
        (· < ·) := by
  refine ⟨_, Resolvers.Query.tags_eq env s h, nodup_uniqueOf _, ?_,
    uniqueOf_first_occurrence _⟩
  intro t
  rw [mem_uniqueOf, List.mem_flatMap]

/-- Witness of C24: the store with the posts tagged `intro` and `news`, `intro`. -/
theorem tags_distinct_union_witness :
    ∃ tags, Resolvers.Query.tags Example.env Example.twoPosts = .ok tags ∧
      tags.Nodup ∧
      (∀ t, t ∈ tags ↔ ∃ post ∈ Example.twoPosts.posts, t ∈ post.tags) ∧
      (tags.map (fun t =>
        (Example.twoPosts.posts.flatMap (fun post => post.tags)).indexOf t)).Pairwise
        (· < ·) :=
  tags_distinct_union Example.env Example.twoPosts rfl

/-! ## C28: the hash of `generateETag` is a polynomial hash -/

theorem hashStep_eq (hash : Int) (c : Nat) : hashStep hash c = toInt32 (31 * hash + (c : Int)) := by
  unfold hashStep toInt32
  omega

theorem hashStep_toInt32 (h : Int) (c : Nat) :
    hashStep (toInt32 h) c = toInt32 (31 * h + (c : Int)) := by
  unfold hashStep toInt32
  omega

theorem foldl_hashStep_poly (units : List Nat) : ∀ h : Int,
    units.foldl hashStep (toInt32 h) = toInt32 (h * 31 ^ units.length + polyHash units) := by
  induction units with
  | nil => intro h; simp [polyHash]
  | cons c rest ih =>
    intro h
    rw [List.foldl_cons, hashStep_toInt32, ih]
    congr 1
    simp only [polyHash, List.length_cons]
    ring

theorem hashOf_eq_polyHash (str : String) : hashOf str = toInt32 (polyHash (utf16 str)) := by
  have h0 : (0 : Int) = toInt32 0 := by decide
  have := foldl_hashStep_poly (utf16 str) 0
  rw [← h0] at this
  simpa [hashOf] using this

theorem toInt32_mod (x : Int) : (toInt32 x - x) % 4294967296 = 0 := by
  unfold toInt32
  omega

/-- C28: each turn of the loop of `generateETag` is
`hash := (31 * hash + c)` wrapped to a signed 32-bit integer (the value in
`[-2^31, 2^31)` congruent modulo `2^32`); for every body the hash of the
serialisation `c_0 .. c_{n-1}` is the polynomial hash, the sum of
`c_i * 31^(n-1-i)`, wrapped to a signed 32-bit integer; for a truthy body
the tag is that number in base 16 between double quotes, with a leading `-`
when it is negative; for a falsy body the tag is the empty string. -/
theorem generateETag_polynomial (body : JsValue) :
    (∀ (hash : Int) (c : Nat), hashStep hash c = toInt32 (31 * hash + (c : Int))) ∧
    (∀ x : Int, -2147483648 ≤ toInt32 x ∧ toInt32 x < 2147483648 ∧
      (toInt32 x - x) % 4294967296 = 0) ∧
    hashOf (jsonStringify body) = toInt32 (polyHash (utf16 (jsonStringify body))) ∧
    (body.truthy = true → ∃ digits : List Nat, digits ≠ [] ∧ (∀ d ∈ digits, d < 16) ∧
      Nat.ofDigits 16 digits.reverse
        = (toInt32 (polyHash (utf16 (jsonStringify body)))).natAbs ∧
      generateETag body = String.mk ('"' ::
        (if toInt32 (polyHash (utf16 (jsonStringify body))) < 0 then ['-'] else [])
          ++ digits.map Nat.digitChar ++ ['"'])) ∧
    (body.truthy = false → generateETag body = "") := by
  refine ⟨hashStep_eq, fun x => ⟨(toInt32_range x).1, (toInt32_range x).2, toInt32_mod x⟩,
    hashOf_eq_polyHash _, ?_, generateETag_falsy body⟩
  intro h
  obtain ⟨ds, hne, hlt, hds, hval⟩ :=
    natDigits_spec (toInt32 (polyHash (utf16 (jsonStringify body)))).natAbs
  refine ⟨ds, hne, hlt, hval, ?_⟩
  rw [generateETag_truthy body h, hashOf_eq_polyHash, intToString]
  by_cases hneg : toInt32 (polyHash (utf16 (jsonStringify body))) < 0 <;> simp [hneg, hds]

set_option maxRecDepth 100000 in
/-- Witness of C28: the body `\x7b\x7d`, of code units 123 and 125. -/
theorem generateETag_polynomial_witness :
    hashOf (jsonStringify (.obj .nil)) = 123 * 31 + 125 :=
  (generateETag_polynomial (.obj .nil)).2.2.1.trans (by decide)

/-! ## C29: `isValidEmail` -/

theorem regexMatch_nil (input : List Char) : regexMatch [] input = true ↔ input = [] := by
  cases input <;> simp [regexMatch]

theorem regexMatch_lit (c : Char) (rest : List RegexItem) (input : List Char) :
    regexMatch (.lit c :: rest) input = true
      ↔ ∃ tail, input = c :: tail ∧ regexMatch rest tail = true := by
  cases input with
  | nil => simp [regexMatch]
  | cons x xs =>
    simp only [regexMatch, Bool.and_eq_true, beq_iff_eq, List.cons.injEq]
    constructor
    · rintro ⟨rfl, h⟩
      exact ⟨xs, ⟨rfl, rfl⟩, h⟩
    · rintro ⟨tail, ⟨rfl, rfl⟩, h⟩
      exact ⟨rfl, h⟩

theorem regexMatch_plus (cls : Char → Bool) (rest : List RegexItem) (input : List Char) :
    regexMatch (.plus cls :: rest) input = true
      ↔ ∃ a b, input = a ++ b ∧ a ≠ [] ∧ (∀ x ∈ a, cls x = true) ∧
          regexMatch rest b = true := by
  induction input with
  | nil => simp [regexMatch]
  | cons x xs ih =>
    simp only [regexMatch, Bool.and_eq_true, Bool.or_eq_true, ih]
    constructor
    · rintro ⟨hx, h | ⟨a, b, rfl, _, ha, hb⟩⟩
      · exact ⟨[x], xs, rfl, by simp, by simpa using hx, h⟩
      · refine ⟨x :: a, b, rfl, by simp, ?_, hb⟩
        intro y hy
        rcases List.mem_cons.mp hy with rfl | hy
        · exact hx
        · exact ha y hy
    · rintro ⟨a, b, hab, hne, ha, hb⟩
      cases a with
      | nil => exact absurd rfl hne
      | cons y a =>
        simp only [List.cons_append, List.cons.injEq] at hab
        obtain ⟨rfl, rfl⟩ := hab
        refine ⟨ha x (by simp), ?_⟩
        cases a with
        | nil => exact Or.inl hb
        | cons z a =>
          exact Or.inr ⟨z :: a, b, rfl, by simp, fun w hw => ha w (by simp [hw]), hb⟩

theorem isValidEmail_iff_parts (s : String) :
    isValidEmail s = true ↔ ∃ a b c : List Char, s.toList = a ++ '@' :: (b ++ '.' :: c) ∧
      a ≠ [] ∧ b ≠ [] ∧ c ≠ [] ∧ (∀ x ∈ a, notSpaceOrAt x = true) ∧
      (∀ x ∈ b, notSpaceOrAt x = true) ∧ (∀ x ∈ c, notSpaceOrAt x = true) := by
  simp only [isValidEmail, regexMatch_plus, regexMatch_lit, regexMatch_nil]
  constructor
  · rintro ⟨a, r1, h1, ha, hca, t1, rfl, b, r2, rfl, hb, hcb, t2, rfl, c, r3, rfl, hc, hcc, rfl⟩
    exact ⟨a, b, c, by simpa using h1, ha, hb, hc, hca, hcb, hcc⟩
  · rintro ⟨a, b, c, h, ha, hb, hc, hca, hcb, hcc⟩
    exact ⟨a, _, h, ha, hca, _, rfl, b, _, rfl, hb, hcb, _, rfl, c, [], by simp, hc, hcc, rfl⟩

theorem notSpaceOrAt_iff (x : Char) :
    notSpaceOrAt x = true ↔ isJsWhitespace x = false ∧ x ≠ '@' := by
  simp [notSpaceOrAt]


theorem isValidEmail_iff_wellFormed (s : String) :
    isValidEmail s = true ↔ EmailWellFormed s := by
  have hat : isJsWhitespace '@' = false := by decide
  have hdot : isJsWhitespace '.' = false := by decide
  have hdotat : ('.' : Char) ≠ '@' := by decide
  rw [isValidEmail_iff_parts]
  constructor
  · rintro ⟨a, b, c, h, ha, hb, hc, hca, hcb, hcc⟩
    have na : ∀ x ∈ a, x ≠ '@' := fun x hx => ((notSpaceOrAt_iff x).mp (hca x hx)).2
    have nb : ∀ x ∈ b, x ≠ '@' := fun x hx => ((notSpaceOrAt_iff x).mp (hcb x hx)).2
    have nc : ∀ x ∈ c, x ≠ '@' := fun x hx => ((notSpaceOrAt_iff x).mp (hcc x hx)).2
    refine ⟨?_, ?_, a, b ++ '.' :: c, h, ha, b, c, rfl, hb, hc⟩
    · intro x hx
      rw [h] at hx
      simp only [List.mem_append, List.mem_cons] at hx
      rcases hx with hx | rfl | hx | rfl | hx
      · exact ((notSpaceOrAt_iff x).mp (hca x hx)).1
      · exact hat
      · exact ((notSpaceOrAt_iff x).mp (hcb x hx)).1
      · exact hdot
      · exact ((notSpaceOrAt_iff x).mp (hcc x hx)).1
    · rw [h]
      have ca : a.count '@' = 0 := List.count_eq_zero.mpr (fun hm => na _ hm rfl)
      have cb : b.count '@' = 0 := List.count_eq_zero.mpr (fun hm => nb _ hm rfl)
      have cc : c.count '@' = 0 := List.count_eq_zero.mpr (fun hm => nc _ hm rfl)
      simp [List.count_append, List.count_cons, ca, cb, cc, hdotat]
  · rintro ⟨hws, hcount, a, after, h, ha, b, c, rfl, hb, hc⟩
    rw [h] at hcount
    simp only [List.count_append, List.count_cons, beq_self_eq_true, if_true] at hcount
    have hd : (('.' : Char) == '@') = false := by decide
    simp only [hd, Bool.false_eq_true, if_false] at hcount
    have ca : a.count '@' = 0 := by omega
    have cb : b.count '@' = 0 := by omega
    have cc : c.count '@' = 0 := by omega
    have mk : ∀ l : List Char, l.count '@' = 0 → (∀ x ∈ l, x ∈ s.toList) →
        ∀ x ∈ l, notSpaceOrAt x = true := by
      intro l hl hsub x hx
      rw [notSpaceOrAt_iff]
      refine ⟨hws x (hsub x hx), ?_⟩
      rintro rfl
      exact List.count_eq_zero.mp hl hx
    refine ⟨a, b, c, h, ha, hb, hc, mk a ca ?_, mk b cb ?_, mk c cc ?_⟩ <;>
      intro x hx <;> rw [h] <;> simp [hx]

/-- C29: for every string `s`, `isValidEmail(s)` is true if and only if `s`
has no white space, exactly one `@` with at least one character before it,
and after the `@` a `.` with at least one character before it and at least
one after it.  In `createUser` of `resolvers.js` a payload whose email fails
the test is refused with `BODY_NOT_VALID`, whatever the store and without a
change of it: with the invalid-email message when the three required fields
are present, with the missing-fields message otherwise. -/
theorem email_validation (s : String) :
    (isValidEmail s = true ↔ EmailWellFormed s) ∧
    (∀ (env : Env) (store : Store) (input : UserInput) (ctx : Context) (oid : String)
        (now : Int),
      input.email.getD "" = s → isValidEmail s = false →
      (∃ e, (∀ store' : Store, Resolvers.Mutation.createUser env store' input ctx oid now
            = (.error e, store')) ∧
          e.taxonomyCode = some "BODY_NOT_VALID") ∧
      (truthy input.firstName = true → truthy input.lastName = true →
        truthy input.email = true →
        Resolvers.Mutation.createUser env store input ctx oid now
          = (.error (mkError .BodyNotValidError
              (i18nextT "invalidEmailFormat" ctx.language [])), store))) := by
  refine ⟨isValidEmail_iff_wellFormed s, ?_⟩
  intro env store input ctx oid now hs hbad
  have hbad' : isValidEmail (input.email.getD "") = false := by rw [hs]; exact hbad
  constructor
  · by_cases hreq : truthy input.firstName = true ∧ truthy input.lastName = true ∧
        truthy input.email = true
    · obtain ⟨h1, h2, h3⟩ := hreq
      refine ⟨mkError .BodyNotValidError (i18nextT "invalidEmailFormat" ctx.language []),
        ?_, rfl⟩
      intro store'
      simp [Resolvers.Mutation.createUser, tryCatchWrite, h1, h2, h3, hbad', bind, Except.bind,
        pure, Except.pure, mkError, GraphQLError.new, JsError.instanceOf, throw, throwThe,
        MonadExceptOf.throw]
    · refine ⟨mkError .BodyNotValidError (i18nextT "missingRequiredFields" ctx.language
        [("fields", "firstName, lastName, email")]), ?_, rfl⟩
      intro store'
      have hor : (!truthy input.firstName || !truthy input.lastName || !truthy input.email)
          = true := by
        cases h1 : truthy input.firstName <;> cases h2 : truthy input.lastName <;>
          cases h3 : truthy input.email <;> simp_all
      simp [Resolvers.Mutation.createUser, tryCatchWrite, hor, bind, Except.bind,
        pure, Except.pure, mkError, GraphQLError.new, JsError.instanceOf, throw, throwThe,
        MonadExceptOf.throw]
  · intro h1 h2 h3
    simp [Resolvers.Mutation.createUser, tryCatchWrite, h1, h2, h3, hbad', bind, Except.bind,
      pure, Except.pure, mkError, GraphQLError.new, JsError.instanceOf, throw, throwThe,
      MonadExceptOf.throw]

set_option maxRecDepth 100000 in
/-- Witness of C29: the payload of `carol` with an email without `@`. -/
theorem email_validation_witness :
    Resolvers.Mutation.createUser Example.env Example.store
        { Example.carol none with email := some "carol.example.org" } Example.ctx
        "0123456789abcdef01234569" 3000
      = (.error (mkError .BodyNotValidError (i18nextT "invalidEmailFormat" "en" [])),
          Example.store) :=
  ((email_validation "carol.example.org").2 Example.env Example.store
    { Example.carol none with email := some "carol.example.org" } Example.ctx
    "0123456789abcdef01234569" 3000 rfl (by decide)).2 rfl rfl rfl

/-! ## C21: the classification of a request by the compression filter -/

theorem not_query_of_mutation (text : String) (h : jsStartsWith "mutation" text = true) :
    jsStartsWith "query" text = false := by
  have hm : ("mutation" : String).toList = 'm' :: "utation".toList := rfl
  have hq : ("query" : String).toList = 'q' :: "uery".toList := rfl
  unfold jsStartsWith at *
  rw [hm] at h
  rw [hq]
  cases hl : text.toList with
  | nil => rfl
  | cons c rest =>
    rw [hl] at h
    simp only [List.isPrefixOf, Bool.and_eq_true, beq_iff_eq] at h
    have hc : ('q' == c) = false := by
      rw [← h.1]
      decide
    simp [List.isPrefixOf, hc]

/-- C21, as stated, fails: a request whose query text starts with `query`
and whose operation name contains `mutation` is classified as a query by
the filter, and as a mutation by the rule of the specification. -/
theorem query_keyword_wins :
    isQuery { query := some "query Audit \x7b log \x7d", operationName := some "GetMutationLog" }
        = true ∧
      isMutationAsSpecified
        { query := some "query Audit \x7b log \x7d", operationName := some "GetMutationLog" }
        = true := by
  decide

/-- C21 (amended): for every request body, with `q` the trimmed query text
(empty when absent) and `n` the lower-cased operation name (empty when
absent): the filter classifies the request as a mutation exactly when `q`
does not start with `query` and either `q` starts with `mutation` or `n`
contains `mutation`, and as a query in every other case.  So a text that
starts with `query` is a query whatever the operation name, a text that
starts with `mutation` is a mutation, and for a text that does not start
with `query` the classification is the one of the specification. -/
theorem isQuery_classification (body : RequestBody) :
    (isQuery body = false ↔
      jsStartsWith "query" (jsTrim ((orTruthy body.query (some "")).getD "")) = false ∧
      (jsStartsWith "mutation" (jsTrim ((orTruthy body.query (some "")).getD "")) = true ∨
        jsIncludes "mutation"
          (jsToLowerCase ((orTruthy body.operationName (some "")).getD "")) = true)) ∧
    (jsStartsWith "query" (jsTrim ((orTruthy body.query (some "")).getD "")) = true →
      isQuery body = true) ∧
    (jsStartsWith "mutation" (jsTrim ((orTruthy body.query (some "")).getD "")) = true →
      isQuery body = false) ∧
    (jsStartsWith "query" (jsTrim ((orTruthy body.query (some "")).getD "")) = false →
      (isQuery body = false ↔ isMutationAsSpecified body = true)) := by
  have hx := not_query_of_mutation (jsTrim ((orTruthy body.query (some "")).getD ""))
  simp only [isQuery, isMutationAsSpecified]
  cases h1 : jsStartsWith "query" (jsTrim ((orTruthy body.query (some "")).getD "")) <;>
    cases h2 : jsStartsWith "mutation" (jsTrim ((orTruthy body.query (some "")).getD "")) <;>
    cases h3 : jsIncludes "mutation"
      (jsToLowerCase ((orTruthy body.operationName (some "")).getD "")) <;>
    simp_all

/-- Witness of C21 (amended): a mutation text with leading blanks. -/
theorem isQuery_classification_witness :
    isQuery { query := some "  mutation AddPost \x7b id \x7d", operationName := none } = false :=
  (isQuery_classification
    { query := some "  mutation AddPost \x7b id \x7d", operationName := none }).2.2.1
    (by decide)

/-! ## C22: the requests eligible for compression -/

/-- C22, as stated, fails: the filter does not read the outcome of the
operation, a query whose response carries an error is eligible. -/
theorem query_with_errors_is_eligible :
    compressionFilter (fun _ => false) "POST"
        (some { query := some "query \x7b user(id: 1) \x7b id \x7d \x7d", operationName := none })
        ({ http := none, body := Example.failedBody } : Response)
      = true := by
  decide

/-- C22 (amended): for every request with a parsed body, the filter returns
true exactly when the method is not `OPTIONS` and the request is classified
as a query; an `OPTIONS` request and a mutation are never eligible; the
response is not consulted, so the result is the same for a response with
errors and for one without. -/
theorem compressionFilter_eligible {Res : Type} (defaultFilter : Res → Bool)
    (method : String) (body : RequestBody) (res : Res) :
    (compressionFilter defaultFilter method (some body) res = true ↔
      method ≠ "OPTIONS" ∧ isQuery body = true) ∧
    (∀ anyBody, compressionFilter defaultFilter "OPTIONS" anyBody res = false) ∧
    (isQuery body = false → compressionFilter defaultFilter method (some body) res = false) ∧
    (∀ other : Res, compressionFilter defaultFilter method (some body) other
      = compressionFilter defaultFilter method (some body) res) := by
  refine ⟨?_, ?_, ?_, ?_⟩
  · by_cases hm : method = "OPTIONS" <;> simp [compressionFilter, hm]
  · intro anyBody
    simp [compressionFilter]
  · intro h
    by_cases hm : method = "OPTIONS" <;> simp [compressionFilter, hm, h]
  · intro other
    rfl

/-- Witness of C22 (amended): a mutation sent with `POST`. -/
theorem compressionFilter_eligible_witness :
    compressionFilter (fun _ : Response => true) "POST"
        (some { query := some "mutation \x7b deleteUser(id: 1) \x7d", operationName := none })
        { http := none, body := .null } = false :=
  (compressionFilter_eligible (fun _ : Response => true) "POST"
    { query := some "mutation \x7b deleteUser(id: 1) \x7d", operationName := none }
    { http := none, body := .null }).2.2.1 (by decide)

/-! ## Lemmas on `Array.prototype.sort` -/

theorem jsFloat_sub_isPositive (a b : JsFloat) (ha : a ≠ .nan) (hb : b ≠ .nan) :
    (b.sub a).isPositive = false ↔ JsFloat.le b a = true := by
  cases a <;> cases b <;> simp_all [JsFloat.sub, JsFloat.isPositive, JsFloat.le]

theorem jsFloat_le_total (a b : JsFloat) (ha : a ≠ .nan) (hb : b ≠ .nan) :
    JsFloat.le a b = true ∨ JsFloat.le b a = true := by
  cases a <;> cases b <;> simp_all [JsFloat.le]
  exact le_total _ _

theorem jsFloat_le_trans (a b c : JsFloat) (h1 : JsFloat.le a b = true)
    (h2 : JsFloat.le b c = true) : JsFloat.le a c = true := by
  cases a <;> cases b <;> cases c <;> simp_all [JsFloat.le]
  exact le_trans h1 h2


theorem mem_orderedInsert_iff {α : Type} (r : α → α → Prop) [DecidableRel r] (a x : α)
    (l : List α) : x ∈ l.orderedInsert r a ↔ x = a ∨ x ∈ l :=
  (List.perm_orderedInsert r a l).mem_iff.trans List.mem_cons

theorem mem_arraySort {α : Type} (compareFn : α → α → JsFloat) (array : List α) (x : α) :
    x ∈ arraySort compareFn array ↔ x ∈ array :=
  (List.perm_insertionSort _ array).mem_iff

theorem arraySort_perm {α : Type} (compareFn : α → α → JsFloat) (array : List α) :
    (arraySort compareFn array).Perm array :=
  List.perm_insertionSort _ array

/-- Insertion keeps a list in non-increasing order of quality. -/
theorem orderedInsert_byQuality (a : EncodingEntry) (l : List EncodingEntry)
    (ha : a.quality ≠ .nan) (hl : ∀ e ∈ l, e.quality ≠ .nan)
    (hs : l.Pairwise (fun x y => JsFloat.le y.quality x.quality = true)) :
    (l.orderedInsert (fun x y => (y.quality.sub x.quality).isPositive = false) a).Pairwise
      (fun x y => JsFloat.le y.quality x.quality = true) := by
  induction l with
  | nil => simp
  | cons b l ih =>
    have hb : b.quality ≠ .nan := hl b (by simp)
    rw [List.pairwise_cons] at hs
    by_cases hr : (b.quality.sub a.quality).isPositive = false
    · rw [List.orderedInsert, if_pos hr]
      have hab : JsFloat.le b.quality a.quality = true :=
        (jsFloat_sub_isPositive a.quality b.quality ha hb).mp hr
      refine List.pairwise_cons.mpr ⟨?_, List.pairwise_cons.mpr hs⟩
      intro y hy
      rcases List.mem_cons.mp hy with rfl | hy
      · exact hab
      · exact jsFloat_le_trans _ _ _ (hs.1 y hy) hab
    · rw [List.orderedInsert, if_neg hr]
      have hba : JsFloat.le a.quality b.quality = true := by
        rcases jsFloat_le_total a.quality b.quality ha hb with h | h
        · exact h
        · exact absurd ((jsFloat_sub_isPositive a.quality b.quality ha hb).mpr h) hr
      refine List.pairwise_cons.mpr ⟨?_, ih (fun e he => hl e (by simp [he])) hs.2⟩
      intro y hy
      rcases (mem_orderedInsert_iff _ a y l).mp hy with rfl | hy
      · exact hba
      · exact hs.1 y hy

theorem arraySort_byQuality (l : List EncodingEntry) (hl : ∀ e ∈ l, e.quality ≠ .nan) :
    (arraySort (fun a b => b.quality.sub a.quality) l).Pairwise
      (fun x y => JsFloat.le y.quality x.quality = true) := by
  induction l with
  | nil => simp [arraySort]
  | cons a l ih =>
    have hl' : ∀ e ∈ l, e.quality ≠ .nan := fun e he => hl e (by simp [he])
    exact orderedInsert_byQuality a _ (hl a (by simp))
      (fun e he => hl' e ((mem_arraySort _ l e).mp he)) (ih hl')

/-- Insertion does not move an entry past one of the same quality. -/
theorem orderedInsert_filter_quality (a : EncodingEntry) (l : List EncodingEntry)
    (q : JsFloat) :
    (l.orderedInsert (fun x y => (y.quality.sub x.quality).isPositive = false) a).filter
        (fun e => decide (e.quality = q))
      = (a :: l).filter (fun e => decide (e.quality = q)) := by
  induction l with
  | nil => simp
  | cons b l ih =>
    by_cases hr : (b.quality.sub a.quality).isPositive = false
    · rw [List.orderedInsert, if_pos hr]
    · rw [List.orderedInsert, if_neg hr, List.filter_cons, ih]
      by_cases ha : a.quality = q
      · have hb : b.quality ≠ q := by
          intro hb
          apply hr
          rw [ha, hb]
          cases q <;> simp_all [JsFloat.sub, JsFloat.isPositive]
        simp [ha, hb]
      · by_cases hb : b.quality = q <;> simp [ha, hb]

theorem arraySort_stable (l : List EncodingEntry) (q : JsFloat) :
    (arraySort (fun a b => b.quality.sub a.quality) l).filter (fun e => decide (e.quality = q))
      = l.filter (fun e => decide (e.quality = q)) := by
  induction l with
  | nil => simp [arraySort]
  | cons a l ih =>
    have := orderedInsert_filter_quality a
      (arraySort (fun a b => b.quality.sub a.quality) l) q
    simp only [arraySort, List.insertionSort] at this ih ⊢
    rw [this, List.filter_cons, List.filter_cons, ih]

theorem parseEncodingItem_quality_ne_nan (parseFloat : String → JsFloat) (item : String) :
    (parseEncodingItem parseFloat item).quality ≠ .nan := by
  simp only [parseEncodingItem]
  split
  · split
    · simp
    · rename_i h
      intro hn
      rw [hn] at h
      exact h rfl
  · simp


/-! ## Lemmas on `split` -/

theorem jsSplitChars_ne_nil (sep : Char) (l : List Char) : jsSplitChars sep l ≠ [] := by
  cases l with
  | nil => simp [jsSplitChars]
  | cons c rest =>
    simp only [jsSplitChars]
    split
    · simp
    · split <;> simp

theorem jsSplitChars_head (sep : Char) (l : List Char) :
    (jsSplitChars sep l).headD [] = l.takeWhile (fun c => c != sep) := by
  induction l with
  | nil => simp [jsSplitChars]
  | cons c rest ih =>
    simp only [jsSplitChars]
    by_cases hc : c = sep
    · simp [hc]
    · rw [if_neg hc]
      have hne : (c != sep) = true := by simpa using hc
      rw [List.takeWhile_cons, hne, if_pos rfl, ← ih]
      cases h : jsSplitChars sep rest with
      | nil => exact absurd h (jsSplitChars_ne_nil sep rest)
      | cons piece pieces => simp

theorem jsSplitChars_join (sep : Char) (l : List Char) :
    List.intercalate [sep] (jsSplitChars sep l) = l ∧
      ∀ piece ∈ jsSplitChars sep l, sep ∉ piece := by
  induction l with
  | nil => simp [jsSplitChars, List.intercalate]
  | cons c rest ih =>
    simp only [jsSplitChars]
    cases h : jsSplitChars sep rest with
    | nil => exact absurd h (jsSplitChars_ne_nil sep rest)
    | cons piece pieces =>
      rw [h] at ih
      by_cases hc : c = sep
      · subst hc
        rw [if_pos rfl]
        refine ⟨?_, ?_⟩
        · have := ih.1
          simp only [List.intercalate, List.intersperse_cons_cons, List.flatten_cons,
            List.nil_append, List.singleton_append] at this ⊢
          rw [this]
        · intro p hp
          rcases List.mem_cons.mp hp with rfl | hp
          · simp
          · exact ih.2 p hp
      · rw [if_neg hc]
        refine ⟨?_, ?_⟩
        · have := ih.1
          cases pieces with
          | nil =>
            simp only [List.intercalate, List.intersperse_singleton, List.flatten_cons,
              List.flatten_nil, List.append_nil] at this ⊢
            rw [this]
          | cons p2 ps =>
            simp only [List.intercalate, List.intersperse_cons_cons, List.flatten_cons] at this ⊢
            rw [List.cons_append, this]
        · intro p hp
          rcases List.mem_cons.mp hp with rfl | hp
          · intro hmem
            rcases List.mem_cons.mp hmem with h1 | h1
            · exact hc h1.symm
            · exact ih.2 piece (by simp) h1
          · exact ih.2 p (by simp [hp])

theorem jsSplit_head (sep : Char) (s : String) :
    (jsSplit sep s).headD "" = String.mk (s.toList.takeWhile (fun c => c != sep)) := by
  have h := jsSplitChars_head sep s.toList
  cases hs : jsSplitChars sep s.toList with
  | nil => exact absurd hs (jsSplitChars_ne_nil sep _)
  | cons piece pieces =>
    rw [hs] at h
    simp only [List.headD_cons] at h
    have hs2 : jsSplitChars sep s.data = piece :: pieces := hs
    have h2 : piece = List.takeWhile (fun c => c != sep) s.data := h
    simp [jsSplit, hs2, h2]


theorem truthy_of_startsWith_q (weight : String) (hq : jsStartsWith "q=" weight = true) :
    truthy (some weight) = true := by
  cases hwl : weight.toList with
  | nil =>
    have : weight = "" := String.ext hwl
    subst this
    exact absurd hq (by decide)
  | cons c cs =>
    have : weight ≠ "" := by
      intro h0
      rw [h0] at hwl
      exact absurd hwl (by simp)
    simp [truthy, this]

theorem parseEncodingItem_quality_asSpecified (parseFloat : String → JsFloat) (item : String)
    (h : jsStartsWith "q=" ((((jsSplit ';' (jsTrim item)).map jsTrim).get? 1).getD "") = true ∨
      weightParameter item = none) :
    (parseEncodingItem parseFloat item).quality = qualityAsSpecified parseFloat item := by
  unfold qualityAsSpecified
  simp only [parseEncodingItem]
  have hdrop : ∀ parts : List String, parts.drop 1 = match parts.get? 1 with
      | none => []
      | some w => w :: parts.drop 2 := by
    intro parts
    match parts with
    | [] => rfl
    | [_] => rfl
    | _ :: _ :: _ => rfl
  cases hw : ((jsSplit ';' (jsTrim item)).map jsTrim).get? 1 with
  | none =>
    have hnone : weightParameter item = none := by
      unfold weightParameter
      rw [hdrop, hw]
      rfl
    simp [hnone, truthy]
  | some w =>
    rw [hw] at h
    simp only [Option.getD_some] at h
    cases hq : jsStartsWith "q=" w with
    | true =>
      have hsome : weightParameter item = some w := by
        unfold weightParameter
        rw [hdrop, hw]
        simp [List.find?_cons, hq]
      simp [hsome, truthy_of_startsWith_q w hq, hq]
    | false =>
      rw [hq] at h
      have hnone : weightParameter item = none := by
        rcases h with h | h
        · exact absurd h (by simp)
        · exact h
      simp [hnone, hq]

/-! ## C25: the entries of `parseAcceptEncoding` -/

/-- C25, as stated, fails: the item `gzip;level=1;q=0.5` has the weight
parameter `q=0.5`, whose number is 0.5, yet its entry has quality 1; only
the first parameter of an item is read. -/
theorem later_weight_is_not_read :
    weightParameter "gzip;level=1;q=0.5" = some "q=0.5" ∧
    qualityAsSpecified Example.parseFloat "gzip;level=1;q=0.5" = .fin (1 / 2) ∧
    parseAcceptEncoding Example.parseFloat (some "gzip;level=1;q=0.5")
      = [{ encoding := "gzip", quality := .fin 1 }] ∧
    (parseEncodingItem Example.parseFloat "gzip;level=1;q=0.5").quality
      ≠ qualityAsSpecified Example.parseFloat "gzip;level=1;q=0.5" := by
  have h1 : weightParameter "gzip;level=1;q=0.5" = some "q=0.5" := by decide
  have h2 : qualityAsSpecified Example.parseFloat "gzip;level=1;q=0.5" = .fin (1 / 2) := by
    simp only [qualityAsSpecified, h1]
    rfl
  have h3 : parseEncodingItem Example.parseFloat "gzip;level=1;q=0.5"
      = { encoding := "gzip", quality := .fin 1 } := by
    rfl
  refine ⟨h1, h2, ?_, ?_⟩
  · rfl
  · rw [h2, h3]
    intro h
    injection h with h
    norm_num at h

/-- C25 (amended): for every accept-encoding header value,
`parseAcceptEncoding` returns `[]` for an absent or empty header and
otherwise one `\x7bencoding, quality\x7d` entry per comma-separated item of
the header (the result is a rearrangement of the entries of the items).  The
encoding of an item is the trimmed text before the first `;` of the trimmed
item.  The weight is read from the first parameter of the item only, its
second `;`-separated part: the quality is 1 when that part is absent or
does not start with `q=`, is 1 when `parseFloat` of the text after `q=` is
`NaN`, and is that number otherwise; it is never `NaN`.  So the quality is
the one the claim gives whenever the first parameter of the item is its
weight parameter or the item has no weight parameter. -/
theorem parseAcceptEncoding_entries (parseFloat : String → JsFloat) (header : Option String) :
    (truthy header = false → parseAcceptEncoding parseFloat header = []) ∧
    (truthy header = true →
      (parseAcceptEncoding parseFloat header).Perm
        ((jsSplit ',' (header.getD "")).map (parseEncodingItem parseFloat)) ∧
      (parseAcceptEncoding parseFloat header).length = (jsSplit ',' (header.getD "")).length ∧
      List.intercalate [','] ((jsSplit ',' (header.getD "")).map String.toList)
        = (header.getD "").toList ∧
      ∀ item ∈ jsSplit ',' (header.getD ""), ',' ∉ item.toList) ∧
    (∀ item : String,
      (parseEncodingItem parseFloat item).encoding
        = jsTrim (String.mk ((jsTrim item).toList.takeWhile (fun c => c != ';'))) ∧
      (∀ weight, ((jsSplit ';' (jsTrim item)).map jsTrim).get? 1 = some weight →
        jsStartsWith "q=" weight = true →
        (parseEncodingItem parseFloat item).quality
          = if (parseFloat (jsSubstringFrom 2 weight)).isNaN then .fin 1
            else parseFloat (jsSubstringFrom 2 weight)) ∧
      ((∀ weight, ((jsSplit ';' (jsTrim item)).map jsTrim).get? 1 = some weight →
          jsStartsWith "q=" weight = false) →
        (parseEncodingItem parseFloat item).quality = .fin 1) ∧
      (parseEncodingItem parseFloat item).quality ≠ .nan ∧
      ((jsStartsWith "q=" ((((jsSplit ';' (jsTrim item)).map jsTrim).get? 1).getD "") = true ∨
          weightParameter item = none) →
        (parseEncodingItem parseFloat item).quality = qualityAsSpecified parseFloat item)) := by
  refine ⟨?_, ?_, ?_⟩
  · intro h
    simp [parseAcceptEncoding, h]
  · intro h
    have hp : (parseAcceptEncoding parseFloat header).Perm
        ((jsSplit ',' (header.getD "")).map (parseEncodingItem parseFloat)) := by
      simp only [parseAcceptEncoding, h, Bool.not_true, Bool.false_eq_true, if_false]
      exact arraySort_perm _ _
    have hj := jsSplitChars_join ',' (header.getD "").toList
    refine ⟨hp, by rw [hp.length_eq, List.length_map], ?_, ?_⟩
    · have : (jsSplit ',' (header.getD "")).map String.toList
          = jsSplitChars ',' (header.getD "").toList := by
        simp [jsSplit, Function.comp_def]
      rw [this]
      exact hj.1
    · intro item hitem
      simp only [jsSplit, List.mem_map] at hitem
      obtain ⟨piece, hpiece, rfl⟩ := hitem
      exact hj.2 piece hpiece
  · intro item
    refine ⟨?_, ?_, ?_, parseEncodingItem_quality_ne_nan parseFloat item,
      parseEncodingItem_quality_asSpecified parseFloat item⟩
    · have hne : jsSplit ';' (jsTrim item) ≠ [] := by
        simp [jsSplit, jsSplitChars_ne_nil]
      have hh := jsSplit_head ';' (jsTrim item)
      cases hs : jsSplit ';' (jsTrim item) with
      | nil => exact absurd hs hne
      | cons part parts =>
        rw [hs] at hh
        simp only [List.headD_cons] at hh
        simp [parseEncodingItem, hs, hh]
    · intro weight hw hq
      have htr : truthy (some weight) = true := by
        cases hwl : weight.toList with
        | nil =>
          have : weight = "" := String.ext hwl
          subst this
          exact absurd hq (by decide)
        | cons c cs =>
          have : weight ≠ "" := by
            intro h0
            rw [h0] at hwl
            exact absurd hwl (by simp)
          simp [truthy, this]
      simp only [parseEncodingItem, hw, htr, hq, Bool.and_self, if_true, Option.getD_some]
    · intro hno
      simp only [parseEncodingItem]
      cases hw : ((jsSplit ';' (jsTrim item)).map jsTrim).get? 1 with
      | none => simp [truthy]
      | some weight => simp [hno weight hw]

set_option maxRecDepth 100000 in
/-- Witness of C25 (amended): a header of three items, the last with an
invalid weight. -/
theorem parseAcceptEncoding_entries_witness :
    (parseAcceptEncoding Example.parseFloat (some "gzip;q=0.5, br , x;q=abc")).Perm
      [{ encoding := "gzip", quality := .fin (1 / 2) }, { encoding := "br", quality := .fin 1 },
       { encoding := "x", quality := .fin 1 }] :=
  ((parseAcceptEncoding_entries Example.parseFloat (some "gzip;q=0.5, br , x;q=abc")).2.1
    (by decide)).1

/-! ## C30: the order of the entries -/

/-- C30: for every accept-encoding header value, the list returned by
`parseAcceptEncoding` is in order of non-increasing quality, is a
rearrangement of the entries parsed from the comma-separated items, and
keeps the entries of equal quality in the order of the header. -/
theorem parseAcceptEncoding_sorted (parseFloat : String → JsFloat) (header : Option String) :
    (parseAcceptEncoding parseFloat header).Pairwise
        (fun a b => JsFloat.le b.quality a.quality = true) ∧
    (parseAcceptEncoding parseFloat header).Perm
      (if truthy header then (jsSplit ',' (header.getD "")).map (parseEncodingItem parseFloat)
        else []) ∧
    (∀ q : JsFloat,
      (parseAcceptEncoding parseFloat header).filter (fun e => decide (e.quality = q))
        = (if truthy header then
            (jsSplit ',' (header.getD "")).map (parseEncodingItem parseFloat)
          else []).filter (fun e => decide (e.quality = q))) := by
  by_cases h : truthy header = true
  · simp only [parseAcceptEncoding, h, Bool.not_true, Bool.false_eq_true, if_false, if_true]
    refine ⟨arraySort_byQuality _ ?_, arraySort_perm _ _, fun q => arraySort_stable _ q⟩
    intro e he
    obtain ⟨item, _, rfl⟩ := List.mem_map.mp he
    exact parseEncodingItem_quality_ne_nan parseFloat item
  · have h0 : truthy header = false := by simpa using h
    simp [parseAcceptEncoding, h0]

end NetworkApp
